import Mathlib

/-!
# k6 results parser: performance summary and threshold evaluation

A shallow embedding of `scripts/parse-k6-results.js` (class `K6ResultsParser`).

Modelling conventions
* JavaScript numbers are exact rationals (`ℚ`). The one place where double-precision rounding
  can change which sample is selected, the index computation of `percentile`, is modelled a
  second time with that rounding (`toDouble`, `percentileDouble`); for the percentiles 50, 90, 95
  and 99 of the report the two indices are the same (`percentileDouble_eq_percentile`).
* A value that may be `null`/`undefined` (or `NaN` when it came from an `undefined` array read) is an
  `Option`.
* A JavaScript object used as a string-keyed dictionary is an association list in insertion order
  (`objSet` is property assignment, `List.lookup` is property read). `processMetric`,
  `generateSummary` and `parseFile` read own properties only, which is what the code does as long
  as no metric is named after a property inherited from `Object.prototype` (such as `toString` or
  `__proto__`); `processMetricOnChain`, `generateSummaryOnChain` and `parseFileOnChain` follow
  the same reads along the prototype chain, and `parseFileOnChain_eq_parseFile` shows that the two
  agree on every stream without such a name. The position integer-like keys take in
  `Object.keys` is not modelled; the results below are stated on lookups and membership, not on
  positions.
* Methods that mutate `this` become functions from the old state to the new state.
-/

namespace K6

/-! ## Numbers -/

/-- The JavaScript `Math.round`: nearest integer, ties towards `+∞`. -/
def mathRound (x : ℚ) : ℤ := ⌊x + 1 / 2⌋

/-- The expression `Math.round(x * 1000) / 1000` used for every rounded report field. -/
def round3 (x : ℚ) : ℚ := (mathRound (x * 1000) : ℚ) / 1000

/-! ## Threshold table -/

/-- Shape of the constant `THRESHOLDS`. -/
structure Thresholds where
  http_req_duration_p95 : ℚ
  http_req_duration_p95_authenticated : ℚ
  http_req_failed_rate : ℚ
  checks_rate : ℚ
  http_reqs_rate : ℚ
  deriving DecidableEq, Repr

/-- The constant `THRESHOLDS` (lines 17-30). -/
def THRESHOLDS : Thresholds where
  http_req_duration_p95 := 250
  http_req_duration_p95_authenticated := 300
  http_req_failed_rate := 1 / 10
  checks_rate := 9 / 10
  http_reqs_rate := 1

/-! ## Input records -/

/-- The `data` object of a `"Metric"` record, as far as `processMetric` reads it
(`thresholds`/`submetrics` absent are already `[]`, as `|| []` makes them). -/
structure MetricData where
  type : String
  thresholds : List String
  submetrics : List String
  deriving DecidableEq, Repr

/-- The `data` object of a `"Point"` record; `value = none` is a `null`/absent value. -/
structure PointData where
  time : String
  value : Option ℚ
  tags : List (String × String)
  deriving DecidableEq, Repr

/-- A successfully parsed JSON line, as far as `processMetric` inspects it: the `type`
discriminator, the `metric` name and the `data` object (`none` when the record has no `data`).
`other` is any value whose `type` is neither `"Metric"` nor `"Point"`; it also stands for the
JSON value `null`, on which reading `type` throws and the line is skipped with nothing done. -/
inductive Data where
  | metric (metric : String) (data : Option MetricData)
  | point (metric : String) (data : Option PointData)
  | other
  deriving DecidableEq, Repr

/-- One line of the input file: `none` when `JSON.parse` throws on it. -/
abbrev Line := Option Data

/-! ## Parser state and report -/

/-- The object stored by the `"Metric"` branch: `{name, type, thresholds, submetrics}`. -/
structure MetricDefn where
  name : String
  type : String
  thresholds : List String
  submetrics : List String
  deriving DecidableEq, Repr

/-- An entry of `this.metrics`: the definition fields (when the entry was written by the
`"Metric"` branch) and the `values` array (`none` when the object has no `values` property). -/
structure MetricEntry where
  defn : Option MetricDefn
  values : Option (List PointData)
  deriving DecidableEq, Repr

/-- An entry of `summary.metrics`. The fields read from the sorted array are `none` when the read
is `undefined` (the stored number would be `NaN`). -/
structure StatSummary where
  count : ℕ
  sum : ℚ
  avg : ℚ
  min : Option ℚ
  max : Option ℚ
  p50 : Option ℚ
  p90 : Option ℚ
  p95 : Option ℚ
  p99 : Option ℚ
  deriving DecidableEq, Repr

/-- The object `summary.performance.responseTime`. -/
structure ResponseTime where
  avg : ℚ
  p95 : Option ℚ
  p99 : Option ℚ
  deriving DecidableEq, Repr

/-- The objects `{total, rate}` of `summary.performance.errorRate` / `.requestRate`. -/
structure RateView where
  total : ℚ
  rate : ℚ
  deriving DecidableEq, Repr

/-- The object `summary.performance`; an absent property is `none`. -/
structure Performance where
  responseTime : Option ResponseTime
  errorRate : Option RateView
  requestRate : Option RateView
  deriving DecidableEq, Repr

/-- The object `summary.checks`: the initial `{}` (a truthy object whose `rate` and `total` are
`undefined`) or `{total, rate}`. -/
inductive ChecksView where
  | emptyObject
  | rated (total : ℚ) (rate : ℚ)
  deriving DecidableEq, Repr

/-- The template string of a violation `message`, kept as the template and the two numbers it
embeds (number formatting is not modelled). -/
inductive ViolationMessage where
  | responseTimeExceeds (actual : ℚ) (threshold : ℚ)
  | errorRateExceeds (actual : ℚ) (threshold : ℚ)
  | checkRateBelow (actual : ℚ) (threshold : ℚ)
  deriving DecidableEq, Repr

/-- An element of `summary.errors`. -/
structure Violation where
  type : String
  metric : String
  actual : ℚ
  threshold : ℚ
  message : ViolationMessage
  deriving DecidableEq, Repr

/-- An element of `summary.recommendations`. -/
structure Recommendation where
  type : String
  message : String
  deriving DecidableEq, Repr

/-- The object `this.summary` built by `generateSummary`. -/
structure Report where
  timestamp : String
  thresholds : Thresholds
  metrics : List (String × StatSummary)
  performance : Performance
  checks : ChecksView
  errors : List Violation
  recommendations : List Recommendation
  deriving DecidableEq, Repr

/-- Property assignment `o[k] = v` on a string-keyed object: an existing key keeps its position,
a new key is appended. -/
def objSet {α : Type} : List (String × α) → String → α → List (String × α)
  | [], k, v => [(k, v)]
  | (k', v') :: rest, k, v =>
    if k' = k then (k', v) :: rest else (k', v') :: objSet rest k v

end K6

/-- The state of a `K6ResultsParser` instance: `this.metrics` and `this.summary`
(`none` is the constructor's `{}`); `this.thresholds` is always `THRESHOLDS`. -/
structure K6ResultsParser where
  metrics : List (String × K6.MetricEntry)
  summary : Option K6.Report
  deriving DecidableEq, Repr

namespace K6ResultsParser

open K6

/-- The constructor. -/
def new : K6ResultsParser where
  metrics := []
  summary := none

/-- The method `processMetric(data)` acting on `this.metrics` (lines 69-94). The result is the
state it leaves behind, also when it throws (a record without `data`): the caller catches the
exception and only logs it. -/
def processMetric (metrics : List (String × MetricEntry)) : Data → List (String × MetricEntry)
  | .metric name (some d) =>
    objSet metrics name
      { defn := some { name := name, type := d.type, thresholds := d.thresholds,
                       submetrics := d.submetrics },
        values := none }
  | .metric _ none => metrics
  | .point name d =>
    let entry := (metrics.lookup name).getD { defn := none, values := some [] }
    let values := entry.values.getD []
    match d with
    | none => objSet metrics name { entry with values := some values }
    | some pd => objSet metrics name { entry with values := some (values ++ [pd]) }
  | .other => metrics

/-- The body of the `lines.forEach` callback of `parseFile` (lines 53-60). -/
def processLine (metrics : List (String × MetricEntry)) : Line → List (String × MetricEntry)
  | none => metrics
  | some data => processMetric metrics data

/-- The method `percentile(sorted, p)` (lines 187-190); `none` is an `undefined` array read. -/
def percentile (sorted : List ℚ) (p : ℚ) : Option ℚ :=
  let index : ℤ := ⌈(p / 100) * (sorted.length : ℚ)⌉ - 1
  sorted[(max 0 index).toNat]?

/-- The method `processMetricValues(metricName, metric)` acting on `this.summary`
(lines 128-182). `Array.prototype.sort` with the comparator `a - b` is an ascending sort; it
sorts `values` in place, so `count` and `sum` are taken from the sorted array. `values` is the
fresh array built by `map` and `filter`, so `metric.values` itself is left as it was. -/
def processMetricValues (metricName : String) (metric : MetricEntry) (summary : Report) :
    Report :=
  let values := ((metric.values.getD []).map (fun v => v.value)).reduceOption
  if values.length = 0 then summary
  else
    let sorted := values.insertionSort (· ≤ ·)
    let count := sorted.length
    let sum := sorted.foldl (· + ·) 0
    let avg := sum / (count : ℚ)
    let min := sorted[0]?
    let max := sorted[sorted.length - 1]?
    let p50 := percentile sorted 50
    let p90 := percentile sorted 90
    let p95 := percentile sorted 95
    let p99 := percentile sorted 99
    let stat : StatSummary :=
      { count := count, sum := sum, avg := round3 avg,
        min := min.map round3, max := max.map round3,
        p50 := p50.map round3, p90 := p90.map round3,
        p95 := p95.map round3, p99 := p99.map round3 }
    let summary := { summary with metrics := objSet summary.metrics metricName stat }
    if metricName = "http_req_duration" then
      { summary with performance := { summary.performance with
          responseTime := some { avg := stat.avg, p95 := stat.p95, p99 := stat.p99 } } }
    else if metricName = "http_req_failed" then
      { summary with performance := { summary.performance with
          errorRate := some { total := stat.sum, rate := stat.avg } } }
    else if metricName = "checks" then
      { summary with checks := .rated stat.sum stat.avg }
    else if metricName = "http_reqs" then
      { summary with performance := { summary.performance with
          requestRate := some { total := stat.sum, rate := stat.avg } } }
    else summary

/-- The method `evaluateThresholds()` acting on `this.summary` (lines 195-242). A comparison with
`undefined`/`NaN` is false, so a missing number pushes nothing; `summary.checks` is always an
object, hence always truthy. -/
def evaluateThresholds (summary : Report) : Report :=
  let summary :=
    match summary.performance.responseTime with
    | some rt =>
      match rt.p95 with
      | some p95 =>
        if p95 > THRESHOLDS.http_req_duration_p95 then
          let error : Violation :=
            { type := "PERFORMANCE", metric := "http_req_duration_p95", actual := p95,
              threshold := THRESHOLDS.http_req_duration_p95,
              message := .responseTimeExceeds p95 THRESHOLDS.http_req_duration_p95 }
          { summary with errors := summary.errors ++ [error] }
        else summary
      | none => summary
    | none => summary
  let summary :=
    match summary.performance.errorRate with
    | some er =>
      let errorRate := er.rate
      if errorRate > THRESHOLDS.http_req_failed_rate then
        let error : Violation :=
          { type := "RELIABILITY", metric := "http_req_failed_rate", actual := errorRate,
            threshold := THRESHOLDS.http_req_failed_rate,
            message := .errorRateExceeds errorRate THRESHOLDS.http_req_failed_rate }
        { summary with errors := summary.errors ++ [error] }
      else summary
    | none => summary
  match summary.checks with
  | .rated _ checkRate =>
    if checkRate < THRESHOLDS.checks_rate then
      let error : Violation :=
        { type := "FUNCTIONALITY", metric := "checks_rate", actual := checkRate,
          threshold := THRESHOLDS.checks_rate,
          message := .checkRateBelow checkRate THRESHOLDS.checks_rate }
      { summary with errors := summary.errors ++ [error] }
    else summary
  | .emptyObject => summary

/-- The `switch (error.type)` of `generateRecommendations` (lines 257-269); there is no
`default` case, so any other type keeps the initial `""`. -/
def recommendationText (type : String) : String :=
  if type = "PERFORMANCE" then
    "Consider optimizing API endpoints or increasing server resources to improve response times."
  else if type = "RELIABILITY" then
    "Investigate API errors and improve error handling to reduce failure rates."
  else if type = "FUNCTIONALITY" then
    "Review test assertions and ensure API endpoints are working correctly."
  else ""

/-- The method `generateRecommendations()` acting on `this.summary` (lines 247-277). -/
def generateRecommendations (summary : Report) : Report :=
  if summary.errors.length = 0 then
    let success : Recommendation :=
      { type := "SUCCESS", message := "All performance thresholds met! 🎉" }
    { summary with recommendations := summary.recommendations ++ [success] }
  else
    let push (recs : List Recommendation) (error : Violation) : List Recommendation :=
      recs ++ [{ type := error.type, message := recommendationText error.type }]
    { summary with recommendations := summary.errors.foldl push summary.recommendations }

/-- The callback of `Object.keys(this.metrics).forEach` in `generateSummary` (lines 113-119). -/
def summarizeMetric (summary : Report) (kv : String × MetricEntry) : Report :=
  match kv.2.values with
  | some values => if values.length > 0 then processMetricValues kv.1 kv.2 summary else summary
  | none => summary

/-- The method `generateSummary()` (lines 99-123); `now` is the value of
`new Date().toISOString()`. -/
def generateSummary (now : String) (self : K6ResultsParser) : K6ResultsParser :=
  let summary : Report :=
    { timestamp := now, thresholds := THRESHOLDS, metrics := [],
      performance := { responseTime := none, errorRate := none, requestRate := none },
      checks := .emptyObject, errors := [], recommendations := [] }
  let summary := self.metrics.foldl summarizeMetric summary
  let summary := evaluateThresholds summary
  let summary := generateRecommendations summary
  { self with summary := some summary }

/-- The method `parseFile(filePath)` (lines 42-64). `file = none` when the path does not exist,
otherwise the lines of `content.trim().split("\n")`. The value the method returns is the
`summary` of the resulting parser. -/
def parseFile (now : String) (file : Option (List Line)) (self : K6ResultsParser) :
    Except String K6ResultsParser :=
  match file with
  | none => .error "k6 results file not found"
  | some lines =>
    .ok (generateSummary now { self with metrics := lines.foldl processLine self.metrics })

end K6ResultsParser

/-! ## The threshold rules as the specification words them -/

namespace K6

/-- Rule (1): one PERFORMANCE violation iff `responseTime` is present and its p95 exceeds 250. -/
def specPerformanceRule (performance : Performance) : List Violation :=
  match performance.responseTime with
  | none => []
  | some rt =>
    match rt.p95 with
    | none => []
    | some p95 =>
      if 250 < p95 then
        [{ type := "PERFORMANCE", metric := "http_req_duration_p95", actual := p95,
           threshold := 250, message := .responseTimeExceeds p95 250 }]
      else []

/-- Rule (2): one RELIABILITY violation iff `errorRate` is present and its rate exceeds 0.1. -/
def specReliabilityRule (performance : Performance) : List Violation :=
  match performance.errorRate with
  | none => []
  | some er =>
    if 1 / 10 < er.rate then
      [{ type := "RELIABILITY", metric := "http_req_failed_rate", actual := er.rate,
         threshold := 1 / 10, message := .errorRateExceeds er.rate (1 / 10) }]
    else []

/-- Rule (3): one FUNCTIONALITY violation iff a checks rate is present and it is below 0.9. -/
def specFunctionalityRule (checks : ChecksView) : List Violation :=
  match checks with
  | .emptyObject => []
  | .rated _ rate =>
    if rate < 9 / 10 then
      [{ type := "FUNCTIONALITY", metric := "checks_rate", actual := rate,
         threshold := 9 / 10, message := .checkRateBelow rate (9 / 10) }]
    else []

/-- The violation sequence of the specification: the three rules, each decided on its own view,
concatenated in the order performance, reliability, functionality. -/
def specViolations (performance : Performance) (checks : ChecksView) : List Violation :=
  specPerformanceRule performance ++ specReliabilityRule performance ++
    specFunctionalityRule checks

/-- The index of the specification's nearest-rank rule: `ceil(p/100 × n) − 1`, clamped to
`[0, n − 1]`. -/
def nearestRankIndex (n : ℕ) (p : ℚ) : ℕ :=
  (min (max (⌈p / 100 * (n : ℚ)⌉ - 1) 0) ((n : ℤ) - 1)).toNat

/-- The array `values` of `processMetricValues`: the sample values that are neither `null` nor
`undefined`, in recording order. -/
def validValues (samples : List PointData) : List ℚ :=
  (samples.map (fun v => v.value)).reduceOption

/-- The object `processMetricValues` stores in `summary.metrics[metricName]`, as a function of
the non-null values (lines 136-157). -/
def statOf (values : List ℚ) : StatSummary :=
  let sorted := values.insertionSort (· ≤ ·)
  { count := sorted.length
    sum := sorted.foldl (· + ·) 0
    avg := round3 (sorted.foldl (· + ·) 0 / (sorted.length : ℚ))
    min := sorted[0]?.map round3
    max := sorted[sorted.length - 1]?.map round3
    p50 := (K6ResultsParser.percentile sorted 50).map round3
    p90 := (K6ResultsParser.percentile sorted 90).map round3
    p95 := (K6ResultsParser.percentile sorted 95).map round3
    p99 := (K6ResultsParser.percentile sorted 99).map round3 }

/-- The special handling of lines 159-181: the view a metric name is projected into. -/
def withViews (metricName : String) (stat : StatSummary) (summary : Report) : Report :=
  if metricName = "http_req_duration" then
    { summary with performance := { summary.performance with
        responseTime := some { avg := stat.avg, p95 := stat.p95, p99 := stat.p99 } } }
  else if metricName = "http_req_failed" then
    { summary with performance := { summary.performance with
        errorRate := some { total := stat.sum, rate := stat.avg } } }
  else if metricName = "checks" then
    { summary with checks := .rated stat.sum stat.avg }
  else if metricName = "http_reqs" then
    { summary with performance := { summary.performance with
        requestRate := some { total := stat.sum, rate := stat.avg } } }
  else summary

/-- The two views hold exactly what the per-metric summaries of the special-cased names hold. -/
def ViewsAgree (s : Report) : Prop :=
  s.performance.responseTime =
      (s.metrics.lookup "http_req_duration").map
        (fun st => ({ avg := st.avg, p95 := st.p95, p99 := st.p99 } : ResponseTime)) ∧
    s.performance.errorRate =
      (s.metrics.lookup "http_req_failed").map
        (fun st => ({ total := st.sum, rate := st.avg } : RateView)) ∧
    s.performance.requestRate =
      (s.metrics.lookup "http_reqs").map
        (fun st => ({ total := st.sum, rate := st.avg } : RateView)) ∧
    s.checks =
      match s.metrics.lookup "checks" with
      | none => ChecksView.emptyObject
      | some st => ChecksView.rated st.sum st.avg

instance (s : Report) : Decidable (ViewsAgree s) := by
  unfold ViewsAgree
  infer_instance

/-- The input line of a well-formed `"Point"` record for metric `m` with data `pd`. -/
def pointLine (m : String) (pd : PointData) : Line :=
  some (.point m (some pd))

/-- Scenario A of the specification: the five `http_req_duration` samples 100, 150, 200, 900,
110, in that order. -/
def samplesA : List PointData :=
  [{ time := "t1", value := some 100, tags := [] }, { time := "t2", value := some 150, tags := [] },
   { time := "t3", value := some 200, tags := [] }, { time := "t4", value := some 900, tags := [] },
   { time := "t5", value := some 110, tags := [] }]

/-- The input stream of scenario A. -/
def scenarioA : List Line :=
  samplesA.map (pointLine "http_req_duration")

/-- The report of scenario A. -/
def reportA (now : String) : Report where
  timestamp := now
  thresholds := THRESHOLDS
  metrics := [("http_req_duration",
    { count := 5, sum := 1460, avg := 292, min := some 100, max := some 900, p50 := some 150,
      p90 := some 900, p95 := some 900, p99 := some 900 })]
  performance :=
    { responseTime := some { avg := 292, p95 := some 900, p99 := some 900 },
      errorRate := none, requestRate := none }
  checks := .emptyObject
  errors := [{ type := "PERFORMANCE", metric := "http_req_duration_p95", actual := 900,
               threshold := 250, message := .responseTimeExceeds 900 250 }]
  recommendations := [{ type := "PERFORMANCE", message :=
    "Consider optimizing API endpoints or increasing server resources to improve response times." }]

/-- The parser after `parseFile` on scenario A. -/
def parserA (now : String) : K6ResultsParser where
  metrics := [("http_req_duration", { defn := none, values := some samplesA })]
  summary := some (reportA now)

/-- A stream in which the `"Metric"` record of `http_req_duration` comes after a `"Point"`
record of that metric. -/
def lateDefinition : List Line :=
  [pointLine "http_req_duration" { time := "t1", value := some 100, tags := [] },
   some (.metric "http_req_duration"
     (some { type := "trend", thresholds := [], submetrics := [] }))]

/-- A stream whose statistics lie within half a thousandth beyond the three limits: response
time 250.0004, error rate 0.1004, check rate 0.8996. -/
def nearLimit : List Line :=
  [pointLine "http_req_duration" { time := "t1", value := some (2500004 / 10000), tags := [] },
   pointLine "http_req_failed" { time := "t1", value := some (1004 / 10000), tags := [] },
   pointLine "checks" { time := "t1", value := some (8996 / 10000), tags := [] }]

/-- A stream with one `http_req_duration` sample of 12.3456 ms. -/
def fineGrained : List Line :=
  [pointLine "http_req_duration" { time := "t1", value := some (123456 / 10000), tags := [] }]

/-- The report `generateSummary` starts from, before any metric is processed. -/
def emptyReport (now : String) : Report where
  timestamp := now
  thresholds := THRESHOLDS
  metrics := []
  performance := { responseTime := none, errorRate := none, requestRate := none }
  checks := .emptyObject
  errors := []
  recommendations := []

end K6

/-! ## The command `parse-results` -/

namespace ParseK6Results

open K6

/-- The expression `args[1] || "k6-summary.json"` (line 352), on the arguments after the first:
an absent or empty second argument is falsy. -/
def outputFile (rest : List String) : String :=
  match rest.head? with
  | some path => if path = "" then "k6-summary.json" else path
  | none => "k6-summary.json"

/-- The function `main` of `parse-k6-results.js` (lines 341-375), as the exit code the process
ends with. `args` is `process.argv.slice(2)`, `readFile` gives the lines of a file (`none` when
the path does not exist) and `writable` says whether `fs.writeFileSync` succeeds on a path
(it throws otherwise, which the `catch` turns into exit code 1). `printSummary` only writes to
the console. -/
def main (now : String) (args : List String) (readFile : String → Option (List Line))
    (writable : String → Bool) : ℕ :=
  match args with
  | [] => 1
  | inputFile :: rest =>
    match K6ResultsParser.parseFile now (readFile inputFile) K6ResultsParser.new with
    | .error _ => 1
    | .ok parser =>
      if writable (outputFile rest) then
        match parser.summary with
        | some summary => if summary.errors.length > 0 then 1 else 0
        | none => 1
      else 1

end ParseK6Results

/-! ## The command `notify` -/

namespace K6

/-- How JavaScript renders a number inside a template string (`toString`) and with
`toFixed(2)` (`toFixed2`); the renderings themselves are not modelled. -/
structure NumberFormat where
  toString : ℚ → String
  toFixed2 : ℚ → String

/-- The environment variables the notifier reads; `none` is an unset variable. -/
structure Env where
  NODE_ENV : Option String
  GITHUB_REF : Option String
  GITHUB_SHA : Option String

/-- The expression `v || d` on an environment variable: unset and empty values are falsy. -/
def orDefault (v : Option String) (d : String) : String :=
  match v with
  | some s => if s = "" then d else s
  | none => d

/-- The text of a violation `message`, from its template (lines 208, 223, 238 of
`parse-k6-results.js`). -/
def ViolationMessage.render (fmt : NumberFormat) : ViolationMessage → String
  | .responseTimeExceeds actual threshold =>
    "Response time p95 (" ++ fmt.toString actual ++ "ms) exceeds threshold (" ++
      fmt.toString threshold ++ "ms)"
  | .errorRateExceeds actual threshold =>
    "Error rate (" ++ fmt.toFixed2 (actual * 100) ++ "%) exceeds threshold (" ++
      fmt.toFixed2 (threshold * 100) ++ "%)"
  | .checkRateBelow actual threshold =>
    "Check pass rate (" ++ fmt.toFixed2 (actual * 100) ++ "%) below threshold (" ++
      fmt.toFixed2 (threshold * 100) ++ "%)"

/-- A number field of a report read back from its JSON file, inside a template string: a `NaN`
was written as `null`. -/
def NumberFormat.field (fmt : NumberFormat) : Option ℚ → String
  | some x => fmt.toString x
  | none => "null"

end K6

/-- The state of a `TestFailureNotifier` instance: `this.summary` (`none` is `null`);
`this.notificationChannels` is always the object with the single entry `console: true`. -/
structure TestFailureNotifier where
  summary : Option K6.Report

namespace TestFailureNotifier

open K6

/-- The constructor. -/
def new : TestFailureNotifier where
  summary := none

/-- The method `loadSummary(summaryPath)` (lines 31-42). `file` is `none` when the path does not
exist, `some none` when its content is not the JSON of a report (`JSON.parse` or the read of
`errors.length` throws), and `some (some r)` when it holds the report `r`. -/
def loadSummary (file : Option (Option Report)) (_self : TestFailureNotifier) :
    Except String TestFailureNotifier :=
  match file with
  | none => .error "Summary file not found"
  | some none => .error "invalid summary"
  | some (some r) => .ok { summary := some r }

/-- The method `hasFailures()` (lines 47-49). -/
def hasFailures (self : TestFailureNotifier) : Bool :=
  match self.summary with
  | none => false
  | some summary => summary.errors.length > 0

/-- The method `generateMessage()` (lines 54-127); `timestamp` is the value of
`new Date().toISOString()`. `summary.checks` is always an object, hence truthy: on the empty
object `rate * 100` is `NaN` and `total` is `undefined`. -/
def generateMessage (fmt : NumberFormat) (env : Env) (timestamp : String)
    (self : TestFailureNotifier) : Except String String :=
  match self.summary with
  | none => .error "No summary loaded"
  | some summary =>
    if self.hasFailures then
      let message := "🚨 **K6 Load Test Failures Detected**\n\n"
      let message := message ++ ("**Timestamp:** " ++ timestamp ++ "\n")
      let message := message ++ ("**Environment:** " ++ orDefault env.NODE_ENV "CI" ++ "\n")
      let message := message ++ ("**Branch:** " ++ orDefault env.GITHUB_REF "unknown" ++ "\n")
      let message := message ++ ("**Commit:** " ++ orDefault env.GITHUB_SHA "unknown" ++ "\n\n")
      let message := message ++ "**Performance Metrics:**\n"
      let message :=
        match summary.performance.responseTime with
        | some rt =>
          message ++ ("• Response Time - Avg: " ++ fmt.toString rt.avg ++ "ms, P95: " ++
            fmt.field rt.p95 ++ "ms, P99: " ++ fmt.field rt.p99 ++ "ms\n")
        | none => message
      let message :=
        match summary.performance.errorRate with
        | some er =>
          message ++ ("• Error Rate: " ++ fmt.toFixed2 (er.rate * 100) ++ "% (" ++
            fmt.toString er.total ++ " errors)\n")
        | none => message
      let message :=
        match summary.checks with
        | .rated total rate =>
          message ++ ("• Check Pass Rate: " ++ fmt.toFixed2 (rate * 100) ++ "% (" ++
            fmt.toString total ++ " checks)\n")
        | .emptyObject => message ++ "• Check Pass Rate: NaN% (undefined checks)\n"
      let message := message ++ "\n**Failed Thresholds:**\n"
      let message :=
        summary.errors.enum.foldl
          (fun message ie =>
            let message := message ++ (toString (ie.1 + 1) ++ ". **" ++ ie.2.type ++ "**: " ++
              ie.2.message.render fmt ++ "\n")
            let message := message ++ ("   - Actual: " ++ fmt.toString ie.2.actual ++ "\n")
            message ++ ("   - Threshold: " ++ fmt.toString ie.2.threshold ++ "\n"))
          message
      let message := message ++ "\n**Recommendations:**\n"
      let message :=
        summary.recommendations.foldl (fun message rec => message ++ ("• " ++ rec.message ++ "\n"))
          message
      let message := message ++ "\n**Next Steps:**\n"
      let message := message ++ "• Review the failing metrics above\n"
      let message := message ++ "• Check recent code changes that might affect performance\n"
      let message := message ++ "• Investigate server resources and API endpoint health\n"
      let message := message ++
        "• Consider rolling back if performance degradation is significant\n"
      .ok message
    else
      let message := "✅ **K6 Load Tests Passed Successfully**\n\n"
      let message := message ++ ("**Timestamp:** " ++ timestamp ++ "\n")
      let message := message ++ ("**Environment:** " ++ orDefault env.NODE_ENV "CI" ++ "\n")
      let message := message ++ ("**Branch:** " ++ orDefault env.GITHUB_REF "unknown" ++ "\n")
      let message := message ++ ("**Commit:** " ++ orDefault env.GITHUB_SHA "unknown" ++ "\n\n")
      let message := message ++ "**Performance Metrics:**\n"
      let message :=
        match summary.performance.responseTime with
        | some rt =>
          message ++ ("• Response Time - Avg: " ++ fmt.toString rt.avg ++ "ms, P95: " ++
            fmt.field rt.p95 ++ "ms, P99: " ++ fmt.field rt.p99 ++ "ms\n")
        | none => message
      let message :=
        match summary.performance.errorRate with
        | some er =>
          message ++ ("• Error Rate: " ++ fmt.toFixed2 (er.rate * 100) ++ "% (" ++
            fmt.toString er.total ++ " errors)\n")
        | none => message
      let message :=
        match summary.checks with
        | .rated total rate =>
          message ++ ("• Check Pass Rate: " ++ fmt.toFixed2 (rate * 100) ++ "% (" ++
            fmt.toString total ++ " checks)\n")
        | .emptyObject => message ++ "• Check Pass Rate: NaN% (undefined checks)\n"
      let message := message ++
        "\n🎉 All performance thresholds met! The system is performing well."
      .ok message

/-- The method `sendNotifications()` (lines 213-232): the message handed to the console channel.
`notificationChannels` has no `slack` or `discord` entry, so no other channel is called. -/
def sendNotifications (fmt : NumberFormat) (env : Env) (timestamp : String)
    (self : TestFailureNotifier) : Except String String :=
  generateMessage fmt env timestamp self

end TestFailureNotifier

namespace NotifyTestFailure

open K6

/-- The function `main` of `notify-test-failure.js` (lines 261-292), as the exit code the
process ends with. `readReport` gives the content of the summary file as `loadSummary` takes it.
On the failure path `generateDebugReport` writes a file; the exit code is 1 whether or not that
write throws. -/
def main (fmt : NumberFormat) (env : Env) (timestamp : String) (args : List String)
    (readReport : String → Option (Option Report)) : ℕ :=
  match args with
  | [] => 1
  | summaryFile :: _ =>
    match TestFailureNotifier.loadSummary (readReport summaryFile) TestFailureNotifier.new with
    | .error _ => 1
    | .ok notifier =>
      match TestFailureNotifier.sendNotifications fmt env timestamp notifier with
      | .error _ => 1
      | .ok _ => if notifier.hasFailures then 1 else 0

end NotifyTestFailure

/-! ## The summary handler of the load test -/

namespace IntegrationSmoke

/-- An entry of `m.thresholds`: its `ok` flag, `none` when the property is absent. -/
structure ThresholdResult where
  ok : Option Bool
  deriving DecidableEq, Repr

/-- An entry of `data.metrics`: its `values` and `thresholds` objects, `none` when absent. -/
structure MetricSummary where
  values : Option (List (String × ℚ))
  thresholds : Option (List (String × ThresholdResult))
  deriving DecidableEq, Repr

/-- The `metrics` object of the custom summary; an `undefined` number is `none`. -/
structure SummaryMetrics where
  http_req_duration_p95 : Option ℚ
  http_req_failed_rate : Option ℚ
  health_check_p95 : ℚ
  auth_endpoint_p95 : ℚ
  plan_endpoint_p95 : ℚ
  integration_error_rate : ℚ
  deriving DecidableEq, Repr

/-- The object serialised into `integration-test-summary.json`. -/
structure IntegrationSummary where
  timestamp : String
  test_type : String
  vus : String
  duration : String
  metrics : SummaryMetrics
  thresholds_passed : Bool
  deriving DecidableEq, Repr

/-- The expression `data.metrics.NAME?.values[KEY] || 0`: `0` when the metric is absent or the
value is `undefined` or `0`; the read of `values[KEY]` throws (`none`) when the metric is there
without `values`. -/
def optionalStat (metrics : List (String × MetricSummary)) (name key : String) : Option ℚ :=
  match metrics.lookup name with
  | none => some 0
  | some m =>
    match m.values with
    | none => none
    | some values => some ((values.lookup key).getD 0)

/-- The expression `data.metrics.NAME.values[KEY]`: the read throws (outer `none`) when the
metric or its `values` is absent. -/
def requiredStat (metrics : List (String × MetricSummary)) (name key : String) :
    Option (Option ℚ) :=
  match metrics.lookup name with
  | none => none
  | some m =>
    match m.values with
    | none => none
    | some values => some (values.lookup key)

/-- The callback `t => !m.thresholds[t].ok === false` (line 248): `!` binds tighter than `===`,
and an absent `ok` is falsy. -/
def thresholdOk (t : ThresholdResult) : Bool :=
  (!(t.ok.getD false)) == false

/-- The callback of `Object.keys(data.metrics).every` (lines 246-249). -/
def metricOk (m : MetricSummary) : Bool :=
  match m.thresholds with
  | none => true
  | some thresholds => thresholds.all (fun kt => thresholdOk kt.2)

/-- The function `handleSummary(data)` (lines 230-254): the object it serialises, `none` when a
property read throws. `vus` and `duration` are the constants `VUS` and `DURATION`. -/
def handleSummary (now vus duration : String) (metrics : List (String × MetricSummary)) :
    Option IntegrationSummary := do
  let http_req_duration_p95 ← requiredStat metrics "http_req_duration" "p(95)"
  let http_req_failed_rate ← requiredStat metrics "http_req_failed" "rate"
  let health_check_p95 ← optionalStat metrics "health_check_duration" "p(95)"
  let auth_endpoint_p95 ← optionalStat metrics "auth_endpoint_duration" "p(95)"
  let plan_endpoint_p95 ← optionalStat metrics "plan_endpoint_duration" "p(95)"
  let integration_error_rate ← optionalStat metrics "integration_errors" "rate"
  pure
    { timestamp := now
      test_type := "integration_load_test"
      vus := vus
      duration := duration
      metrics :=
        { http_req_duration_p95 := http_req_duration_p95
          http_req_failed_rate := http_req_failed_rate
          health_check_p95 := health_check_p95
          auth_endpoint_p95 := auth_endpoint_p95
          plan_endpoint_p95 := plan_endpoint_p95
          integration_error_rate := integration_error_rate }
      thresholds_passed := metrics.all (fun km => metricOk km.2) }

end IntegrationSmoke

/-! ## Specification-side definitions for the recommendation engine and the renderer -/

namespace K6

/-- The distinct categories of a violation sequence, in first-seen order. -/
def distinctCategories (violations : List Violation) : List String :=
  violations.foldl (fun seen v => if v.type ∈ seen then seen else seen ++ [v.type]) []

/-- The recommendation `generateRecommendations` pushes for one violation. -/
def recommendationFor (error : Violation) : Recommendation :=
  { type := error.type, message := K6ResultsParser.recommendationText error.type }

/-- The single recommendation of a run without violations. -/
def successRecommendation : Recommendation :=
  { type := "SUCCESS", message := "All performance thresholds met! 🎉" }

/-- The samples of the well-formed `"Point"` records of a metric, in stream order. -/
def pointsOf (name : String) (lines : List Line) : List PointData :=
  lines.filterMap fun l =>
    match l with
    | some (.point m (some pd)) => if m = name then some pd else none
    | _ => none

/-- Two PERFORMANCE violations in one sequence. -/
def repeatedCategory : List Violation :=
  [{ type := "PERFORMANCE", metric := "http_req_duration_p95", actual := 900, threshold := 250,
     message := .responseTimeExceeds 900 250 },
   { type := "PERFORMANCE", metric := "http_req_duration_p95", actual := 300, threshold := 250,
     message := .responseTimeExceeds 300 250 }]

/-- Concatenation of a list of strings, in order. -/
def concat (parts : List String) : String :=
  parts.foldr (· ++ ·) ""

end K6

namespace TestFailureNotifier

open K6

/-- The four lines of run metadata both messages carry. -/
def runMetadata (env : Env) (timestamp : String) : String :=
  ("**Timestamp:** " ++ timestamp ++ "\n") ++
    (("**Environment:** " ++ orDefault env.NODE_ENV "CI" ++ "\n") ++
      (("**Branch:** " ++ orDefault env.GITHUB_REF "unknown" ++ "\n") ++
        ("**Commit:** " ++ orDefault env.GITHUB_SHA "unknown" ++ "\n\n")))

/-- The response-time line of the performance snapshot, empty when the view is absent. -/
def responseTimeLine (fmt : NumberFormat) (r : Report) : String :=
  match r.performance.responseTime with
  | some rt =>
    "• Response Time - Avg: " ++ fmt.toString rt.avg ++ "ms, P95: " ++
      fmt.field rt.p95 ++ "ms, P99: " ++ fmt.field rt.p99 ++ "ms\n"
  | none => ""

/-- The error-rate line of the performance snapshot, empty when the view is absent. -/
def errorRateLine (fmt : NumberFormat) (r : Report) : String :=
  match r.performance.errorRate with
  | some er =>
    "• Error Rate: " ++ fmt.toFixed2 (er.rate * 100) ++ "% (" ++
      fmt.toString er.total ++ " errors)\n"
  | none => ""

/-- The check-pass-rate line of the performance snapshot. -/
def checkRateLine (fmt : NumberFormat) (r : Report) : String :=
  match r.checks with
  | .rated total rate =>
    "• Check Pass Rate: " ++ fmt.toFixed2 (rate * 100) ++ "% (" ++
      fmt.toString total ++ " checks)\n"
  | .emptyObject => "• Check Pass Rate: NaN% (undefined checks)\n"

/-- The performance snapshot: the lines between `**Performance Metrics:**` and the next
section. -/
def performanceSnapshot (fmt : NumberFormat) (r : Report) : String :=
  responseTimeLine fmt r ++ (errorRateLine fmt r ++ checkRateLine fmt r)

/-- The numbered entry of the violation `v` with number `n`: category and message on the first
line, then the actual value and the threshold. -/
def violationEntry (fmt : NumberFormat) (n : ℕ) (v : Violation) : String :=
  (toString n ++ ". **" ++ v.type ++ "**: " ++ v.message.render fmt ++ "\n") ++
    (("   - Actual: " ++ fmt.toString v.actual ++ "\n") ++
      ("   - Threshold: " ++ fmt.toString v.threshold ++ "\n"))

/-- The bullet of a recommendation. -/
def recommendationBullet (rc : Recommendation) : String :=
  "• " ++ rc.message ++ "\n"

/-- The "tests passed" message of the specification. -/
def passedMessage (fmt : NumberFormat) (env : Env) (timestamp : String) (r : Report) : String :=
  "✅ **K6 Load Tests Passed Successfully**\n\n" ++
    (runMetadata env timestamp ++
      ("**Performance Metrics:**\n" ++
        (performanceSnapshot fmt r ++
          "\n🎉 All performance thresholds met! The system is performing well.")))

/-- The "failures detected" message of the specification: the snapshot, one numbered entry per
violation (numbered from 1, in report order), one bullet per recommendation (in report order)
and the closing section. -/
def failuresMessage (fmt : NumberFormat) (env : Env) (timestamp : String) (r : Report) :
    String :=
  "🚨 **K6 Load Test Failures Detected**\n\n" ++
    (runMetadata env timestamp ++
      ("**Performance Metrics:**\n" ++
        (performanceSnapshot fmt r ++
          ("\n**Failed Thresholds:**\n" ++
            (concat ((r.errors.enumFrom 1).map fun nv => violationEntry fmt nv.1 nv.2) ++
              ("\n**Recommendations:**\n" ++
                (concat (r.recommendations.map recommendationBullet) ++
                  ("\n**Next Steps:**\n" ++
                    ("• Review the failing metrics above\n" ++
                      ("• Check recent code changes that might affect performance\n" ++
                        ("• Investigate server resources and API endpoint health\n" ++
                          "• Consider rolling back if performance degradation is significant\n"
                          )))))))))))

end TestFailureNotifier

namespace IntegrationSmoke

/-- The end-of-test data of a run whose `http_req_duration` threshold failed. -/
def slowRun : List (String × MetricSummary) :=
  [("http_req_duration",
    { values := some [("avg", 180), ("p(95)", 320)],
      thresholds := some [("p(95)<250", { ok := some false })] }),
   ("http_req_failed",
    { values := some [("rate", 0)],
      thresholds := some [("rate<0.1", { ok := some true })] }),
   ("http_reqs", { values := some [("count", 400)], thresholds := none })]

/-- The summary `handleSummary` builds for `slowRun`. -/
def slowRunSummary (now vus duration : String) : IntegrationSummary where
  timestamp := now
  test_type := "integration_load_test"
  vus := vus
  duration := duration
  metrics :=
    { http_req_duration_p95 := some 320
      http_req_failed_rate := some 0
      health_check_p95 := 0
      auth_endpoint_p95 := 0
      plan_endpoint_p95 := 0
      integration_error_rate := 0 }
  thresholds_passed := false

end IntegrationSmoke

/-! ## The console summary and the `http_reqs` samples -/

namespace K6

/-- A number field of the report in a template string of the parser itself: `NaN` is rendered
as `NaN`. -/
def NumberFormat.number (fmt : NumberFormat) : Option ℚ → String
  | some x => fmt.toString x
  | none => "NaN"

/-- Whether a line is a `"Point"` record of the metric `http_reqs`. -/
def isHttpReqsPoint : Line → Bool
  | some (.point m _) => decide (m = "http_reqs")
  | _ => false

/-- A stream without any valid sample: an unparsable line, a `"Metric"` record, a record of
another type and a `"Point"` record whose value is null. -/
def noSampleStream : List Line :=
  [none, some (.metric "checks" (some { type := "rate", thresholds := [], submetrics := [] })),
   some .other, pointLine "checks" { time := "t0", value := none, tags := [] }]

/-- Scenario A followed by one `http_reqs` sample. -/
def scenarioAWithRequests : List Line :=
  scenarioA ++ [pointLine "http_reqs" { time := "t6", value := some 1, tags := [] }]

end K6

namespace K6ResultsParser

open K6

/-- The method `printSummary()` (lines 282-328): the arguments of its `console.log` calls, in
order. `summary.checks` is always an object, hence truthy: on the empty object `rate * 100` is
`NaN` and `total` is `undefined`. -/
def printSummary (fmt : NumberFormat) (summary : Report) : List String :=
  let out := ["\n" ++ String.mk (List.replicate 60 '=')]
  let out := out ++ ["📊 K6 PERFORMANCE TEST SUMMARY"]
  let out := out ++ [String.mk (List.replicate 60 '=')]
  let out :=
    match summary.performance.responseTime with
    | some rt =>
      out ++ ["\n⏱️  Response Time:",
        "   Average: " ++ fmt.toString rt.avg ++ "ms",
        "   P95: " ++ fmt.number rt.p95 ++ "ms",
        "   P99: " ++ fmt.number rt.p99 ++ "ms"]
    | none => out
  let out :=
    match summary.performance.errorRate with
    | some er =>
      out ++ ["\n❌ Error Rate:",
        "   Rate: " ++ fmt.toFixed2 (er.rate * 100) ++ "%",
        "   Total Errors: " ++ fmt.toString er.total]
    | none => out
  let out :=
    match summary.checks with
    | .rated total rate =>
      out ++ ["\n✅ Check Pass Rate:",
        "   Rate: " ++ fmt.toFixed2 (rate * 100) ++ "%",
        "   Total Checks: " ++ fmt.toString total]
    | .emptyObject =>
      out ++ ["\n✅ Check Pass Rate:", "   Rate: NaN%", "   Total Checks: undefined"]
  let out := out ++ ["\n🎯 Threshold Evaluation:"]
  let out :=
    if summary.errors.length = 0 then out ++ ["   ✅ All thresholds passed!"]
    else out ++ summary.errors.map (fun error => "   ❌ " ++ error.message.render fmt)
  let out := out ++ ["\n💡 Recommendations:"]
  let out :=
    out ++ summary.recommendations.map
      (fun rc => "   " ++ (if rc.type = "SUCCESS" then "✅" else "⚠️") ++ " " ++ rc.message)
  out ++ ["\n" ++ String.mk (List.replicate 60 '=')]

end K6ResultsParser

/-! ## Double-precision arithmetic of the percentile index -/

namespace K6

/-- Rounding of a rational to the nearest integer, ties to the even one. -/
def roundNearestEven (x : ℚ) : ℤ :=
  let f := ⌊x⌋
  if x - f < 1 / 2 then f
  else if 1 / 2 < x - f then f + 1
  else if f % 2 = 0 then f else f + 1

/-- The IEEE-754 double nearest to a rational (round to nearest, ties to even): with `e` the
binary exponent of `x`, the 53-bit significand `x / 2^(e - 52)` is rounded to an integer. This
is the rounding of doubles in their normal range, `2^(-1022) ≤ |x| < 2^1024`; subnormal numbers
and overflow are not modelled. -/
def toDouble (x : ℚ) : ℚ :=
  if x = 0 then 0
  else
    let e := Int.log 2 |x|
    (roundNearestEven (x / (2 : ℚ) ^ (e - 52)) : ℚ) * (2 : ℚ) ^ (e - 52)

/-- The integers 1 to 25 in ascending order. -/
def oneTo25 : List ℚ :=
  [1, 2, 3, 4, 5, 6, 7, 8, 9, 10, 11, 12, 13, 14, 15, 16, 17, 18, 19, 20, 21, 22, 23, 24, 25]

end K6

namespace K6ResultsParser

open K6

/-- The method `percentile(sorted, p)` (lines 187-190) with the index computed as JavaScript
computes it, in double precision: `p / 100` is rounded to a double, its product with
`sorted.length` is rounded to a double, and `Math.ceil` and `- 1` are exact. `p` is taken to be
a double itself. -/
def percentileDouble (sorted : List ℚ) (p : ℚ) : Option ℚ :=
  let ratio := toDouble (p / 100)
  let product := toDouble (ratio * (sorted.length : ℚ))
  let index : ℤ := ⌈product⌉ - 1
  sorted[(max 0 index).toNat]?

end K6ResultsParser

/-! ## The prototype chain of `this.metrics`

`this.metrics` is created as the plain object `{}` (line 34), so a property read
`this.metrics[name]` that finds no own property continues on `Object.prototype`. The definitions
of this section follow those reads; `Object.keys` lists own properties only. -/

namespace K6

/-- The function-valued properties every plain object inherits from `Object.prototype`, apart
from `constructor`. -/
def inheritedMethodNames : List String :=
  ["__defineGetter__", "__defineSetter__", "hasOwnProperty", "__lookupGetter__",
    "__lookupSetter__", "isPrototypeOf", "propertyIsEnumerable", "toString", "valueOf",
    "toLocaleString"]

/-- All property names a plain object inherits from an unmodified `Object.prototype`. -/
def inheritedNames : List String :=
  "__proto__" :: "constructor" :: inheritedMethodNames

/-- The object `this.metrics` with the part of its prototype chain that `processMetric` reaches:
its own properties in insertion order, the property `values` of `Object.prototype` (`none` while
`Object.prototype` has no such property, as at program start) and the own `values` arrays that
`processMetric` has attached to inherited methods. -/
structure MetricsObject where
  own : List (String × MetricEntry)
  protoValues : Option (List PointData)
  methodValues : List (String × List PointData)
  deriving DecidableEq, Repr

/-- The object `{}` of the constructor in a process whose `Object.prototype` is untouched. -/
def MetricsObject.fresh : MetricsObject where
  own := []
  protoValues := none
  methodValues := []

/-- The array after `values.push({time: data.data.time, ...})` (lines 87-91): a record without
`data` throws while the argument is built, and the array stays as it was. -/
def pushPoint (values : List PointData) : Option PointData → List PointData
  | none => values
  | some pd => values ++ [pd]

/-- The metric name a line carries, when it is a `"Metric"` or `"Point"` record. -/
def lineName : Line → Option String
  | some (.metric name _) => some name
  | some (.point name _) => some name
  | _ => none

/-- Whether a line names a metric after a property inherited from `Object.prototype`. -/
def usesInheritedName (l : Line) : Bool :=
  match lineName l with
  | some name => decide (name ∈ inheritedNames)
  | none => false

/-- One well-formed `"Point"` record of the metric `__proto__` (value 0.5), then the definition
of `checks`: the stream holds no `checks` sample. -/
def pollutedStream : List Line :=
  [pointLine "__proto__" { time := "t1", value := some (1 / 2), tags := [] },
    some (.metric "checks" (some { type := "rate", thresholds := [], submetrics := [] }))]

/-- Two well-formed `"Point"` records of the metric `__proto__` with a line that fails to parse
between them. -/
def protoPointStream : List Line :=
  [pointLine "__proto__" { time := "t1", value := some 100, tags := [] }, none,
    pointLine "__proto__" { time := "t2", value := some 300, tags := [] }]

end K6

namespace K6ResultsParser

open K6

/-- The method `processMetric(data)` (lines 69-94) with property reads resolved along the
prototype chain. In the `"Point"` branch `this.metrics[name]` is

* the own entry, when there is one: its `values` is its own array, else the inherited
  `Object.prototype.values` (the sample is pushed onto that shared array), else a new own `[]`;
* `Object.prototype` itself for `__proto__`: the sample is pushed onto `Object.prototype.values`,
  created as `[]` when absent;
* the function `Object` for `constructor`: `Object.values` is a built-in function without
  `push`, the call throws and nothing changes;
* the inherited method for a name of `inheritedMethodNames`: the sample goes to the method's own
  `values` array, else to the inherited `Object.prototype.values`, else to a new own `[]` of
  the method;
* the array `Object.prototype.values` for `values` once that property exists:
  `Array.prototype.values` is a function without `push`, the call throws and nothing changes;
* absent otherwise, and a new own entry `{values: []}` is created.

The `"Metric"` branch assigns `this.metrics[name]`, which creates or replaces an own property,
except for `__proto__`, where the assignment replaces the prototype of `this.metrics`: the chain
beyond that point is not followed, and the result is `none`. -/
def processMetricOnChain (obj : MetricsObject) : Data → Option MetricsObject
  | .metric name (some d) =>
    if name = "__proto__" then none
    else
      let entry : MetricEntry :=
        { defn := some { name := name, type := d.type, thresholds := d.thresholds,
                         submetrics := d.submetrics },
          values := none }
      some { obj with own := objSet obj.own name entry }
  | .metric _ none => some obj
  | .point name d =>
    match obj.own.lookup name with
    | some entry =>
      match entry.values, obj.protoValues with
      | some values, _ =>
        let entry : MetricEntry := { entry with values := some (pushPoint values d) }
        some { obj with own := objSet obj.own name entry }
      | none, some shared => some { obj with protoValues := some (pushPoint shared d) }
      | none, none =>
        let entry : MetricEntry := { entry with values := some (pushPoint [] d) }
        some { obj with own := objSet obj.own name entry }
    | none =>
      if name = "__proto__" then
        some { obj with protoValues := some (pushPoint (obj.protoValues.getD []) d) }
      else if name = "constructor" then some obj
      else if name ∈ inheritedMethodNames then
        match obj.methodValues.lookup name, obj.protoValues with
        | some values, _ =>
          some { obj with methodValues := objSet obj.methodValues name (pushPoint values d) }
        | none, some shared => some { obj with protoValues := some (pushPoint shared d) }
        | none, none =>
          some { obj with methodValues := objSet obj.methodValues name (pushPoint [] d) }
      else if name = "values" ∧ obj.protoValues.isSome then some obj
      else
        let entry : MetricEntry := { defn := none, values := some (pushPoint [] d) }
        some { obj with own := objSet obj.own name entry }
  | .other => some obj

/-- The body of the `lines.forEach` callback of `parseFile` (lines 53-60) on the chain. -/
def processLineOnChain (obj : MetricsObject) : Line → Option MetricsObject
  | none => some obj
  | some data => processMetricOnChain obj data

/-- The loop `lines.forEach` of `parseFile` on the chain. -/
def processLinesOnChain (obj : MetricsObject) : List Line → Option MetricsObject
  | [] => some obj
  | l :: ls => (processLineOnChain obj l).bind fun next => processLinesOnChain next ls

/-- The read `metric.values` on an own entry of `this.metrics`: its own array, else the one
inherited from `Object.prototype`. -/
def chainValues (protoValues : Option (List PointData)) (entry : MetricEntry) :
    Option (List PointData) :=
  match entry.values with
  | some values => some values
  | none => protoValues

/-- The callback of `Object.keys(this.metrics).forEach` in `generateSummary` (lines 113-119) on
the chain: the guard and `processMetricValues` read `metric.values` through `chainValues`. -/
def summarizeMetricOnChain (protoValues : Option (List PointData)) (summary : Report)
    (kv : String × MetricEntry) : Report :=
  match chainValues protoValues kv.2 with
  | some values =>
    let metric : MetricEntry := { defn := kv.2.defn, values := some values }
    if values.length > 0 then processMetricValues kv.1 metric summary else summary
  | none => summary

/-- The report built by `generateSummary()` (lines 99-123) on the chain: `Object.keys` lists
the own properties of `this.metrics`. -/
def generateSummaryOnChain (now : String) (obj : MetricsObject) : Report :=
  let summary : Report :=
    { timestamp := now, thresholds := THRESHOLDS, metrics := [],
      performance := { responseTime := none, errorRate := none, requestRate := none },
      checks := .emptyObject, errors := [], recommendations := [] }
  let summary := obj.own.foldl (summarizeMetricOnChain obj.protoValues) summary
  let summary := evaluateThresholds summary
  generateRecommendations summary

/-- The report `parseFile(filePath)` returns for an existing file with the given lines
(lines 47-63) on the chain; `none` when a `"Metric"` record named `__proto__` has replaced the
prototype of `this.metrics`. -/
def parseFileOnChain (now : String) (lines : List Line) (obj : MetricsObject) : Option Report :=
  (processLinesOnChain obj lines).map (generateSummaryOnChain now)

end K6ResultsParser

namespace K6

/-- The report of `pollutedStream`. -/
def pollutedReport (now : String) : Report where
  timestamp := now
  thresholds := THRESHOLDS
  metrics := [("checks",
    { count := 1, sum := 1 / 2, avg := 1 / 2, min := some (1 / 2), max := some (1 / 2),
      p50 := some (1 / 2), p90 := some (1 / 2), p95 := some (1 / 2), p99 := some (1 / 2) })]
  performance := { responseTime := none, errorRate := none, requestRate := none }
  checks := .rated (1 / 2) (1 / 2)
  errors := [{ type := "FUNCTIONALITY", metric := "checks_rate", actual := 1 / 2,
               threshold := 9 / 10, message := .checkRateBelow (1 / 2) (9 / 10) }]
  recommendations := [{ type := "FUNCTIONALITY", message :=
    "Review test assertions and ensure API endpoints are working correctly." }]

end K6

/-! ## Lemmas -/

namespace K6

theorem lookup_objSet_self {α : Type} (o : List (String × α)) (k : String) (v : α) :
    (objSet o k v).lookup k = some v := by
  induction o with
  | nil => simp [objSet, List.lookup]
  | cons kv rest ih =>
    obtain ⟨k', v'⟩ := kv
    by_cases h : k' = k
    · subst h
      simp [objSet, List.lookup]
    · have hb : (k == k') = false := by simpa using fun e => h e.symm
      simp [objSet, h, List.lookup, hb, ih]

theorem lookup_objSet_ne {α : Type} (o : List (String × α)) (k k' : String) (v : α)
    (h : k' ≠ k) : (objSet o k v).lookup k' = o.lookup k' := by
  induction o with
  | nil =>
    have hb : (k' == k) = false := by simpa using h
    simp [objSet, List.lookup, hb]
  | cons kv rest ih =>
    obtain ⟨k1, v1⟩ := kv
    by_cases h1 : k1 = k
    · subst h1
      have hb : (k' == k1) = false := by simpa using h
      simp [objSet, List.lookup, hb]
    · by_cases h2 : k' = k1
      · subst h2
        simp [objSet, h1, List.lookup]
      · have hb : (k' == k1) = false := by simpa using h2
        simp [objSet, h1, List.lookup, hb, ih]

end K6

namespace K6ResultsParser

open K6

theorem evaluateThresholds_errors (s : Report) :
    (evaluateThresholds s).errors = s.errors ++ specViolations s.performance s.checks := by
  obtain ⟨ts, th, ms, ⟨rt, er, rq⟩, ck, errs, recs⟩ := s
  rcases rt with _ | ⟨avg, _ | p95, p99⟩ <;> rcases er with _ | ⟨tot, rate⟩ <;>
    rcases ck with _ | ⟨ctot, crate⟩ <;>
    simp only [evaluateThresholds, specViolations, specPerformanceRule, specReliabilityRule,
      specFunctionalityRule, THRESHOLDS, gt_iff_lt] <;>
    (try split_ifs) <;> (try simp only []) <;> (try split_ifs) <;> (try simp only []) <;>
    (try split_ifs) <;> simp

theorem evaluateThresholds_frame (s : Report) :
    { evaluateThresholds s with errors := s.errors } = s := by
  obtain ⟨ts, th, ms, ⟨rt, er, rq⟩, ck, errs, recs⟩ := s
  rcases rt with _ | ⟨avg, _ | p95, p99⟩ <;> rcases er with _ | ⟨tot, rate⟩ <;>
    rcases ck with _ | ⟨ctot, crate⟩ <;>
    simp only [evaluateThresholds] <;>
    (try split_ifs) <;> (try simp only []) <;> (try split_ifs) <;> (try simp only []) <;>
    (try split_ifs) <;> rfl

theorem generateRecommendations_frame (s : Report) :
    { generateRecommendations s with recommendations := s.recommendations } = s := by
  unfold generateRecommendations
  split_ifs <;> rfl

theorem processMetricValues_errors (name : String) (m : MetricEntry) (s : Report) :
    (processMetricValues name m s).errors = s.errors ∧
      (processMetricValues name m s).recommendations = s.recommendations ∧
      (processMetricValues name m s).timestamp = s.timestamp ∧
      (processMetricValues name m s).thresholds = s.thresholds := by
  simp only [processMetricValues]
  split_ifs <;> simp

theorem summarizeMetric_errors (s : Report) (kv : String × MetricEntry) :
    (summarizeMetric s kv).errors = s.errors := by
  unfold summarizeMetric
  split
  · split_ifs
    · exact (processMetricValues_errors _ _ _).1
    · rfl
  · rfl

theorem foldl_summarizeMetric_errors (ms : List (String × MetricEntry)) (s : Report) :
    (ms.foldl summarizeMetric s).errors = s.errors := by
  induction ms generalizing s with
  | nil => rfl
  | cons kv rest ih => rw [List.foldl_cons, ih, summarizeMetric_errors]

end K6ResultsParser

namespace K6ResultsParser

open K6

theorem evaluateThresholds_performance (s : Report) :
    (evaluateThresholds s).performance = s.performance ∧
      (evaluateThresholds s).checks = s.checks ∧
      (evaluateThresholds s).metrics = s.metrics ∧
      (evaluateThresholds s).recommendations = s.recommendations := by
  have h := evaluateThresholds_frame s
  refine ⟨?_, ?_, ?_, ?_⟩
  · have e := congrArg (fun r : Report => r.performance) h
    exact e
  · have e := congrArg (fun r : Report => r.checks) h
    exact e
  · have e := congrArg (fun r : Report => r.metrics) h
    exact e
  · have e := congrArg (fun r : Report => r.recommendations) h
    exact e

theorem generateRecommendations_errors (s : Report) :
    (generateRecommendations s).errors = s.errors ∧
      (generateRecommendations s).performance = s.performance ∧
      (generateRecommendations s).checks = s.checks ∧
      (generateRecommendations s).metrics = s.metrics := by
  have h := generateRecommendations_frame s
  refine ⟨?_, ?_, ?_, ?_⟩
  · have e := congrArg (fun r : Report => r.errors) h
    exact e
  · have e := congrArg (fun r : Report => r.performance) h
    exact e
  · have e := congrArg (fun r : Report => r.checks) h
    exact e
  · have e := congrArg (fun r : Report => r.metrics) h
    exact e

/-- The report of `generateSummary`, as a function of the accumulated metrics. -/
theorem generateSummary_summary (now : String) (self : K6ResultsParser) :
    (generateSummary now self).summary =
      some (generateRecommendations
        (evaluateThresholds (self.metrics.foldl summarizeMetric (emptyReport now)))) := rfl

theorem generateSummary_metrics (now : String) (self : K6ResultsParser) :
    (generateSummary now self).metrics = self.metrics := rfl

/-- The index `percentile` reads is in bounds for a non-empty array and `0 ≤ p ≤ 100`, and it is
the clamped index of the specification. -/
theorem percentile_index (n : ℕ) (p : ℚ) (hn : 0 < n) (h100 : p ≤ 100) :
    (max 0 (⌈(p / 100) * (n : ℚ)⌉ - 1)).toNat < n ∧
      nearestRankIndex n p = (max 0 (⌈(p / 100) * (n : ℚ)⌉ - 1)).toNat := by
  have hn' : (0 : ℚ) < n := by exact_mod_cast hn
  have hx : (p / 100) * (n : ℚ) ≤ ((n : ℤ) : ℚ) := by
    have : p / 100 ≤ 1 := by linarith
    push_cast
    nlinarith
  have hc : ⌈(p / 100) * (n : ℚ)⌉ ≤ (n : ℤ) := Int.ceil_le.mpr hx
  have hn1 : (1 : ℤ) ≤ n := by exact_mod_cast hn
  constructor
  · omega
  · unfold nearestRankIndex
    congr 1
    omega

theorem percentile_eq_get (s : List ℚ) (p : ℚ) (hs : s ≠ []) (h100 : p ≤ 100) :
    ∃ i : Fin s.length, percentile s p = some (s.get i) ∧
      i.val = (max 0 (⌈(p / 100) * (s.length : ℚ)⌉ - 1)).toNat := by
  have hn : 0 < s.length := List.length_pos.mpr hs
  obtain ⟨hlt, -⟩ := percentile_index s.length p hn h100
  refine ⟨⟨_, hlt⟩, ?_, rfl⟩
  simp only [percentile, List.get_eq_getElem]
  exact List.getElem?_eq_getElem hlt

theorem percentile_mono (s : List ℚ) (p q : ℚ) (hs : s ≠ []) (hsorted : s.Sorted (· ≤ ·))
    (hpq : p ≤ q) (h100 : q ≤ 100) :
    ∃ a b, percentile s p = some a ∧ percentile s q = some b ∧ a ≤ b ∧ a ∈ s ∧ b ∈ s := by
  obtain ⟨i, hi, hiv⟩ := percentile_eq_get s p hs (hpq.trans h100)
  obtain ⟨j, hj, hjv⟩ := percentile_eq_get s q hs h100
  refine ⟨s.get i, s.get j, hi, hj, ?_, List.get_mem _ _ _, List.get_mem _ _ _⟩
  apply hsorted.rel_get_of_le
  rw [Fin.le_def, hiv, hjv]
  have hn' : (0 : ℚ) ≤ (s.length : ℚ) := by positivity
  have hx : (p / 100) * (s.length : ℚ) ≤ (q / 100) * (s.length : ℚ) := by
    apply mul_le_mul_of_nonneg_right _ hn'
    linarith
  have hc := Int.ceil_le_ceil hx
  omega

end K6ResultsParser

namespace K6ResultsParser

open K6

/-- The method `processMetricValues` in one equation: nothing happens without a non-null value,
otherwise the statistics are stored under the metric name and projected into its view. -/
theorem processMetricValues_eq (name : String) (m : MetricEntry) (s : Report) :
    processMetricValues name m s =
      if validValues (m.values.getD []) = [] then s
      else withViews name (statOf (validValues (m.values.getD [])))
        { s with metrics := objSet s.metrics name (statOf (validValues (m.values.getD []))) } := by
  by_cases h : validValues (m.values.getD []) = []
  · have h' : (List.map (fun v => v.value) (m.values.getD [])).reduceOption = [] := h
    simp [processMetricValues, h, h']
  · have h' : ¬ (List.map (fun v => v.value) (m.values.getD [])).reduceOption = [] := h
    simp only [processMetricValues, List.length_eq_zero, h', if_false, h]
    rfl

theorem round3_mono {x y : ℚ} (h : x ≤ y) : round3 x ≤ round3 y := by
  unfold round3 mathRound
  have h1 : x * 1000 + 1 / 2 ≤ y * 1000 + 1 / 2 := by linarith
  have h2 : ⌊x * 1000 + 1 / 2⌋ ≤ ⌊y * 1000 + 1 / 2⌋ := Int.floor_le_floor h1
  have h3 : ((⌊x * 1000 + 1 / 2⌋ : ℤ) : ℚ) ≤ ((⌊y * 1000 + 1 / 2⌋ : ℤ) : ℚ) := by exact_mod_cast h2
  exact div_le_div_of_nonneg_right h3 (by norm_num)

theorem round3_multiple (x : ℚ) : ∃ k : ℤ, round3 x = (k : ℚ) / 1000 :=
  ⟨mathRound (x * 1000), rfl⟩

theorem foldl_add_eq_sum (l : List ℚ) (a : ℚ) : l.foldl (· + ·) a = a + l.sum := by
  induction l generalizing a with
  | nil => simp
  | cons x xs ih => simp [List.foldl_cons, ih, add_assoc]

/-- What `statOf` holds for a non-empty array of values. -/
theorem statOf_spec (vals : List ℚ) (h : vals ≠ []) :
    ∃ mn a b c d mx : ℚ,
      (statOf vals).count = vals.length ∧ (statOf vals).sum = vals.sum ∧
      (statOf vals).avg = round3 (vals.sum / (vals.length : ℚ)) ∧
      (statOf vals).min = some (round3 mn) ∧ (statOf vals).max = some (round3 mx) ∧
      (statOf vals).p50 = some (round3 a) ∧ (statOf vals).p90 = some (round3 b) ∧
      (statOf vals).p95 = some (round3 c) ∧ (statOf vals).p99 = some (round3 d) ∧
      percentile (vals.insertionSort (· ≤ ·)) 50 = some a ∧
      percentile (vals.insertionSort (· ≤ ·)) 90 = some b ∧
      percentile (vals.insertionSort (· ≤ ·)) 95 = some c ∧
      percentile (vals.insertionSort (· ≤ ·)) 99 = some d ∧
      mn ∈ vals ∧ mx ∈ vals ∧ (∀ v ∈ vals, mn ≤ v) ∧ (∀ v ∈ vals, v ≤ mx) ∧
      mn ≤ a ∧ a ≤ b ∧ b ≤ c ∧ c ≤ d ∧ d ≤ mx := by
  have hperm : List.Perm (vals.insertionSort (· ≤ ·)) vals := List.perm_insertionSort _ vals
  have hsorted : (vals.insertionSort (· ≤ ·)).Sorted (· ≤ ·) := List.sorted_insertionSort _ vals
  have hlen : (vals.insertionSort (· ≤ ·)).length = vals.length := hperm.length_eq
  have hne : vals.insertionSort (· ≤ ·) ≠ [] := by
    intro e
    rw [e] at hperm
    exact h hperm.symm.eq_nil
  have hpos : 0 < (vals.insertionSort (· ≤ ·)).length := List.length_pos.mpr hne
  have hlast : (vals.insertionSort (· ≤ ·)).length - 1 < (vals.insertionSort (· ≤ ·)).length := by
    omega
  obtain ⟨a, b, c, d, ha, hb, hc, hd, hab, hbc, hcd, has, -, -, hds⟩ :
      ∃ a b c d, percentile (vals.insertionSort (· ≤ ·)) 50 = some a ∧
        percentile (vals.insertionSort (· ≤ ·)) 90 = some b ∧
        percentile (vals.insertionSort (· ≤ ·)) 95 = some c ∧
        percentile (vals.insertionSort (· ≤ ·)) 99 = some d ∧
        a ≤ b ∧ b ≤ c ∧ c ≤ d ∧ a ∈ vals.insertionSort (· ≤ ·) ∧
        b ∈ vals.insertionSort (· ≤ ·) ∧ c ∈ vals.insertionSort (· ≤ ·) ∧
        d ∈ vals.insertionSort (· ≤ ·) := by
    obtain ⟨a, b, ha, hb, hab, has, hbs⟩ :=
      percentile_mono _ 50 90 hne hsorted (by norm_num) (by norm_num)
    obtain ⟨b', c, hb', hc, hbc, -, hcs⟩ :=
      percentile_mono _ 90 95 hne hsorted (by norm_num) (by norm_num)
    obtain ⟨c', d, hc', hd, hcd, -, hds⟩ :=
      percentile_mono _ 95 99 hne hsorted (by norm_num) (by norm_num)
    have e1 : b' = b := Option.some.inj (hb'.symm.trans hb)
    have e2 : c' = c := Option.some.inj (hc'.symm.trans hc)
    subst e1 e2
    exact ⟨a, b', c', d, ha, hb, hc, hd, hab, hbc, hcd, has, hbs, hcs, hds⟩
  have hmin : ∀ v ∈ vals.insertionSort (· ≤ ·), (vals.insertionSort (· ≤ ·)).get ⟨0, hpos⟩ ≤ v := by
    intro v hv
    obtain ⟨j, rfl⟩ := List.get_of_mem hv
    exact hsorted.rel_get_of_le (Fin.mk_le_mk.mpr (Nat.zero_le _))
  have hmax : ∀ v ∈ vals.insertionSort (· ≤ ·),
      v ≤ (vals.insertionSort (· ≤ ·)).get ⟨_, hlast⟩ := by
    intro v hv
    obtain ⟨j, rfl⟩ := List.get_of_mem hv
    exact hsorted.rel_get_of_le (Fin.le_def.mpr (by have := j.isLt; simp only; omega))
  refine ⟨(vals.insertionSort (· ≤ ·)).get ⟨0, hpos⟩, a, b, c, d,
    (vals.insertionSort (· ≤ ·)).get ⟨_, hlast⟩, ?_, ?_, ?_, ?_, ?_, ?_, ?_, ?_, ?_,
    ha, hb, hc, hd, ?_, ?_, ?_, ?_, ?_, hab, hbc, hcd, ?_⟩
  · exact hlen
  · simp only [statOf, foldl_add_eq_sum, zero_add]
    exact hperm.sum_eq
  · simp only [statOf, foldl_add_eq_sum, zero_add, hlen, hperm.sum_eq]
  · simp only [statOf, List.get_eq_getElem, List.getElem?_eq_getElem hpos, Option.map_some']
  · simp only [statOf, List.get_eq_getElem, List.getElem?_eq_getElem hlast, Option.map_some']
  · simp only [statOf, ha, Option.map_some']
  · simp only [statOf, hb, Option.map_some']
  · simp only [statOf, hc, Option.map_some']
  · simp only [statOf, hd, Option.map_some']
  · exact hperm.mem_iff.mp (List.get_mem _ _ _)
  · exact hperm.mem_iff.mp (List.get_mem _ _ _)
  · exact fun v hv => hmin v (hperm.mem_iff.mpr hv)
  · exact fun v hv => hmax v (hperm.mem_iff.mpr hv)
  · exact hmin a has
  · exact hmax d hds

end K6ResultsParser

namespace K6

theorem mem_objSet {α : Type} (o : List (String × α)) (k : String) (v : α) (kv : String × α)
    (h : kv ∈ objSet o k v) : kv ∈ o ∨ kv = (k, v) := by
  induction o with
  | nil =>
    simp only [objSet, List.mem_singleton] at h
    exact Or.inr h
  | cons hd rest ih =>
    obtain ⟨k1, v1⟩ := hd
    by_cases h1 : k1 = k
    · subst h1
      simp only [objSet, if_true, List.mem_cons] at h
      rcases h with h | h
      · exact Or.inr h
      · exact Or.inl (List.mem_cons_of_mem _ h)
    · simp only [objSet, h1, if_false, List.mem_cons] at h
      rcases h with h | h
      · exact Or.inl (h ▸ List.mem_cons_self _ _)
      · rcases ih h with h' | h'
        · exact Or.inl (List.mem_cons_of_mem _ h')
        · exact Or.inr h'

theorem mem_of_lookup {α : Type} (o : List (String × α)) (k : String) (v : α)
    (h : o.lookup k = some v) : (k, v) ∈ o := by
  induction o with
  | nil => simp [List.lookup] at h
  | cons hd rest ih =>
    obtain ⟨k1, v1⟩ := hd
    by_cases h1 : k = k1
    · subst h1
      simp only [List.lookup, beq_self_eq_true, Option.some.injEq] at h
      subst h
      exact List.mem_cons_self _ _
    · have hb : (k == k1) = false := by simpa using h1
      simp only [List.lookup, hb] at h
      exact List.mem_cons_of_mem _ (ih h)

theorem lookup_eq_none_of_not_mem {α : Type} (o : List (String × α)) (k : String)
    (h : ∀ v, (k, v) ∉ o) : o.lookup k = none := by
  cases e : o.lookup k with
  | none => rfl
  | some v => exact absurd (mem_of_lookup o k v e) (h v)

theorem withViews_metrics (name : String) (stat : StatSummary) (s : Report) :
    (withViews name stat s).metrics = s.metrics := by
  unfold withViews
  split_ifs <;> rfl

end K6

namespace K6ResultsParser

open K6

theorem summarizeMetric_eq (s : Report) (kv : String × MetricEntry) :
    summarizeMetric s kv = processMetricValues kv.1 kv.2 s := by
  obtain ⟨name, defn, values⟩ := kv
  cases values with
  | none => simp [summarizeMetric, processMetricValues_eq, validValues, List.reduceOption]
  | some vs =>
    cases vs with
    | nil => simp [summarizeMetric, processMetricValues_eq, validValues, List.reduceOption]
    | cons v rest => simp [summarizeMetric]

theorem processMetricValues_metrics_mem (name : String) (m : MetricEntry) (s : Report)
    (kv : String × StatSummary) (h : kv ∈ (processMetricValues name m s).metrics) :
    kv ∈ s.metrics ∨
      (validValues (m.values.getD []) ≠ [] ∧
        kv = (name, statOf (validValues (m.values.getD [])))) := by
  rw [processMetricValues_eq] at h
  by_cases hv : validValues (m.values.getD []) = []
  · rw [if_pos hv] at h
    exact Or.inl h
  · rw [if_neg hv, withViews_metrics] at h
    rcases mem_objSet _ _ _ _ h with h' | h'
    · exact Or.inl h'
    · exact Or.inr ⟨hv, h'⟩

/-- Every summary produced by the loop of `generateSummary` is the statistics of the non-null
values of an entry of `this.metrics` that has at least one such value. -/
theorem foldl_summarizeMetric_mem (ms : List (String × MetricEntry)) (s : Report)
    (kv : String × StatSummary) (h : kv ∈ (ms.foldl summarizeMetric s).metrics) :
    kv ∈ s.metrics ∨
      ∃ e, (kv.1, e) ∈ ms ∧ validValues (e.values.getD []) ≠ [] ∧
        kv.2 = statOf (validValues (e.values.getD [])) := by
  induction ms generalizing s with
  | nil => exact Or.inl h
  | cons hd rest ih =>
    rw [List.foldl_cons] at h
    rcases ih _ h with h1 | ⟨e, he, hv, hst⟩
    · rw [summarizeMetric_eq] at h1
      rcases processMetricValues_metrics_mem _ _ _ _ h1 with h2 | ⟨hv, h2⟩
      · exact Or.inl h2
      · refine Or.inr ⟨hd.2, ?_, hv, ?_⟩
        · rw [h2]
          exact List.mem_cons_self _ _
        · rw [h2]
    · exact Or.inr ⟨e, List.mem_cons_of_mem _ he, hv, hst⟩

theorem processMetricValues_viewsAgree (name : String) (m : MetricEntry) (s : Report)
    (h : ViewsAgree s) : ViewsAgree (processMetricValues name m s) := by
  rw [processMetricValues_eq]
  by_cases hv : validValues (m.values.getD []) = []
  · rw [if_pos hv]
    exact h
  · rw [if_neg hv]
    obtain ⟨h1, h2, h3, h4⟩ := h
    unfold withViews
    by_cases n1 : name = "http_req_duration"
    · subst n1
      refine ⟨?_, ?_, ?_, ?_⟩ <;>
        simp [lookup_objSet_self, lookup_objSet_ne, h2, h3, h4]
    · by_cases n2 : name = "http_req_failed"
      · subst n2
        refine ⟨?_, ?_, ?_, ?_⟩ <;>
          simp [lookup_objSet_self, lookup_objSet_ne, h1, h3, h4]
      · by_cases n3 : name = "checks"
        · subst n3
          refine ⟨?_, ?_, ?_, ?_⟩ <;>
            simp [lookup_objSet_self, lookup_objSet_ne, h1, h2, h3]
        · by_cases n4 : name = "http_reqs"
          · subst n4
            refine ⟨?_, ?_, ?_, ?_⟩ <;>
              simp [lookup_objSet_self, lookup_objSet_ne, h1, h2, h4]
          · have e1 := lookup_objSet_ne s.metrics name "http_req_duration"
              (statOf (validValues (m.values.getD []))) (Ne.symm n1)
            have e2 := lookup_objSet_ne s.metrics name "http_req_failed"
              (statOf (validValues (m.values.getD []))) (Ne.symm n2)
            have e3 := lookup_objSet_ne s.metrics name "checks"
              (statOf (validValues (m.values.getD []))) (Ne.symm n3)
            have e4 := lookup_objSet_ne s.metrics name "http_reqs"
              (statOf (validValues (m.values.getD []))) (Ne.symm n4)
            refine ⟨?_, ?_, ?_, ?_⟩ <;> simp [n1, n2, n3, n4, e1, e2, e3, e4, h1, h2, h3, h4]

theorem foldl_summarizeMetric_viewsAgree (ms : List (String × MetricEntry)) (s : Report)
    (h : ViewsAgree s) : ViewsAgree (ms.foldl summarizeMetric s) := by
  induction ms generalizing s with
  | nil => exact h
  | cons hd rest ih =>
    rw [List.foldl_cons]
    apply ih
    rw [summarizeMetric_eq]
    exact processMetricValues_viewsAgree _ _ _ h

theorem emptyReport_viewsAgree (now : String) : ViewsAgree (emptyReport now) := by
  simp [ViewsAgree, emptyReport, List.lookup]

end K6ResultsParser

namespace K6

theorem keys_objSet {α : Type} (o : List (String × α)) (k : String) (v : α) :
    (objSet o k v).map Prod.fst =
      if k ∈ o.map Prod.fst then o.map Prod.fst else o.map Prod.fst ++ [k] := by
  induction o with
  | nil => simp [objSet]
  | cons hd rest ih =>
    obtain ⟨k1, v1⟩ := hd
    by_cases h1 : k1 = k
    · subst h1
      simp [objSet]
    · have h1' : ¬ k = k1 := fun e => h1 e.symm
      simp only [objSet, h1, if_false, List.map_cons, ih, List.mem_cons, h1', false_or]
      split_ifs <;> simp

theorem nodup_keys_objSet {α : Type} (o : List (String × α)) (k : String) (v : α)
    (h : (o.map Prod.fst).Nodup) : ((objSet o k v).map Prod.fst).Nodup := by
  rw [keys_objSet]
  split_ifs with hk
  · exact h
  · exact List.Nodup.append h (List.nodup_singleton k) (by simpa using hk)

theorem lookup_eq_none_of_not_mem_keys {α : Type} (o : List (String × α)) (k : String)
    (h : k ∉ o.map Prod.fst) : o.lookup k = none := by
  apply lookup_eq_none_of_not_mem
  intro v hv
  exact h (List.mem_map.mpr ⟨(k, v), hv, rfl⟩)

end K6

namespace K6ResultsParser

open K6

theorem processMetric_nodup (ms : List (String × MetricEntry)) (d : Data)
    (h : (ms.map Prod.fst).Nodup) : ((processMetric ms d).map Prod.fst).Nodup := by
  cases d with
  | metric name data =>
    cases data with
    | none => exact h
    | some md => exact nodup_keys_objSet _ _ _ h
  | point name data =>
    cases data with
    | none => exact nodup_keys_objSet _ _ _ h
    | some pd => exact nodup_keys_objSet _ _ _ h
  | other => exact h

theorem processLine_nodup (ms : List (String × MetricEntry)) (l : Line)
    (h : (ms.map Prod.fst).Nodup) : ((processLine ms l).map Prod.fst).Nodup := by
  cases l with
  | none => exact h
  | some d => exact processMetric_nodup ms d h

theorem foldl_processLine_nodup (lines : List Line) (ms : List (String × MetricEntry))
    (h : (ms.map Prod.fst).Nodup) : ((lines.foldl processLine ms).map Prod.fst).Nodup := by
  induction lines generalizing ms with
  | nil => exact h
  | cons l rest ih => exact ih _ (processLine_nodup ms l h)

theorem processMetricValues_lookup (k : String) (m : MetricEntry) (s : Report) (name : String) :
    (processMetricValues k m s).metrics.lookup name =
      if validValues (m.values.getD []) = [] then s.metrics.lookup name
      else if name = k then some (statOf (validValues (m.values.getD [])))
      else s.metrics.lookup name := by
  rw [processMetricValues_eq]
  by_cases hv : validValues (m.values.getD []) = []
  · simp only [hv, if_true]
  · simp only [hv, if_false, withViews_metrics]
    by_cases hn : name = k
    · subst hn
      simp only [if_true, lookup_objSet_self]
    · simp only [hn, if_false, lookup_objSet_ne _ _ _ _ hn]

/-- The summary stored for a name after the loop of `generateSummary`, when the keys of
`this.metrics` are distinct (as the keys of an object are). -/
theorem foldl_summarizeMetric_lookup (ms : List (String × MetricEntry))
    (hnodup : (ms.map Prod.fst).Nodup) (s : Report) (name : String) :
    (ms.foldl summarizeMetric s).metrics.lookup name =
      match ms.lookup name with
      | none => s.metrics.lookup name
      | some e =>
        if validValues (e.values.getD []) = [] then s.metrics.lookup name
        else some (statOf (validValues (e.values.getD []))) := by
  induction ms generalizing s with
  | nil => simp [List.lookup]
  | cons hd rest ih =>
    obtain ⟨k, e⟩ := hd
    rw [List.map_cons, List.nodup_cons] at hnodup
    rw [List.foldl_cons, ih hnodup.2, summarizeMetric_eq]
    by_cases hn : name = k
    · subst hn
      rw [lookup_eq_none_of_not_mem_keys rest name hnodup.1]
      simp only [List.lookup, beq_self_eq_true, processMetricValues_lookup, if_true]
    · have hb : (name == k) = false := by simpa using hn
      simp only [List.lookup, hb, processMetricValues_lookup, hn, if_false, ite_self]

/-- The report `generateSummary` builds: the loop's summaries and views, the violations of the
three rules on those views, and the recommendations. -/
theorem generateSummary_report (now : String) (self : K6ResultsParser) :
    ∃ r, (generateSummary now self).summary = some r ∧
      r.metrics = (self.metrics.foldl summarizeMetric (emptyReport now)).metrics ∧
      r.performance = (self.metrics.foldl summarizeMetric (emptyReport now)).performance ∧
      r.checks = (self.metrics.foldl summarizeMetric (emptyReport now)).checks ∧
      r.errors = specViolations r.performance r.checks ∧ ViewsAgree r := by
  refine ⟨_, generateSummary_summary now self, ?_, ?_, ?_, ?_, ?_⟩
  · rw [(generateRecommendations_errors _).2.2.2, (evaluateThresholds_performance _).2.2.1]
  · rw [(generateRecommendations_errors _).2.1, (evaluateThresholds_performance _).1]
  · rw [(generateRecommendations_errors _).2.2.1, (evaluateThresholds_performance _).2.1]
  · rw [(generateRecommendations_errors _).1, (generateRecommendations_errors _).2.1,
      (generateRecommendations_errors _).2.2.1, evaluateThresholds_errors,
      (evaluateThresholds_performance _).1, (evaluateThresholds_performance _).2.1,
      foldl_summarizeMetric_errors]
    rfl
  · have h := foldl_summarizeMetric_viewsAgree self.metrics _ (emptyReport_viewsAgree now)
    unfold ViewsAgree at h ⊢
    rw [(generateRecommendations_errors _).2.2.2, (evaluateThresholds_performance _).2.2.1,
      (generateRecommendations_errors _).2.1, (evaluateThresholds_performance _).1,
      (generateRecommendations_errors _).2.2.1, (evaluateThresholds_performance _).2.1]
    exact h

theorem parseFile_some (now : String) (lines : List Line) (self : K6ResultsParser) :
    parseFile now (some lines) self =
      .ok (generateSummary now { self with metrics := lines.foldl processLine self.metrics }) :=
  rfl

end K6ResultsParser

/-! ## Claims -/

namespace K6ResultsParser

open K6

/-- C1: `evaluateThresholds` appends to the violation sequence exactly the concatenation of the
three rules of the specification (performance, reliability, functionality), each decided on its
own view, and changes nothing else; in every report of `generateSummary` the violation sequence
is that concatenation; values exactly at their limits (p95 = 250, error rate = 0.1, check rate =
0.9) yield no violation. -/
theorem evaluateThresholds_is_spec :
    (∀ summary : Report,
      (evaluateThresholds summary).errors =
          summary.errors ++ (specPerformanceRule summary.performance ++
            specReliabilityRule summary.performance ++ specFunctionalityRule summary.checks) ∧
        { evaluateThresholds summary with errors := summary.errors } = summary) ∧
    (∀ (now : String) (self : K6ResultsParser), ∃ r,
      (generateSummary now self).summary = some r ∧
        r.errors = specPerformanceRule r.performance ++ specReliabilityRule r.performance ++
          specFunctionalityRule r.checks) ∧
    (∀ (now : String) (avg total ctotal : ℚ) (p99 : Option ℚ) (rq : Option RateView),
      (evaluateThresholds
        { emptyReport now with
          performance :=
            { responseTime := some { avg := avg, p95 := some 250, p99 := p99 },
              errorRate := some { total := total, rate := 1 / 10 },
              requestRate := rq },
          checks := .rated ctotal (9 / 10) }).errors = []) := by
  refine ⟨fun summary => ⟨evaluateThresholds_errors summary, evaluateThresholds_frame summary⟩,
    ?_, ?_⟩
  · intro now self
    obtain ⟨r, hr, -, -, -, he, -⟩ := generateSummary_report now self
    exact ⟨r, hr, he⟩
  · intro now avg total ctotal p99 rq
    rw [evaluateThresholds_errors]
    simp [emptyReport, specViolations, specPerformanceRule, specReliabilityRule,
      specFunctionalityRule]

end K6ResultsParser

namespace K6ResultsParser

open K6

theorem validValues_length (samples : List PointData) :
    (validValues samples).length = samples.countP (fun v => v.value.isSome) := by
  induction samples with
  | nil => rfl
  | cons v rest ih =>
    obtain ⟨t, value, tags⟩ := v
    cases value with
    | none => simpa [validValues, List.reduceOption] using ih
    | some x =>
      have : (validValues rest).length + 1 = List.countP (fun v => v.value.isSome) rest + 1 := by
        rw [ih]
      simpa [validValues, List.reduceOption] using this

theorem validValues_filter (samples : List PointData) :
    validValues (samples.filter (fun v => v.value.isSome)) = validValues samples := by
  induction samples with
  | nil => rfl
  | cons v rest ih =>
    obtain ⟨t, value, tags⟩ := v
    cases value with
    | none => simpa [validValues, List.reduceOption] using ih
    | some x => simpa [validValues, List.reduceOption] using ih

theorem validValues_ne_nil (samples : List PointData) (h : ∃ v ∈ samples, v.value ≠ none) :
    validValues samples ≠ [] := by
  obtain ⟨v, hv, hne⟩ := h
  obtain ⟨x, hx⟩ := Option.ne_none_iff_exists'.mp hne
  intro e
  have : x ∈ validValues samples := by
    unfold validValues
    rw [List.reduceOption_mem_iff]
    exact List.mem_map.mpr ⟨v, hv, hx⟩
  rw [e] at this
  exact List.not_mem_nil _ this

/-- C4: for a metric whose samples hold at least one non-null value, `processMetricValues` stores
a summary whose `count` is the number of non-null values, `sum` their total, `avg` the mean
`sum/count` rounded to 3 decimals, `min`/`max` the smallest/largest such value rounded to 3
decimals, and whose percentiles are the rounded nearest-rank percentiles of the sorted non-null
values; samples with a null value change nothing in the result. -/
theorem processMetricValues_statistics (metricName : String) (defn : Option MetricDefn)
    (samples : List PointData) (summary : Report) (h : ∃ v ∈ samples, v.value ≠ none) :
    ∃ (st : StatSummary) (mn mx : ℚ),
      (processMetricValues metricName { defn := defn, values := some samples }
        summary).metrics.lookup metricName = some st ∧
      st.count = samples.countP (fun v => v.value.isSome) ∧
      st.sum = (validValues samples).sum ∧
      st.avg = round3 ((validValues samples).sum /
        ((samples.countP (fun v => v.value.isSome) : ℕ) : ℚ)) ∧
      mn ∈ validValues samples ∧ (∀ v ∈ validValues samples, mn ≤ v) ∧
      st.min = some (round3 mn) ∧
      mx ∈ validValues samples ∧ (∀ v ∈ validValues samples, v ≤ mx) ∧
      st.max = some (round3 mx) ∧
      st.p50 = (percentile ((validValues samples).insertionSort (· ≤ ·)) 50).map round3 ∧
      st.p90 = (percentile ((validValues samples).insertionSort (· ≤ ·)) 90).map round3 ∧
      st.p95 = (percentile ((validValues samples).insertionSort (· ≤ ·)) 95).map round3 ∧
      st.p99 = (percentile ((validValues samples).insertionSort (· ≤ ·)) 99).map round3 ∧
      processMetricValues metricName { defn := defn, values := some samples } summary =
        processMetricValues metricName
          { defn := defn, values := some (samples.filter (fun v => v.value.isSome)) }
          summary := by
  have hne := validValues_ne_nil samples h
  obtain ⟨mn, a, b, c, d, mx, hcount, hsum, havg, hmin, hmax, -, -, -, -, -, -, -, -,
    hmn, hmx, hmnle, hmxle, -⟩ := statOf_spec (validValues samples) hne
  refine ⟨statOf (validValues samples), mn, mx, ?_, ?_, hsum, ?_, hmn, hmnle, hmin, hmx, hmxle,
    hmax, rfl, rfl, rfl, rfl, ?_⟩
  · rw [processMetricValues_lookup]
    simp [hne]
  · rw [hcount, validValues_length]
  · rw [havg, validValues_length]
  · rw [processMetricValues_eq, processMetricValues_eq]
    simp only [Option.getD_some, validValues_filter]

end K6ResultsParser

namespace K6ResultsParser

open K6

theorem processLine_values_mem (ms : List (String × MetricEntry)) (l : Line) (name : String)
    (e : MetricEntry) (v : PointData) (he : (name, e) ∈ processLine ms l)
    (hv : v ∈ e.values.getD []) :
    (∃ e0, (name, e0) ∈ ms ∧ v ∈ e0.values.getD []) ∨ l = some (.point name (some v)) := by
  cases l with
  | none => exact Or.inl ⟨e, he, hv⟩
  | some d =>
    cases d with
    | other => exact Or.inl ⟨e, he, hv⟩
    | metric k data =>
      cases data with
      | none => exact Or.inl ⟨e, he, hv⟩
      | some md =>
        rcases mem_objSet _ _ _ _ he with h | h
        · exact Or.inl ⟨e, h, hv⟩
        · have h2 : e.values = none := by
            have := congrArg Prod.snd h
            simp only at this
            rw [this]
          rw [h2] at hv
          exact absurd hv (List.not_mem_nil _)
    | point k data =>
      have hold : ∀ w, w ∈ (((ms.lookup k).getD { defn := none, values := some [] }).values).getD []
          → ∃ e0, (k, e0) ∈ ms ∧ w ∈ e0.values.getD [] := by
        intro w hw
        cases hl : ms.lookup k with
        | none =>
          rw [hl] at hw
          exact absurd hw (List.not_mem_nil _)
        | some e0 =>
          rw [hl] at hw
          exact ⟨e0, mem_of_lookup _ _ _ hl, hw⟩
      cases data with
      | none =>
        rcases mem_objSet _ _ _ _ he with h | h
        · exact Or.inl ⟨e, h, hv⟩
        · have h1 : name = k := congrArg Prod.fst h
          have h2 := congrArg Prod.snd h
          simp only at h2
          subst h1
          rw [h2] at hv
          exact Or.inl (hold v hv)
      | some pd =>
        rcases mem_objSet _ _ _ _ he with h | h
        · exact Or.inl ⟨e, h, hv⟩
        · have h1 : name = k := congrArg Prod.fst h
          have h2 := congrArg Prod.snd h
          simp only at h2
          subst h1
          rw [h2] at hv
          simp only [Option.getD_some, List.mem_append, List.mem_singleton] at hv
          rcases hv with hv | hv
          · exact Or.inl (hold v hv)
          · exact Or.inr (by rw [hv])

/-- Every sample accumulated in `this.metrics` under a name was either there before or comes
from a `"Point"` record of that name in the stream. -/
theorem foldl_processLine_values_mem (lines : List Line) (ms : List (String × MetricEntry))
    (name : String) (e : MetricEntry) (v : PointData)
    (he : (name, e) ∈ lines.foldl processLine ms) (hv : v ∈ e.values.getD []) :
    (∃ e0, (name, e0) ∈ ms ∧ v ∈ e0.values.getD []) ∨ some (.point name (some v)) ∈ lines := by
  induction lines generalizing ms with
  | nil => exact Or.inl ⟨e, he, hv⟩
  | cons l rest ih =>
    rw [List.foldl_cons] at he
    rcases ih _ he with ⟨e1, he1, hv1⟩ | h
    · rcases processLine_values_mem ms l name e1 v he1 hv1 with h | h
      · exact Or.inl h
      · exact Or.inr (h ▸ List.mem_cons_self _ _)
    · exact Or.inr (List.mem_cons_of_mem _ h)

theorem foldl_processLine_skip (pre post : List Line) (ms : List (String × MetricEntry)) :
    (pre ++ none :: post).foldl processLine ms = (pre ++ post).foldl processLine ms := by
  simp [List.foldl_append, processLine]

theorem foldl_pointLine_cons (m : String) (pds : List PointData) (vs : List PointData) :
    (pds.map (pointLine m)).foldl processLine [(m, { defn := none, values := some vs })] =
      [(m, { defn := none, values := some (vs ++ pds) })] := by
  induction pds generalizing vs with
  | nil => simp
  | cons pd rest ih =>
    rw [List.map_cons, List.foldl_cons]
    have h1 : processLine [(m, { defn := none, values := some vs })] (pointLine m pd) =
        [(m, { defn := none, values := some (vs ++ [pd]) })] := by
      simp [processLine, pointLine, processMetric, List.lookup, objSet]
    rw [h1, ih]
    simp

/-- The parser state after a stream of well-formed `"Point"` records of one metric. -/
theorem foldl_pointLine (m : String) (pds : List PointData) (h : pds ≠ []) :
    (pds.map (pointLine m)).foldl processLine [] =
      [(m, { defn := none, values := some pds })] := by
  cases pds with
  | nil => exact absurd rfl h
  | cons pd rest =>
    rw [List.map_cons, List.foldl_cons]
    have h1 : processLine [] (pointLine m pd) = [(m, { defn := none, values := some [pd] })] := by
      simp [processLine, pointLine, processMetric, List.lookup, objSet]
    rw [h1, foldl_pointLine_cons]
    simp

/-- The summary a report holds for a name, in terms of the samples accumulated in the parser
that starts from the constructor's state. -/
theorem parseFile_lookup (now : String) (lines : List Line) :
    ∃ p r, parseFile now (some lines) new = .ok p ∧ p.summary = some r ∧
      p.metrics = lines.foldl processLine [] ∧
      r.errors = specViolations r.performance r.checks ∧ ViewsAgree r ∧
      ∀ name, r.metrics.lookup name =
        match p.metrics.lookup name with
        | none => none
        | some e =>
          if validValues (e.values.getD []) = [] then none
          else some (statOf (validValues (e.values.getD []))) := by
  obtain ⟨r, hr, hm, -, -, he, hv⟩ :=
    generateSummary_report now { new with metrics := lines.foldl processLine new.metrics }
  refine ⟨_, r, parseFile_some now lines new, hr, rfl, he, hv, ?_⟩
  intro name
  rw [hm, generateSummary_metrics]
  have hnodup : ((lines.foldl processLine new.metrics).map Prod.fst).Nodup :=
    foldl_processLine_nodup lines _ (by simp [new])
  rw [foldl_summarizeMetric_lookup _ hnodup]
  rfl

end K6ResultsParser

namespace K6ResultsParser

open K6

/-- On own properties: a metric name with zero valid samples in the stream (no `"Point"` record
of that name carries a non-null value) has no entry in the report's per-metric summaries, and no
performance-view or checks-view projection is derived from it. By `parseFileOnChain_eq_parseFile`
this is the behaviour of the code on every stream in which no metric is named after a property
inherited from `Object.prototype`. -/
theorem no_summary_without_valid_sample (now : String) (lines : List Line) (name : String)
    (h : ∀ pd, some (Data.point name (some pd)) ∈ lines → pd.value = none) :
    ∃ p r, parseFile now (some lines) new = .ok p ∧ p.summary = some r ∧
      r.metrics.lookup name = none ∧ (∀ st, (name, st) ∉ r.metrics) ∧
      (name = "http_req_duration" → r.performance.responseTime = none) ∧
      (name = "http_req_failed" → r.performance.errorRate = none) ∧
      (name = "http_reqs" → r.performance.requestRate = none) ∧
      (name = "checks" → r.checks = ChecksView.emptyObject) := by
  obtain ⟨r, hr, hm, -, -, -, hv1, hv2, hv3, hv4⟩ :=
    generateSummary_report now { new with metrics := lines.foldl processLine new.metrics }
  have hnot : ∀ st, (name, st) ∉ r.metrics := by
    intro st hst
    rw [hm] at hst
    rcases foldl_summarizeMetric_mem _ _ _ hst with h0 | ⟨e, he, hne, -⟩
    · exact absurd h0 (List.not_mem_nil _)
    · obtain ⟨x, hx⟩ := List.exists_mem_of_ne_nil _ hne
      unfold validValues at hx
      rw [List.reduceOption_mem_iff] at hx
      obtain ⟨v, hv, hvx⟩ := List.mem_map.mp hx
      rcases foldl_processLine_values_mem lines _ name e v he hv with ⟨e0, he0, -⟩ | hl
      · exact absurd he0 (List.not_mem_nil _)
      · have := h v hl
        rw [this] at hvx
        exact absurd hvx (by simp)
  have hnone : r.metrics.lookup name = none := lookup_eq_none_of_not_mem _ _ hnot
  refine ⟨_, r, parseFile_some now lines new, hr, hnone, hnot, ?_, ?_, ?_, ?_⟩
  · intro e
    subst e
    rw [hv1, hnone]
    rfl
  · intro e
    subst e
    rw [hv2, hnone]
    rfl
  · intro e
    subst e
    rw [hv3, hnone]
    rfl
  · intro e
    subst e
    rw [hv4, hnone]

/-- An instance of `no_summary_without_valid_sample`: a `checks` definition followed by one
`checks` point whose value is null. -/
theorem no_summary_without_valid_sample_witness :
    (∀ pd, some (Data.point "checks" (some pd)) ∈
        [some (Data.metric "checks" (some { type := "rate", thresholds := [], submetrics := [] })),
          pointLine "checks" { time := "t0", value := none, tags := [] }] →
        pd.value = none) ∧
    ∃ p r, parseFile "t"
        (some [some (Data.metric "checks"
            (some { type := "rate", thresholds := [], submetrics := [] })),
          pointLine "checks" { time := "t0", value := none, tags := [] }]) new = .ok p ∧
      p.summary = some r ∧
      r.metrics.lookup "checks" = none ∧ (∀ st, ("checks", st) ∉ r.metrics) ∧
      ("checks" = "http_req_duration" → r.performance.responseTime = none) ∧
      ("checks" = "http_req_failed" → r.performance.errorRate = none) ∧
      ("checks" = "http_reqs" → r.performance.requestRate = none) ∧
      ("checks" = "checks" → r.checks = ChecksView.emptyObject) :=
  have h : ∀ pd, some (Data.point "checks" (some pd)) ∈
      [some (Data.metric "checks" (some { type := "rate", thresholds := [], submetrics := [] })),
        pointLine "checks" { time := "t0", value := none, tags := [] }] →
      pd.value = none := by
    intro pd hpd
    simp only [pointLine, List.mem_cons, Option.some.injEq, Data.point.injEq, true_and,
      List.mem_singleton, List.not_mem_nil, or_false, reduceCtorEq, false_or] at hpd
    rw [hpd]
  ⟨h, no_summary_without_valid_sample "t" _ "checks" h⟩

/-- On own properties: a stream of `N ≥ 1` well-formed `"Point"` records of one metric with
non-null values, plus one line that fails to parse at any position: `parseFile` succeeds, the
result is the same parser state and report as for the stream without the invalid line, and the
summary of the metric has `count = N`. By `parseFileOnChain_eq_parseFile` this is the behaviour
of the code for every metric name that is not a property inherited from `Object.prototype`. -/
theorem malformed_line_is_skipped (now : String) (m : String) (pre post : List PointData)
    (hvalid : ∀ pd ∈ pre ++ post, pd.value ≠ none) (hne : pre ++ post ≠ []) :
    ∃ p r st,
      parseFile now (some (pre.map (pointLine m) ++ none :: post.map (pointLine m))) new
        = .ok p ∧
      parseFile now (some ((pre ++ post).map (pointLine m))) new = .ok p ∧
      p.summary = some r ∧ r.metrics.lookup m = some st ∧ st.count = (pre ++ post).length := by
  obtain ⟨p, r, hp, hr, hpm, -, -, hl⟩ :=
    parseFile_lookup now ((pre ++ post).map (pointLine m))
  have hl := hl m
  have hbad : parseFile now (some (pre.map (pointLine m) ++ none :: post.map (pointLine m))) new
      = .ok p := by
    rw [← hp, parseFile_some, parseFile_some, foldl_processLine_skip, List.map_append]
  have hne' : validValues (pre ++ post) ≠ [] := by
    obtain ⟨pd, hpd⟩ := List.exists_mem_of_ne_nil _ hne
    exact validValues_ne_nil _ ⟨pd, hpd, hvalid pd hpd⟩
  rw [hpm, foldl_pointLine m _ hne] at hl
  simp only [List.lookup, beq_self_eq_true, Option.getD_some, hne', if_false] at hl
  refine ⟨p, r, _, hbad, hp, hr, hl, ?_⟩
  obtain ⟨-, -, -, -, -, -, hcount, -⟩ := statOf_spec _ hne'
  rw [hcount, validValues_length]
  apply List.countP_eq_length.mpr
  intro pd hpd
  have := hvalid pd hpd
  cases hv : pd.value with
  | none => exact absurd hv this
  | some x => simp

/-! ### Evaluation on concrete inputs -/

theorem ceil_eval (x : ℚ) (z : ℤ) (h1 : (z : ℚ) - 1 < x) (h2 : x ≤ (z : ℚ)) : ⌈x⌉ = z :=
  Int.ceil_eq_iff.mpr ⟨h1, h2⟩

theorem floor_eval (x : ℚ) (z : ℤ) (h1 : (z : ℚ) ≤ x) (h2 : x < (z : ℚ) + 1) : ⌊x⌋ = z :=
  Int.floor_eq_iff.mpr ⟨h1, h2⟩

theorem percentile_eval (s : List ℚ) (p : ℚ) (i : ℕ)
    (h1 : (i : ℚ) < (p / 100) * (s.length : ℚ)) (h2 : (p / 100) * (s.length : ℚ) ≤ (i : ℚ) + 1) :
    percentile s p = s[i]? := by
  have : ⌈(p / 100) * (s.length : ℚ)⌉ = (i : ℤ) + 1 := by
    apply ceil_eval
    · push_cast
      linarith
    · push_cast
      linarith
  simp only [percentile, this]
  congr 1
  omega

theorem round3_eval (x : ℚ) (k : ℤ) (h1 : (k : ℚ) ≤ x * 1000 + 1 / 2)
    (h2 : x * 1000 + 1 / 2 < (k : ℚ) + 1) : round3 x = (k : ℚ) / 1000 := by
  unfold round3 mathRound
  rw [floor_eval _ k h1 h2]

theorem percentile_singleton (x p : ℚ) (h0 : 0 < p) (h100 : p ≤ 100) :
    percentile [x] p = some x := by
  rw [percentile_eval [x] p 0 (by simp only [List.length_singleton]; push_cast; linarith)
    (by simp only [List.length_singleton]; push_cast; linarith)]
  rfl

theorem statOf_singleton (x : ℚ) :
    statOf [x] =
      { count := 1, sum := x, avg := round3 x, min := some (round3 x), max := some (round3 x),
        p50 := some (round3 x), p90 := some (round3 x), p95 := some (round3 x),
        p99 := some (round3 x) } := by
  have hs : List.insertionSort (· ≤ ·) [x] = [x] := rfl
  simp only [statOf, hs, percentile_singleton x 50 (by norm_num) (by norm_num),
    percentile_singleton x 90 (by norm_num) (by norm_num),
    percentile_singleton x 95 (by norm_num) (by norm_num),
    percentile_singleton x 99 (by norm_num) (by norm_num)]
  simp

theorem sort_samplesA :
    ([100, 150, 200, 900, 110] : List ℚ).insertionSort (· ≤ ·) = [100, 110, 150, 200, 900] := by
  norm_num [List.insertionSort, List.orderedInsert]

theorem statOf_samplesA :
    statOf [100, 150, 200, 900, 110] =
      { count := 5, sum := 1460, avg := 292, min := some 100, max := some 900, p50 := some 150,
        p90 := some 900, p95 := some 900, p99 := some 900 } := by
  have e50 : percentile [100, 110, 150, 200, 900] 50 = some 150 := by
    rw [percentile_eval _ _ 2 (by norm_num) (by norm_num)]
    rfl
  have e90 : percentile [100, 110, 150, 200, 900] 90 = some 900 := by
    rw [percentile_eval _ _ 4 (by norm_num) (by norm_num)]
    rfl
  have e95 : percentile [100, 110, 150, 200, 900] 95 = some 900 := by
    rw [percentile_eval _ _ 4 (by norm_num) (by norm_num)]
    rfl
  have e99 : percentile [100, 110, 150, 200, 900] 99 = some 900 := by
    rw [percentile_eval _ _ 4 (by norm_num) (by norm_num)]
    rfl
  have r1 : round3 292 = 292 := by
    rw [round3_eval 292 292000 (by norm_num) (by norm_num)]
    norm_num
  have r2 : round3 100 = 100 := by
    rw [round3_eval 100 100000 (by norm_num) (by norm_num)]
    norm_num
  have r3 : round3 900 = 900 := by
    rw [round3_eval 900 900000 (by norm_num) (by norm_num)]
    norm_num
  have r4 : round3 150 = 150 := by
    rw [round3_eval 150 150000 (by norm_num) (by norm_num)]
    norm_num
  simp only [statOf, sort_samplesA, e50, e90, e95, e99]
  norm_num [r1, r2, r3, r4]

/-- The run of `parseFile` on scenario A. -/
theorem parseFile_scenarioA (now : String) :
    parseFile now (some scenarioA) new = .ok (parserA now) := by
  rw [parseFile_some]
  have hv : validValues samplesA = [100, 150, 200, 900, 110] := by
    simp [validValues, samplesA, List.reduceOption]
  have hm : List.foldl processLine new.metrics scenarioA =
      [("http_req_duration", { defn := none, values := some samplesA })] :=
    foldl_pointLine _ _ (by simp [samplesA])
  rw [hm]
  simp only [generateSummary, List.foldl, summarizeMetric_eq, processMetricValues_eq,
    Option.getD_some, hv, statOf_samplesA, parserA, reportA]
  simp [withViews, objSet, evaluateThresholds, generateRecommendations, THRESHOLDS,
    recommendationText]
  norm_num

/-- Every summary of a report is the statistics of the non-null values of an entry of
`this.metrics` that has at least one such value. -/
theorem report_summary_is_statOf (now : String) (lines : List Line) (self p : K6ResultsParser)
    (r : Report) (name : String) (st : StatSummary)
    (hp : parseFile now (some lines) self = .ok p) (hr : p.summary = some r)
    (hst : (name, st) ∈ r.metrics) :
    ∃ e, (name, e) ∈ p.metrics ∧ validValues (e.values.getD []) ≠ [] ∧
      st = statOf (validValues (e.values.getD [])) := by
  rw [parseFile_some] at hp
  have hp1 := Except.ok.inj hp
  subst hp1
  obtain ⟨r', hr1, hm, -⟩ :=
    generateSummary_report now { self with metrics := lines.foldl processLine self.metrics }
  rw [hr1] at hr
  have hr2 := Option.some.inj hr
  subst hr2
  rw [hm] at hst
  rcases foldl_summarizeMetric_mem _ _ _ hst with h0 | h1
  · exact absurd h0 (List.not_mem_nil _)
  · exact h1

theorem specViolations_performance_iff (perf : Performance) (ck : ChecksView) :
    (∃ v ∈ specViolations perf ck, v.type = "PERFORMANCE") ↔
      ∃ rt x, perf.responseTime = some rt ∧ rt.p95 = some x ∧ 250 < x := by
  obtain ⟨rt, er, rq⟩ := perf
  rcases rt with _ | ⟨avg, _ | p95, p99⟩ <;> rcases er with _ | ⟨tot, rate⟩ <;>
    rcases ck with _ | ⟨ctot, crate⟩ <;>
    simp only [specViolations, specPerformanceRule, specReliabilityRule,
      specFunctionalityRule] <;>
    (try split_ifs) <;> simp_all

theorem specViolations_reliability_iff (perf : Performance) (ck : ChecksView) :
    (∃ v ∈ specViolations perf ck, v.type = "RELIABILITY") ↔
      ∃ er, perf.errorRate = some er ∧ 1 / 10 < er.rate := by
  obtain ⟨rt, er, rq⟩ := perf
  rcases rt with _ | ⟨avg, _ | p95, p99⟩ <;> rcases er with _ | ⟨tot, rate⟩ <;>
    rcases ck with _ | ⟨ctot, crate⟩ <;>
    simp only [specViolations, specPerformanceRule, specReliabilityRule,
      specFunctionalityRule] <;>
    (try split_ifs) <;> simp_all

theorem specViolations_functionality_iff (perf : Performance) (ck : ChecksView) :
    (∃ v ∈ specViolations perf ck, v.type = "FUNCTIONALITY") ↔
      ∃ total rate, ck = ChecksView.rated total rate ∧ rate < 9 / 10 := by
  obtain ⟨rt, er, rq⟩ := perf
  rcases rt with _ | ⟨avg, _ | p95, p99⟩ <;> rcases er with _ | ⟨tot, rate⟩ <;>
    rcases ck with _ | ⟨ctot, crate⟩ <;>
    simp only [specViolations, specPerformanceRule, specReliabilityRule,
      specFunctionalityRule] <;>
    (try split_ifs) <;> simp_all <;> exact ⟨_, _, ⟨rfl, rfl⟩, by assumption⟩

/-- C6 (evaluation at the failing input): after one `http_req_duration` point followed by the
`"Metric"` record of `http_req_duration`, the entry of the metric holds the definition and no
`values`, and the report has no per-metric summary at all. -/
theorem late_definition_discards_samples :
    ∃ p r, parseFile "t" (some lateDefinition) new = .ok p ∧ p.summary = some r ∧
      p.metrics = [("http_req_duration",
        { defn := some { name := "http_req_duration", type := "trend", thresholds := [],
                         submetrics := [] },
          values := none })] ∧
      r.metrics = [] ∧ r.metrics.lookup "http_req_duration" = none := by
  obtain ⟨r, hr, hm, -⟩ :=
    generateSummary_report "t" { new with metrics := lateDefinition.foldl processLine new.metrics }
  have hms : lateDefinition.foldl processLine new.metrics =
      [("http_req_duration",
        { defn := some { name := "http_req_duration", type := "trend", thresholds := [],
                         submetrics := [] },
          values := none })] := by
    simp [lateDefinition, new, processLine, pointLine, processMetric, objSet, List.lookup]
  have hrm : r.metrics = [] := by
    rw [hm]
    simp only [hms, List.foldl, summarizeMetric]
    rfl
  refine ⟨_, r, parseFile_some "t" lateDefinition new, hr, ?_, hrm, ?_⟩
  · rw [generateSummary_metrics]
    exact hms
  · rw [hrm]
    rfl

/-- C8 (as amended): the threshold comparisons are made on the rounded figures of the report.
For every event sequence, a PERFORMANCE violation is reported iff the nearest-rank p95 of the
accumulated `http_req_duration` values, rounded to 3 decimals, exceeds 250; a RELIABILITY
violation iff the mean of the accumulated `http_req_failed` values, rounded to 3 decimals,
exceeds 0.1; a FUNCTIONALITY violation iff the mean of the accumulated `checks` values, rounded
to 3 decimals, is below 0.9. -/
theorem violations_compare_rounded_figures (now : String) (lines : List Line) :
    ∃ p r, parseFile now (some lines) new = .ok p ∧ p.summary = some r ∧
      ((∃ v ∈ r.errors, v.type = "PERFORMANCE") ↔
        ∃ e x, p.metrics.lookup "http_req_duration" = some e ∧
          percentile ((validValues (e.values.getD [])).insertionSort (· ≤ ·)) 95 = some x ∧
          250 < round3 x) ∧
      ((∃ v ∈ r.errors, v.type = "RELIABILITY") ↔
        ∃ e, p.metrics.lookup "http_req_failed" = some e ∧
          validValues (e.values.getD []) ≠ [] ∧
          1 / 10 < round3 ((validValues (e.values.getD [])).sum /
            ((validValues (e.values.getD [])).length : ℚ))) ∧
      ((∃ v ∈ r.errors, v.type = "FUNCTIONALITY") ↔
        ∃ e, p.metrics.lookup "checks" = some e ∧
          validValues (e.values.getD []) ≠ [] ∧
          round3 ((validValues (e.values.getD [])).sum /
            ((validValues (e.values.getD [])).length : ℚ)) < 9 / 10) := by
  obtain ⟨p, r, hp, hr, -, he, ⟨hv1, hv2, -, hv4⟩, hl⟩ := parseFile_lookup now lines
  refine ⟨p, r, hp, hr, ?_, ?_, ?_⟩
  · rw [he, specViolations_performance_iff, hv1, hl]
    cases hlk : p.metrics.lookup "http_req_duration" with
    | none => simp
    | some e =>
      by_cases hvv : validValues (e.values.getD []) = []
      · simp [hvv, percentile]
      · simp [hvv, statOf]
  · rw [he, specViolations_reliability_iff, hv2, hl]
    cases hlk : p.metrics.lookup "http_req_failed" with
    | none => simp
    | some e =>
      by_cases hvv : validValues (e.values.getD []) = []
      · simp [hvv]
      · obtain ⟨-, -, -, -, -, -, -, -, havg, -⟩ := statOf_spec _ hvv
        simp [hvv, havg]
  · rw [he, specViolations_functionality_iff, hv4, hl]
    cases hlk : p.metrics.lookup "checks" with
    | none => simp
    | some e =>
      by_cases hvv : validValues (e.values.getD []) = []
      · simp [hvv]
      · obtain ⟨-, -, -, -, -, -, -, -, havg, -⟩ := statOf_spec _ hvv
        simp only [hlk, hvv, if_false, ChecksView.rated.injEq, havg, Option.some.injEq,
          exists_eq_left', ne_eq, not_false_eq_true, true_and]
        constructor
        · rintro ⟨total, rate, ⟨-, h2⟩, h3⟩
          rw [h2]
          exact h3
        · intro h
          exact ⟨_, _, ⟨rfl, rfl⟩, h⟩

/-- C8 (counterexample): on the stream `nearLimit` the unrounded p95 of `http_req_duration` is
250.0004 > 250, the unrounded mean of `http_req_failed` is 0.1004 > 0.1 and the unrounded mean of
`checks` is 0.8996 < 0.9, yet the report holds no violation. -/
theorem unrounded_excess_not_reported :
    ∃ p r, parseFile "t" (some nearLimit) new = .ok p ∧ p.summary = some r ∧
      p.metrics =
        [("http_req_duration",
          { defn := none,
            values := some [{ time := "t1", value := some (2500004 / 10000), tags := [] }] }),
         ("http_req_failed",
          { defn := none,
            values := some [{ time := "t1", value := some (1004 / 10000), tags := [] }] }),
         ("checks",
          { defn := none,
            values := some [{ time := "t1", value := some (8996 / 10000), tags := [] }] })] ∧
      percentile (([2500004 / 10000] : List ℚ).insertionSort (· ≤ ·)) 95
        = some (2500004 / 10000) ∧
      (250 : ℚ) < 2500004 / 10000 ∧
      (1 / 10 : ℚ) < ([1004 / 10000] : List ℚ).sum / (([1004 / 10000] : List ℚ).length : ℚ) ∧
      ([8996 / 10000] : List ℚ).sum / (([8996 / 10000] : List ℚ).length : ℚ) < (9 / 10 : ℚ) ∧
      r.errors = [] := by
  obtain ⟨p, r, hp, hr, hpm, he, ⟨hv1, hv2, -, hv4⟩, hl⟩ := parseFile_lookup "t" nearLimit
  have hms : nearLimit.foldl processLine [] =
      [("http_req_duration",
          { defn := none,
            values := some [{ time := "t1", value := some (2500004 / 10000), tags := [] }] }),
       ("http_req_failed",
          { defn := none,
            values := some [{ time := "t1", value := some (1004 / 10000), tags := [] }] }),
       ("checks",
          { defn := none,
            values := some [{ time := "t1", value := some (8996 / 10000), tags := [] }] })] := by
    simp [nearLimit, processLine, pointLine, processMetric, objSet, List.lookup]
  rw [hms] at hpm
  have r1 : round3 (2500004 / 10000) = 250 := by
    rw [round3_eval _ 250000 (by norm_num) (by norm_num)]
    norm_num
  have r2 : round3 (1004 / 10000) = 1 / 10 := by
    rw [round3_eval _ 100 (by norm_num) (by norm_num)]
    norm_num
  have r3 : round3 (8996 / 10000) = 9 / 10 := by
    rw [round3_eval _ 900 (by norm_num) (by norm_num)]
    norm_num
  have l1 : r.metrics.lookup "http_req_duration" = some (statOf [2500004 / 10000]) := by
    rw [hl, hpm]
    simp [List.lookup, validValues, List.reduceOption]
  have l2 : r.metrics.lookup "http_req_failed" = some (statOf [1004 / 10000]) := by
    rw [hl, hpm]
    simp [List.lookup, validValues, List.reduceOption]
  have l3 : r.metrics.lookup "checks" = some (statOf [8996 / 10000]) := by
    rw [hl, hpm]
    simp [List.lookup, validValues, List.reduceOption]
  rw [l1, statOf_singleton, r1] at hv1
  rw [l2, statOf_singleton, r2] at hv2
  rw [l3, statOf_singleton, r3] at hv4
  refine ⟨p, r, hp, hr, hpm, ?_, by norm_num, by norm_num, by norm_num, ?_⟩
  · exact percentile_singleton _ 95 (by norm_num) (by norm_num)
  · rw [he]
    simp only [specViolations, specPerformanceRule, specReliabilityRule, specFunctionalityRule,
      hv1, hv2, hv4, Option.map_some']
    norm_num

/-- C9 (counterexample): for one `http_req_duration` sample of 12.3456 the reported `sum` is
12.3456, which is not an integer multiple of 0.001. -/
theorem sum_not_rounded :
    ∃ p r st, parseFile "t" (some fineGrained) new = .ok p ∧ p.summary = some r ∧
      r.metrics.lookup "http_req_duration" = some st ∧ st.sum = 123456 / 10000 ∧
      ¬ ∃ k : ℤ, st.sum = (k : ℚ) / 1000 := by
  obtain ⟨p, r, hp, hr, hpm, -, -, hl⟩ := parseFile_lookup "t" fineGrained
  have hms : fineGrained.foldl processLine [] =
      [("http_req_duration",
          { defn := none,
            values := some [{ time := "t1", value := some (123456 / 10000), tags := [] }] })] := by
    simp [fineGrained, processLine, pointLine, processMetric, objSet, List.lookup]
  rw [hms] at hpm
  have l1 : r.metrics.lookup "http_req_duration" = some (statOf [123456 / 10000]) := by
    rw [hl, hpm]
    simp [List.lookup, validValues, List.reduceOption]
  refine ⟨p, r, _, hp, hr, l1, ?_, ?_⟩
  · rw [statOf_singleton]
  · rw [statOf_singleton]
    rintro ⟨k, hk⟩
    have h1 : (10 : ℚ) * (k : ℚ) = 123456 := by
      simp only at hk
      linarith
    have h2 : (10 : ℤ) * k = 123456 := by exact_mod_cast h1
    omega

/-- C9 (as amended): in every per-metric summary of a report the fields `avg`, `min`, `max`,
`p50`, `p90`, `p95`, `p99` are integer multiples of 0.001; `sum` is the exact, unrounded total of
the non-null values accumulated for the metric. -/
theorem rounded_fields_are_thousandths (now : String) (lines : List Line)
    (self p : K6ResultsParser) (r : Report) (name : String) (st : StatSummary)
    (hp : parseFile now (some lines) self = .ok p) (hr : p.summary = some r)
    (hst : (name, st) ∈ r.metrics) :
    (∃ k : ℤ, st.avg = (k : ℚ) / 1000) ∧ (∃ k : ℤ, st.min = some ((k : ℚ) / 1000)) ∧
      (∃ k : ℤ, st.max = some ((k : ℚ) / 1000)) ∧ (∃ k : ℤ, st.p50 = some ((k : ℚ) / 1000)) ∧
      (∃ k : ℤ, st.p90 = some ((k : ℚ) / 1000)) ∧ (∃ k : ℤ, st.p95 = some ((k : ℚ) / 1000)) ∧
      (∃ k : ℤ, st.p99 = some ((k : ℚ) / 1000)) ∧
      ∃ e, (name, e) ∈ p.metrics ∧ st.sum = (validValues (e.values.getD [])).sum := by
  obtain ⟨e, he, hne, rfl⟩ := report_summary_is_statOf now lines self p r name st hp hr hst
  obtain ⟨mn, a, b, c, d, mx, -, hsum, havg, hmin, hmax, h50, h90, h95, h99, -⟩ :=
    statOf_spec _ hne
  refine ⟨⟨_, havg⟩, ?_, ?_, ?_, ?_, ?_, ?_, ⟨e, he, hsum⟩⟩
  · exact ⟨mathRound (mn * 1000), hmin⟩
  · exact ⟨mathRound (mx * 1000), hmax⟩
  · exact ⟨mathRound (a * 1000), h50⟩
  · exact ⟨mathRound (b * 1000), h90⟩
  · exact ⟨mathRound (c * 1000), h95⟩
  · exact ⟨mathRound (d * 1000), h99⟩

/-- C10: every per-metric summary of a report satisfies `min ≤ p50 ≤ p90 ≤ p95 ≤ p99 ≤ max` on
its reported (rounded) fields, all of which are defined. -/
theorem summary_fields_ordered (now : String) (lines : List Line)
    (self p : K6ResultsParser) (r : Report) (name : String) (st : StatSummary)
    (hp : parseFile now (some lines) self = .ok p) (hr : p.summary = some r)
    (hst : (name, st) ∈ r.metrics) :
    ∃ mn a b c d mx : ℚ, st.min = some mn ∧ st.p50 = some a ∧ st.p90 = some b ∧
      st.p95 = some c ∧ st.p99 = some d ∧ st.max = some mx ∧
      mn ≤ a ∧ a ≤ b ∧ b ≤ c ∧ c ≤ d ∧ d ≤ mx := by
  obtain ⟨e, -, hne, rfl⟩ := report_summary_is_statOf now lines self p r name st hp hr hst
  obtain ⟨mn, a, b, c, d, mx, -, -, -, hmin, hmax, h50, h90, h95, h99, -, -, -, -, -, -, -, -,
    h1, h2, h3, h4, h5⟩ := statOf_spec _ hne
  exact ⟨_, _, _, _, _, _, hmin, h50, h90, h95, h99, hmax, round3_mono h1, round3_mono h2,
    round3_mono h3, round3_mono h4, round3_mono h5⟩

/-- Witness of C9 (as amended): the summary of scenario A. -/
theorem rounded_fields_are_thousandths_witness :
    parseFile "t" (some scenarioA) new = .ok (parserA "t") ∧
    (parserA "t").summary = some (reportA "t") ∧
    (("http_req_duration",
      ({ count := 5, sum := 1460, avg := 292, min := some 100, max := some 900, p50 := some 150,
         p90 := some 900, p95 := some 900, p99 := some 900 } : StatSummary))
      ∈ (reportA "t").metrics) ∧
    ((∃ k : ℤ, (292 : ℚ) = (k : ℚ) / 1000) ∧ (∃ k : ℤ, some (100 : ℚ) = some ((k : ℚ) / 1000)) ∧
      (∃ k : ℤ, some (900 : ℚ) = some ((k : ℚ) / 1000)) ∧
      (∃ k : ℤ, some (150 : ℚ) = some ((k : ℚ) / 1000)) ∧
      (∃ k : ℤ, some (900 : ℚ) = some ((k : ℚ) / 1000)) ∧
      (∃ k : ℤ, some (900 : ℚ) = some ((k : ℚ) / 1000)) ∧
      (∃ k : ℤ, some (900 : ℚ) = some ((k : ℚ) / 1000)) ∧
      ∃ e, ("http_req_duration", e) ∈ (parserA "t").metrics ∧
        (1460 : ℚ) = (validValues (e.values.getD [])).sum) :=
  ⟨parseFile_scenarioA "t", rfl, by simp [reportA],
    rounded_fields_are_thousandths "t" scenarioA new (parserA "t") (reportA "t")
      "http_req_duration"
      { count := 5, sum := 1460, avg := 292, min := some 100, max := some 900, p50 := some 150,
        p90 := some 900, p95 := some 900, p99 := some 900 }
      (parseFile_scenarioA "t") rfl (by simp [reportA])⟩

/-- Witness of C10: the summary of scenario A. -/
theorem summary_fields_ordered_witness :
    parseFile "t" (some scenarioA) new = .ok (parserA "t") ∧
    (parserA "t").summary = some (reportA "t") ∧
    (("http_req_duration",
      ({ count := 5, sum := 1460, avg := 292, min := some 100, max := some 900, p50 := some 150,
         p90 := some 900, p95 := some 900, p99 := some 900 } : StatSummary))
      ∈ (reportA "t").metrics) ∧
    ∃ mn a b c d mx : ℚ, some (100 : ℚ) = some mn ∧ some (150 : ℚ) = some a ∧
      some (900 : ℚ) = some b ∧ some (900 : ℚ) = some c ∧ some (900 : ℚ) = some d ∧
      some (900 : ℚ) = some mx ∧ mn ≤ a ∧ a ≤ b ∧ b ≤ c ∧ c ≤ d ∧ d ≤ mx :=
  ⟨parseFile_scenarioA "t", rfl, by simp [reportA],
    summary_fields_ordered "t" scenarioA new (parserA "t") (reportA "t")
      "http_req_duration"
      { count := 5, sum := 1460, avg := 292, min := some 100, max := some 900, p50 := some 150,
        p90 := some 900, p95 := some 900, p99 := some 900 }
      (parseFile_scenarioA "t") rfl (by simp [reportA])⟩

/-- An instance of `malformed_line_is_skipped`: two valid `http_req_duration` points with an
unparsable line between them. -/
theorem malformed_line_is_skipped_witness :
    (∀ pd ∈ [({ time := "t1", value := some 100, tags := [] } : PointData)] ++
        [({ time := "t2", value := some 300, tags := [] } : PointData)], pd.value ≠ none) ∧
    [({ time := "t1", value := some 100, tags := [] } : PointData)] ++
        [({ time := "t2", value := some 300, tags := [] } : PointData)] ≠ [] ∧
    ∃ p r st,
      parseFile "t"
        (some ([({ time := "t1", value := some 100, tags := [] } : PointData)].map
            (pointLine "http_req_duration") ++
          none :: [({ time := "t2", value := some 300, tags := [] } : PointData)].map
            (pointLine "http_req_duration"))) new = .ok p ∧
      parseFile "t"
        (some (([({ time := "t1", value := some 100, tags := [] } : PointData)] ++
          [({ time := "t2", value := some 300, tags := [] } : PointData)]).map
            (pointLine "http_req_duration"))) new = .ok p ∧
      p.summary = some r ∧ r.metrics.lookup "http_req_duration" = some st ∧
      st.count = ([({ time := "t1", value := some 100, tags := [] } : PointData)] ++
        [({ time := "t2", value := some 300, tags := [] } : PointData)]).length :=
  ⟨by simp, by simp,
    malformed_line_is_skipped "t" "http_req_duration"
      [{ time := "t1", value := some 100, tags := [] }]
      [{ time := "t2", value := some 300, tags := [] }] (by simp) (by simp)⟩

/-- Witness of C4: two samples, one of them with a null value. -/
theorem processMetricValues_statistics_witness :
    (∃ v ∈ [({ time := "t1", value := some 100, tags := [] } : PointData),
        { time := "t2", value := none, tags := [] }], v.value ≠ none) ∧
    ∃ (st : StatSummary) (mn mx : ℚ),
      (processMetricValues "http_req_duration"
        { defn := none,
          values := some [({ time := "t1", value := some 100, tags := [] } : PointData),
            { time := "t2", value := none, tags := [] }] }
        (emptyReport "t")).metrics.lookup "http_req_duration" = some st ∧
      st.count = 1 ∧ st.sum = 100 ∧ mn = 100 ∧ mx = 100 ∧
      st.min = some (round3 mn) ∧ st.max = some (round3 mx) :=
  have h : ∃ v ∈ [({ time := "t1", value := some 100, tags := [] } : PointData),
      { time := "t2", value := none, tags := [] }], v.value ≠ none :=
    ⟨{ time := "t1", value := some 100, tags := [] }, by simp, by simp⟩
  ⟨h, by
    obtain ⟨st, mn, mx, h1, h2, h3, -, h5, -, h7, h8, -, h10, -⟩ :=
      processMetricValues_statistics "http_req_duration" none _ (emptyReport "t") h
    have hv : validValues [({ time := "t1", value := some 100, tags := [] } : PointData),
        { time := "t2", value := none, tags := [] }] = [100] := by
      simp [validValues, List.reduceOption]
    rw [hv] at h3 h5 h8
    refine ⟨st, mn, mx, h1, ?_, ?_, ?_, ?_, h7, h10⟩
    · rw [h2]
      simp
    · rw [h3]
      simp
    · simpa using h5
    · simpa using h8⟩

/-- C2: on a non-empty ascending array the four percentiles of the report are defined, ordered
`p50 ≤ p90 ≤ p95 ≤ p99`, and each is an element of the array. -/
theorem percentile_ordered (s : List ℚ) (hs : s ≠ []) (hsorted : s.Sorted (· ≤ ·)) :
    ∃ a b c d, percentile s 50 = some a ∧ percentile s 90 = some b ∧
      percentile s 95 = some c ∧ percentile s 99 = some d ∧
      a ≤ b ∧ b ≤ c ∧ c ≤ d ∧ a ∈ s ∧ b ∈ s ∧ c ∈ s ∧ d ∈ s := by
  obtain ⟨a, b, ha, hb, hab, has, hbs⟩ :=
    percentile_mono s 50 90 hs hsorted (by norm_num) (by norm_num)
  obtain ⟨b', c, hb', hc, hbc, -, hcs⟩ :=
    percentile_mono s 90 95 hs hsorted (by norm_num) (by norm_num)
  obtain ⟨c', d, hc', hd, hcd, -, hds⟩ :=
    percentile_mono s 95 99 hs hsorted (by norm_num) (by norm_num)
  have e1 : b' = b := Option.some.inj (hb'.symm.trans hb)
  have e2 : c' = c := Option.some.inj (hc'.symm.trans hc)
  subst e1 e2
  exact ⟨a, b', c', d, ha, hb, hc, hd, hab, hbc, hcd, has, hbs, hcs, hds⟩


/-- Witness of C2 on the sorted samples of scenario A. -/
theorem percentile_ordered_witness :
    ([100, 110, 150, 200, 900] : List ℚ) ≠ [] ∧
      ([100, 110, 150, 200, 900] : List ℚ).Sorted (· ≤ ·) ∧
      ∃ a b c d, percentile [100, 110, 150, 200, 900] 50 = some a ∧
        percentile [100, 110, 150, 200, 900] 90 = some b ∧
        percentile [100, 110, 150, 200, 900] 95 = some c ∧
        percentile [100, 110, 150, 200, 900] 99 = some d ∧
        a ≤ b ∧ b ≤ c ∧ c ≤ d ∧ a ∈ ([100, 110, 150, 200, 900] : List ℚ) ∧
        b ∈ ([100, 110, 150, 200, 900] : List ℚ) ∧ c ∈ ([100, 110, 150, 200, 900] : List ℚ) ∧
        d ∈ ([100, 110, 150, 200, 900] : List ℚ) :=
  ⟨by simp, by norm_num [List.Sorted],
    percentile_ordered [100, 110, 150, 200, 900] (by simp) (by norm_num [List.Sorted])⟩


/-- In exact arithmetic: for a non-empty array `s` (sorted or not) and `0 ≤ p ≤ 100`,
`percentile s p` is the element of `s` at index `ceil(p/100 × n) − 1` clamped to `[0, n − 1]`;
that index is in bounds, so the read is never `undefined`; for `n = 5` and `p = 95` the index
is 4. The index the code computes in double precision is that of `percentileDouble`. -/
theorem percentile_nearest_rank (s : List ℚ) (p : ℚ) (hs : s ≠ []) (_h0 : 0 ≤ p)
    (h100 : p ≤ 100) :
    (∃ h : nearestRankIndex s.length p < s.length,
      percentile s p = some (s.get ⟨nearestRankIndex s.length p, h⟩)) ∧
    nearestRankIndex 5 95 = 4 := by
  have hn : 0 < s.length := List.length_pos.mpr hs
  obtain ⟨hlt, heq⟩ := percentile_index s.length p hn h100
  refine ⟨⟨heq ▸ hlt, ?_⟩, ?_⟩
  · simp only [percentile, List.get_eq_getElem, heq]
    exact List.getElem?_eq_getElem hlt
  · have hc : ⌈(95 : ℚ) / 100 * ((5 : ℕ) : ℚ)⌉ = 5 := ceil_eval _ 5 (by norm_num) (by norm_num)
    simp only [nearestRankIndex, hc]
    rfl

/-- An instance of `percentile_nearest_rank`: five samples and `p = 95`. -/
theorem percentile_nearest_rank_witness :
    ([100, 110, 150, 200, 900] : List ℚ) ≠ [] ∧ (0 : ℚ) ≤ 95 ∧ (95 : ℚ) ≤ 100 ∧
      (∃ h : nearestRankIndex ([100, 110, 150, 200, 900] : List ℚ).length 95 <
          ([100, 110, 150, 200, 900] : List ℚ).length,
        percentile [100, 110, 150, 200, 900] 95 =
          some (([100, 110, 150, 200, 900] : List ℚ).get
            ⟨nearestRankIndex ([100, 110, 150, 200, 900] : List ℚ).length 95, h⟩)) ∧
      nearestRankIndex 5 95 = 4 :=
  ⟨by simp, by norm_num, by norm_num,
    percentile_nearest_rank [100, 110, 150, 200, 900] 95 (by simp) (by norm_num) (by norm_num)⟩

end K6ResultsParser

/-! ## Recommendations (C11, C12) -/

namespace K6ResultsParser

open K6

theorem foldl_push_recommendations (errors : List Violation) (recs : List Recommendation) :
    errors.foldl
        (fun recs error =>
          recs ++ [({ type := error.type, message := recommendationText error.type } :
            Recommendation)])
        recs =
      recs ++ errors.map recommendationFor := by
  induction errors generalizing recs with
  | nil => simp
  | cons e rest ih =>
    rw [List.foldl_cons, ih]
    simp [recommendationFor]

/-- The recommendations after `generateRecommendations`: the single SUCCESS entry, or one entry
per violation in violation order, appended to what was there. -/
theorem generateRecommendations_recommendations (summary : Report) :
    (generateRecommendations summary).recommendations =
      summary.recommendations ++
        (if summary.errors = [] then [successRecommendation]
         else summary.errors.map recommendationFor) := by
  unfold generateRecommendations
  by_cases h : summary.errors = []
  · simp [h, successRecommendation]
  · have h2 : ¬ summary.errors.length = 0 := by
      rw [List.length_eq_zero]
      exact h
    simp only [h2, if_false, h]
    exact foldl_push_recommendations _ _

theorem foldl_distinct (l : List Violation) (seen : List String)
    (h : (seen ++ l.map (fun v => v.type)).Nodup) :
    l.foldl (fun seen v => if v.type ∈ seen then seen else seen ++ [v.type]) seen =
      seen ++ l.map (fun v => v.type) := by
  induction l generalizing seen with
  | nil => simp
  | cons v rest ih =>
    have hv : v.type ∉ seen := by
      intro hmem
      rw [List.map_cons, List.nodup_append] at h
      exact h.2.2 hmem (List.mem_cons_self _ _)
    rw [List.foldl_cons, if_neg hv, ih]
    · simp
    · simpa using h

theorem distinctCategories_of_nodup (l : List Violation)
    (h : (l.map (fun v => v.type)).Nodup) :
    distinctCategories l = l.map (fun v => v.type) := by
  unfold distinctCategories
  rw [foldl_distinct l [] (by simpa using h)]
  simp

theorem specViolations_types (perf : Performance) (ck : ChecksView) (v : Violation)
    (h : v ∈ specViolations perf ck) :
    v.type = "PERFORMANCE" ∨ v.type = "RELIABILITY" ∨ v.type = "FUNCTIONALITY" := by
  obtain ⟨rt, er, rq⟩ := perf
  revert h
  rcases rt with _ | ⟨avg, _ | p95, p99⟩ <;> rcases er with _ | ⟨tot, rate⟩ <;>
    rcases ck with _ | ⟨ctot, crate⟩ <;>
    simp only [specViolations, specPerformanceRule, specReliabilityRule,
      specFunctionalityRule] <;>
    (try split_ifs) <;> intro h <;> simp at h <;> (try rcases h with h | h | h) <;>
    (try rcases h with h | h) <;> simp [*]

end K6ResultsParser

namespace K6ResultsParser

open K6

/-- The report of `generateSummary` with every field accounted for: timestamp and threshold
table, the loop's summaries and views, the violations of the three rules, and the
recommendations derived from them. -/
theorem generateSummary_full (now : String) (self : K6ResultsParser) :
    ∃ r, (generateSummary now self).summary = some r ∧
      r.timestamp = now ∧ r.thresholds = THRESHOLDS ∧
      r.metrics = (self.metrics.foldl summarizeMetric (emptyReport now)).metrics ∧
      r.performance = (self.metrics.foldl summarizeMetric (emptyReport now)).performance ∧
      r.checks = (self.metrics.foldl summarizeMetric (emptyReport now)).checks ∧
      r.errors = specViolations r.performance r.checks ∧
      r.recommendations =
        (if r.errors = [] then [successRecommendation] else r.errors.map recommendationFor) := by
  obtain ⟨r, hr, hm, hp, hc, he, -⟩ := generateSummary_report now self
  refine ⟨r, hr, ?_, ?_, hm, hp, hc, he, ?_⟩
  · have e := Option.some.inj ((generateSummary_summary now self).symm.trans hr)
    rw [← e]
    have h1 := congrArg (fun r : Report => r.timestamp) (generateRecommendations_frame
      (evaluateThresholds (self.metrics.foldl summarizeMetric (emptyReport now))))
    have h2 := congrArg (fun r : Report => r.timestamp) (evaluateThresholds_frame
      (self.metrics.foldl summarizeMetric (emptyReport now)))
    have h3 : ∀ (ms : List (String × MetricEntry)) (s : Report),
        (ms.foldl summarizeMetric s).timestamp = s.timestamp := by
      intro ms
      induction ms with
      | nil => intro s; rfl
      | cons kv rest ih =>
        intro s
        rw [List.foldl_cons, ih, summarizeMetric_eq]
        exact (processMetricValues_errors _ _ _).2.2.1
    simp only at h1 h2
    rw [h1, h2, h3]
    rfl
  · have e := Option.some.inj ((generateSummary_summary now self).symm.trans hr)
    rw [← e]
    have h1 := congrArg (fun r : Report => r.thresholds) (generateRecommendations_frame
      (evaluateThresholds (self.metrics.foldl summarizeMetric (emptyReport now))))
    have h2 := congrArg (fun r : Report => r.thresholds) (evaluateThresholds_frame
      (self.metrics.foldl summarizeMetric (emptyReport now)))
    have h3 : ∀ (ms : List (String × MetricEntry)) (s : Report),
        (ms.foldl summarizeMetric s).thresholds = s.thresholds := by
      intro ms
      induction ms with
      | nil => intro s; rfl
      | cons kv rest ih =>
        intro s
        rw [List.foldl_cons, ih, summarizeMetric_eq]
        exact (processMetricValues_errors _ _ _).2.2.2
    simp only at h1 h2
    rw [h1, h2, h3]
    rfl
  · have e := Option.some.inj ((generateSummary_summary now self).symm.trans hr)
    have hrec : r.recommendations =
        (evaluateThresholds (self.metrics.foldl summarizeMetric (emptyReport now))).recommendations
          ++ (if (evaluateThresholds
                (self.metrics.foldl summarizeMetric (emptyReport now))).errors = []
              then [successRecommendation]
              else (evaluateThresholds
                (self.metrics.foldl summarizeMetric (emptyReport now))).errors.map
                  recommendationFor) := by
      rw [← e]
      exact generateRecommendations_recommendations _
    have herr : r.errors =
        (evaluateThresholds (self.metrics.foldl summarizeMetric (emptyReport now))).errors := by
      rw [← e]
      exact (generateRecommendations_errors _).1
    have hnil : (evaluateThresholds
        (self.metrics.foldl summarizeMetric (emptyReport now))).recommendations = [] := by
      rw [(evaluateThresholds_performance _).2.2.2]
      have h3 : ∀ (ms : List (String × MetricEntry)) (s : Report),
          (ms.foldl summarizeMetric s).recommendations = s.recommendations := by
        intro ms
        induction ms with
        | nil => intro s; rfl
        | cons kv rest ih =>
          intro s
          rw [List.foldl_cons, ih, summarizeMetric_eq]
          exact (processMetricValues_errors _ _ _).2.1
      rw [h3]
      rfl
    rw [hrec, hnil, ← herr]
    simp

/-- C11 (as amended): `generateRecommendations` is total and appends exactly one recommendation
per violation, in violation order, or exactly one SUCCESS recommendation when there is no
violation; when no category occurs more than once in the violation sequence, the categories of
the appended recommendations are the distinct categories present, in first-seen order. -/
theorem generateRecommendations_per_violation (summary : Report) :
    (generateRecommendations summary).recommendations =
        summary.recommendations ++
          (if summary.errors = [] then
            [{ type := "SUCCESS", message := "All performance thresholds met! 🎉" }]
           else summary.errors.map fun e =>
            { type := e.type, message := recommendationText e.type }) ∧
      ((summary.errors.map fun e => e.type).Nodup → summary.errors ≠ [] →
        ((generateRecommendations summary).recommendations.drop
            summary.recommendations.length).map (fun rc => rc.type) =
          distinctCategories summary.errors) := by
  have h := generateRecommendations_recommendations summary
  refine ⟨h, ?_⟩
  intro hnodup hne
  rw [h, List.drop_left, if_neg hne, distinctCategories_of_nodup _ hnodup, List.map_map]
  rfl

/-- Witness of C11 (as amended): the violation sequence of scenario A. -/
theorem generateRecommendations_per_violation_witness :
    ((reportA "t").errors.map fun e => e.type).Nodup ∧ (reportA "t").errors ≠ [] ∧
      ((generateRecommendations { reportA "t" with recommendations := [] }).recommendations.drop
          ([] : List Recommendation).length).map (fun rc => rc.type) =
        distinctCategories (reportA "t").errors :=
  ⟨by simp [reportA], by simp [reportA],
    (generateRecommendations_per_violation { reportA "t" with recommendations := [] }).2
      (by simp [reportA]) (by simp [reportA])⟩

/-- C11 (counterexample): for two PERFORMANCE violations `generateRecommendations` returns two
PERFORMANCE recommendations, while one category is present. -/
theorem repeated_category_repeats_recommendation :
    (generateRecommendations { emptyReport "t" with errors := repeatedCategory }).recommendations =
        [{ type := "PERFORMANCE", message :=
            "Consider optimizing API endpoints or increasing server resources to improve response times." },
         { type := "PERFORMANCE", message :=
            "Consider optimizing API endpoints or increasing server resources to improve response times." }] ∧
      distinctCategories repeatedCategory = ["PERFORMANCE"] := by
  constructor
  · rw [generateRecommendations_recommendations]
    simp [emptyReport, repeatedCategory, recommendationFor, recommendationText]
  · simp [distinctCategories, repeatedCategory]

/-- C12: in every report of `generateSummary`, the recommendations are exactly the single SUCCESS
entry when there is no violation; otherwise they correspond one to one, in order, to the
violations, each with the category of its violation and the fixed text of that category, and
none of them is a SUCCESS entry. -/
theorem generateSummary_recommendations (now : String) (self : K6ResultsParser) :
    ∃ r, (generateSummary now self).summary = some r ∧
      (r.errors = [] →
        r.recommendations =
          [{ type := "SUCCESS", message := "All performance thresholds met! 🎉" }]) ∧
      (r.errors ≠ [] →
        List.Forall₂
          (fun (e : Violation) (rc : Recommendation) =>
            rc.type = e.type ∧
              ((e.type = "PERFORMANCE" ∧ rc.message =
                  "Consider optimizing API endpoints or increasing server resources to improve response times.") ∨
                (e.type = "RELIABILITY" ∧ rc.message =
                  "Investigate API errors and improve error handling to reduce failure rates.") ∨
                (e.type = "FUNCTIONALITY" ∧ rc.message =
                  "Review test assertions and ensure API endpoints are working correctly.")))
          r.errors r.recommendations ∧
        r.recommendations.length = r.errors.length ∧
        ∀ rc ∈ r.recommendations, rc.type ≠ "SUCCESS") := by
  obtain ⟨r, hr, -, -, -, -, -, he, hrec⟩ := generateSummary_full now self
  refine ⟨r, hr, ?_, ?_⟩
  · intro h
    rw [hrec, if_pos h]
    rfl
  · intro h
    rw [if_neg h] at hrec
    have htypes : ∀ v ∈ r.errors,
        v.type = "PERFORMANCE" ∨ v.type = "RELIABILITY" ∨ v.type = "FUNCTIONALITY" := by
      intro v hv
      rw [he] at hv
      exact specViolations_types _ _ v hv
    refine ⟨?_, ?_, ?_⟩
    · rw [hrec, List.forall₂_map_right_iff]
      apply List.forall₂_same.mpr
      intro v hv
      refine ⟨rfl, ?_⟩
      rcases htypes v hv with h1 | h1 | h1
      · exact Or.inl ⟨h1, by simp [recommendationFor, recommendationText, h1]⟩
      · exact Or.inr (Or.inl ⟨h1, by simp [recommendationFor, recommendationText, h1]⟩)
      · exact Or.inr (Or.inr ⟨h1, by simp [recommendationFor, recommendationText, h1]⟩)
    · rw [hrec, List.length_map]
    · intro rc hrc
      rw [hrec] at hrc
      obtain ⟨v, hv, rfl⟩ := List.mem_map.mp hrc
      rcases htypes v hv with h1 | h1 | h1 <;> simp [recommendationFor, h1]

end K6ResultsParser

/-! ## Exit codes (C13, C15) -/

theorem ParseK6Results.parse_main_of_report (now : String) (inputFile : String) (rest : List String)
    (readFile : String → Option (List K6.Line)) (writable : String → Bool)
    (p : K6ResultsParser) (r : K6.Report)
    (hp : K6ResultsParser.parseFile now (readFile inputFile) K6ResultsParser.new = .ok p)
    (hr : p.summary = some r) (hw : writable (ParseK6Results.outputFile rest) = true) :
    ParseK6Results.main now (inputFile :: rest) readFile writable =
      if r.errors = [] then 0 else 1 := by
  simp only [ParseK6Results.main, hp, hw, if_true, hr]
  by_cases h : r.errors = []
  · simp [h]
  · have h2 : 0 < r.errors.length := List.length_pos.mpr h
    simp [h, h2]

theorem NotifyTestFailure.notify_main_of_report (fmt : K6.NumberFormat) (env : K6.Env)
    (timestamp : String) (summaryFile : String) (rest : List String)
    (readReport : String → Option (Option K6.Report)) (r : K6.Report)
    (hl : readReport summaryFile = some (some r)) :
    NotifyTestFailure.main fmt env timestamp (summaryFile :: rest) readReport =
      if r.errors = [] then 0 else 1 := by
  have hs : ∃ m, TestFailureNotifier.sendNotifications fmt env timestamp { summary := some r }
      = .ok m := by
    unfold TestFailureNotifier.sendNotifications TestFailureNotifier.generateMessage
    simp only
    split_ifs
    · exact ⟨_, rfl⟩
    · exact ⟨_, rfl⟩
  obtain ⟨m, hm⟩ := hs
  simp only [NotifyTestFailure.main, hl, TestFailureNotifier.loadSummary, hm,
    TestFailureNotifier.hasFailures]
  by_cases h : r.errors = []
  · simp [h]
  · have h2 : 0 < r.errors.length := List.length_pos.mpr h
    simp [h, h2]

/-- C13: when `parse-results` has produced the report `r` (input read, output written) its exit
code is 0 if `r` has no violation and 1 otherwise; when `notify` has loaded the report `r2` its
exit code is 0 if `r2` has no violation and 1 otherwise; so the two commands agree whenever the
two reports agree on having violations, in particular on the same report. -/
theorem exit_code_policy (now : String) (inputFile : String) (rest : List String)
    (readFile : String → Option (List K6.Line)) (writable : String → Bool)
    (p : K6ResultsParser) (r : K6.Report) (fmt : K6.NumberFormat) (env : K6.Env)
    (timestamp : String) (summaryFile : String) (rest2 : List String)
    (readReport : String → Option (Option K6.Report)) (r2 : K6.Report)
    (hp : K6ResultsParser.parseFile now (readFile inputFile) K6ResultsParser.new = .ok p)
    (hr : p.summary = some r) (hw : writable (ParseK6Results.outputFile rest) = true)
    (hl : readReport summaryFile = some (some r2)) :
    ParseK6Results.main now (inputFile :: rest) readFile writable =
        (if r.errors = [] then 0 else 1) ∧
      NotifyTestFailure.main fmt env timestamp (summaryFile :: rest2) readReport =
        (if r2.errors = [] then 0 else 1) ∧
      ((r.errors = [] ↔ r2.errors = []) →
        ParseK6Results.main now (inputFile :: rest) readFile writable =
          NotifyTestFailure.main fmt env timestamp (summaryFile :: rest2) readReport) := by
  have h1 := ParseK6Results.parse_main_of_report now inputFile rest readFile writable p r hp hr hw
  have h2 := NotifyTestFailure.notify_main_of_report fmt env timestamp summaryFile rest2 readReport r2 hl
  refine ⟨h1, h2, ?_⟩
  intro hiff
  rw [h1, h2]
  by_cases h : r.errors = []
  · rw [if_pos h, if_pos (hiff.mp h)]
  · rw [if_neg h, if_neg (fun h' => h (hiff.mpr h'))]

/-- Witness of C13: scenario A, parsed by `parse-results` and loaded by `notify`. -/
theorem exit_code_policy_witness :
    K6ResultsParser.parseFile "t" ((fun _ => some K6.scenarioA) "k6-results.json")
        K6ResultsParser.new = .ok (K6.parserA "t") ∧
      (K6.parserA "t").summary = some (K6.reportA "t") ∧
      (fun _ => true) (ParseK6Results.outputFile []) = true ∧
      (fun _ => some (some (K6.reportA "t"))) "k6-summary.json" = some (some (K6.reportA "t")) ∧
      ParseK6Results.main "t" ["k6-results.json"] (fun _ => some K6.scenarioA) (fun _ => true) =
        (if (K6.reportA "t").errors = [] then 0 else 1) ∧
      NotifyTestFailure.main { toString := fun _ => "", toFixed2 := fun _ => "" }
          { NODE_ENV := none, GITHUB_REF := none, GITHUB_SHA := none } "t2" ["k6-summary.json"]
          (fun _ => some (some (K6.reportA "t"))) =
        (if (K6.reportA "t").errors = [] then 0 else 1) ∧
      (((K6.reportA "t").errors = [] ↔ (K6.reportA "t").errors = []) →
        ParseK6Results.main "t" ["k6-results.json"] (fun _ => some K6.scenarioA) (fun _ => true) =
          NotifyTestFailure.main { toString := fun _ => "", toFixed2 := fun _ => "" }
            { NODE_ENV := none, GITHUB_REF := none, GITHUB_SHA := none } "t2"
            ["k6-summary.json"] (fun _ => some (some (K6.reportA "t")))) :=
  ⟨K6ResultsParser.parseFile_scenarioA "t", rfl, rfl, rfl,
    exit_code_policy "t" "k6-results.json" [] (fun _ => some K6.scenarioA) (fun _ => true)
      (K6.parserA "t") (K6.reportA "t") { toString := fun _ => "", toFixed2 := fun _ => "" }
      { NODE_ENV := none, GITHUB_REF := none, GITHUB_SHA := none } "t2" "k6-summary.json" []
      (fun _ => some (some (K6.reportA "t"))) (K6.reportA "t")
      (K6ResultsParser.parseFile_scenarioA "t") rfl rfl rfl⟩

/-- C15: on the stream of scenario A the report has p95 = 900 for `http_req_duration`, exactly
one violation (PERFORMANCE, actual 900, threshold 250), exactly one recommendation
(PERFORMANCE), and `parse-results` exits with code 1. -/
theorem scenarioA_end_to_end (now : String) :
    ∃ p r st, K6ResultsParser.parseFile now (some K6.scenarioA) K6ResultsParser.new = .ok p ∧
      p.summary = some r ∧ r.metrics.lookup "http_req_duration" = some st ∧
      st.p95 = some 900 ∧
      r.errors =
        [{ type := "PERFORMANCE", metric := "http_req_duration_p95", actual := 900,
           threshold := 250, message := .responseTimeExceeds 900 250 }] ∧
      r.recommendations =
        [{ type := "PERFORMANCE", message :=
            "Consider optimizing API endpoints or increasing server resources to improve response times." }] ∧
      ∀ (inputFile : String) (rest : List String) (writable : String → Bool),
        writable (ParseK6Results.outputFile rest) = true →
        ParseK6Results.main now (inputFile :: rest) (fun _ => some K6.scenarioA) writable = 1 := by
  refine ⟨K6.parserA now, K6.reportA now,
    { count := 5, sum := 1460, avg := 292, min := some 100, max := some 900, p50 := some 150,
      p90 := some 900, p95 := some 900, p99 := some 900 },
    K6ResultsParser.parseFile_scenarioA now, rfl, ?_, rfl, rfl, rfl, ?_⟩
  · simp [K6.reportA, List.lookup]
  · intro inputFile rest writable hw
    rw [ParseK6Results.parse_main_of_report now inputFile rest _ writable (K6.parserA now)
      (K6.reportA now) (K6ResultsParser.parseFile_scenarioA now) rfl hw]
    simp [K6.reportA]

/-! ## Absent data, views, idempotence and sample order (C16, C17, C18) -/

namespace K6ResultsParser

open K6

/-- The report of `parseFile` on a fresh parser, with everything the later results need. -/
theorem parseFile_new_report (now : String) (lines : List Line) :
    ∃ p r, parseFile now (some lines) new = .ok p ∧ p.summary = some r ∧
      p.metrics = lines.foldl processLine [] ∧
      r.timestamp = now ∧
      r.errors = specViolations r.performance r.checks ∧ ViewsAgree r ∧
      r.recommendations =
        (if r.errors = [] then [successRecommendation] else r.errors.map recommendationFor) ∧
      ∀ name, r.metrics.lookup name =
        match p.metrics.lookup name with
        | none => none
        | some e =>
          if validValues (e.values.getD []) = [] then none
          else some (statOf (validValues (e.values.getD []))) := by
  obtain ⟨p, r, hp, hr, hpm, he, hv, hl⟩ := parseFile_lookup now lines
  obtain ⟨r2, hr2, hts, -, -, -, -, -, hrec⟩ :=
    generateSummary_full now { new with metrics := lines.foldl processLine new.metrics }
  have hp2 := Except.ok.inj ((parseFile_some now lines new).symm.trans hp)
  rw [hp2, hr] at hr2
  have e := Option.some.inj hr2
  subst e
  exact ⟨p, r, hp, hr, hpm, hts, he, hv, hrec, hl⟩

/-- A metric name without a valid sample in the stream has no summary in the report. -/
theorem report_lookup_none (now : String) (lines : List Line) (name : String)
    (h : ∀ pd, some (Data.point name (some pd)) ∈ lines → pd.value = none)
    (p : K6ResultsParser) (r : Report) (hp : parseFile now (some lines) new = .ok p)
    (hr : p.summary = some r) : r.metrics.lookup name = none := by
  apply lookup_eq_none_of_not_mem
  intro st hst
  obtain ⟨e, he, hne, -⟩ := report_summary_is_statOf now lines new p r name st hp hr hst
  have hpm : p.metrics = lines.foldl processLine [] := by
    have := Except.ok.inj ((parseFile_some now lines new).symm.trans hp)
    rw [← this]
    rfl
  rw [hpm] at he
  obtain ⟨x, hx⟩ := List.exists_mem_of_ne_nil _ hne
  unfold validValues at hx
  rw [List.reduceOption_mem_iff] at hx
  obtain ⟨v, hv, hvx⟩ := List.mem_map.mp hx
  rcases foldl_processLine_values_mem lines _ name e v he hv with ⟨e0, he0, -⟩ | hl
  · exact absurd he0 (List.not_mem_nil _)
  · have := h v hl
    rw [this] at hvx
    exact absurd hvx (by simp)

/-- On own properties: for each of the three pairs of a metric and the category of its rule
(`http_req_duration`/PERFORMANCE, `http_req_failed`/RELIABILITY, `checks`/FUNCTIONALITY), when
the stream holds no valid sample of the metric, `parseFile` completes and the violation sequence
holds no entry of the category. By `parseFileOnChain_eq_parseFile` this is the behaviour of the
code on every stream in which no metric is named after a property inherited from
`Object.prototype`. -/
theorem absence_of_data_is_no_violation (now : String) (lines : List Line)
    (name category : String)
    (hpair : (name, category) ∈ [("http_req_duration", "PERFORMANCE"),
      ("http_req_failed", "RELIABILITY"), ("checks", "FUNCTIONALITY")])
    (hzero : ∀ pd, some (Data.point name (some pd)) ∈ lines → pd.value = none) :
    ∃ p r, parseFile now (some lines) new = .ok p ∧ p.summary = some r ∧
      ∀ v ∈ r.errors, v.type ≠ category := by
  obtain ⟨p, r, hp, hr, -, -, he, ⟨hv1, hv2, -, hv4⟩, -, -⟩ := parseFile_new_report now lines
  have hnone := report_lookup_none now lines name hzero p r hp hr
  refine ⟨p, r, hp, hr, ?_⟩
  intro v hv hcat
  simp only [List.mem_cons, Prod.mk.injEq, List.mem_singleton, List.not_mem_nil,
    or_false] at hpair
  rcases hpair with ⟨h1, h2⟩ | ⟨h1, h2⟩ | ⟨h1, h2⟩
  · subst h1 h2
    have hx : ∃ v ∈ specViolations r.performance r.checks, v.type = "PERFORMANCE" :=
      ⟨v, he ▸ hv, hcat⟩
    rw [specViolations_performance_iff, hv1, hnone] at hx
    obtain ⟨rt, x, hrt, -⟩ := hx
    simp at hrt
  · subst h1 h2
    have hx : ∃ v ∈ specViolations r.performance r.checks, v.type = "RELIABILITY" :=
      ⟨v, he ▸ hv, hcat⟩
    rw [specViolations_reliability_iff, hv2, hnone] at hx
    obtain ⟨er, her, -⟩ := hx
    simp at her
  · subst h1 h2
    have hx : ∃ v ∈ specViolations r.performance r.checks, v.type = "FUNCTIONALITY" :=
      ⟨v, he ▸ hv, hcat⟩
    rw [specViolations_functionality_iff, hv4, hnone] at hx
    obtain ⟨total, rate, hck, -⟩ := hx
    simp at hck

/-- An instance of `absence_of_data_is_no_violation`: scenario A holds no `checks` sample. -/
theorem absence_of_data_is_no_violation_witness :
    (("checks", "FUNCTIONALITY") ∈ [("http_req_duration", "PERFORMANCE"),
      ("http_req_failed", "RELIABILITY"), ("checks", "FUNCTIONALITY")]) ∧
    (∀ pd, some (Data.point "checks" (some pd)) ∈ scenarioA → pd.value = none) ∧
    ∃ p r, parseFile "t" (some scenarioA) new = .ok p ∧ p.summary = some r ∧
      ∀ v ∈ r.errors, v.type ≠ "FUNCTIONALITY" :=
  have h : ∀ pd, some (Data.point "checks" (some pd)) ∈ scenarioA → pd.value = none := by
    intro pd hpd
    simp [scenarioA, samplesA, pointLine] at hpd
  ⟨by simp, h, absence_of_data_is_no_violation "t" scenarioA "checks" "FUNCTIONALITY" (by simp) h⟩

/-- C16: in every report the views are re-shapings of the per-metric summaries:
`performance.responseTime` is `{avg, p95, p99}` of the `http_req_duration` summary,
`performance.errorRate` is `{sum, avg}` of `http_req_failed`, `performance.requestRate` is
`{sum, avg}` of `http_reqs`, `checks` is `{sum, avg}` of `checks`; a view is present exactly when
its metric has a summary. -/
theorem views_are_reshapings (now : String) (lines : List Line) (self : K6ResultsParser) :
    ∃ p r, parseFile now (some lines) self = .ok p ∧ p.summary = some r ∧
      r.performance.responseTime =
        (r.metrics.lookup "http_req_duration").map
          (fun st => ({ avg := st.avg, p95 := st.p95, p99 := st.p99 } : ResponseTime)) ∧
      r.performance.errorRate =
        (r.metrics.lookup "http_req_failed").map
          (fun st => ({ total := st.sum, rate := st.avg } : RateView)) ∧
      r.performance.requestRate =
        (r.metrics.lookup "http_reqs").map
          (fun st => ({ total := st.sum, rate := st.avg } : RateView)) ∧
      r.checks =
        (match r.metrics.lookup "checks" with
         | none => ChecksView.emptyObject
         | some st => ChecksView.rated st.sum st.avg) := by
  obtain ⟨r, hr, -, -, -, -, hv1, hv2, hv3, hv4⟩ :=
    generateSummary_report now { self with metrics := lines.foldl processLine self.metrics }
  exact ⟨_, r, parseFile_some now lines self, hr, hv1, hv2, hv3, hv4⟩

end K6ResultsParser

namespace K6ResultsParser

open K6

theorem processMetricValues_timestamp (name : String) (m : MetricEntry) (s : Report)
    (t : String) :
    processMetricValues name m { s with timestamp := t } =
      { processMetricValues name m s with timestamp := t } := by
  rw [processMetricValues_eq, processMetricValues_eq]
  by_cases hv : validValues (m.values.getD []) = []
  · simp only [hv, if_true]
  · simp only [hv, if_false, withViews]
    split_ifs <;> rfl

theorem foldl_summarizeMetric_timestamp (ms : List (String × MetricEntry)) (s : Report)
    (t : String) :
    ms.foldl summarizeMetric { s with timestamp := t } =
      { ms.foldl summarizeMetric s with timestamp := t } := by
  induction ms generalizing s with
  | nil => rfl
  | cons kv rest ih =>
    rw [List.foldl_cons, List.foldl_cons, summarizeMetric_eq, summarizeMetric_eq,
      processMetricValues_timestamp, ih]

/-- Two reports with the same fields are the same report. -/
theorem report_eq_of_fields (r1 r2 : Report) (h1 : r1.timestamp = r2.timestamp)
    (h2 : r1.thresholds = r2.thresholds) (h3 : r1.metrics = r2.metrics)
    (h4 : r1.performance = r2.performance) (h5 : r1.checks = r2.checks)
    (h6 : r1.errors = r2.errors) (h7 : r1.recommendations = r2.recommendations) : r1 = r2 := by
  cases r1
  cases r2
  simp only at h1 h2 h3 h4 h5 h6 h7
  subst h1 h2 h3 h4 h5 h6 h7
  rfl

/-- C17: calling `generateSummary` twice in succession leaves the accumulated metrics as they
were, and the second report is the first one with only the timestamp replaced: the per-metric
summaries, the views, the violations and the recommendations are identical. -/
theorem generateSummary_idempotent (now1 now2 : String) (self : K6ResultsParser) :
    (generateSummary now1 self).metrics = self.metrics ∧
      (generateSummary now2 (generateSummary now1 self)).metrics = self.metrics ∧
      ∃ r1 r2, (generateSummary now1 self).summary = some r1 ∧
        (generateSummary now2 (generateSummary now1 self)).summary = some r2 ∧
        r2 = { r1 with timestamp := now2 } ∧
        r2.metrics = r1.metrics ∧ r2.performance = r1.performance ∧ r2.checks = r1.checks ∧
        r2.errors = r1.errors ∧ r2.recommendations = r1.recommendations := by
  obtain ⟨r1, hr1, ht1, hth1, hm1, hp1, hc1, he1, hrec1⟩ := generateSummary_full now1 self
  obtain ⟨r2, hr2, ht2, hth2, hm2, hp2, hc2, he2, hrec2⟩ :=
    generateSummary_full now2 (generateSummary now1 self)
  rw [generateSummary_metrics] at hm2 hp2 hc2
  have hfold : self.metrics.foldl summarizeMetric (emptyReport now2) =
      { self.metrics.foldl summarizeMetric (emptyReport now1) with timestamp := now2 } :=
    foldl_summarizeMetric_timestamp self.metrics (emptyReport now1) now2
  rw [hfold] at hm2 hp2 hc2
  have hm : r2.metrics = r1.metrics := hm2.trans hm1.symm
  have hp : r2.performance = r1.performance := hp2.trans hp1.symm
  have hc : r2.checks = r1.checks := hc2.trans hc1.symm
  have he : r2.errors = r1.errors := by rw [he2, he1, hp, hc]
  have hrec : r2.recommendations = r1.recommendations := by rw [hrec2, hrec1, he]
  refine ⟨rfl, rfl, r1, r2, hr1, hr2, ?_, hm, hp, hc, he, hrec⟩
  exact report_eq_of_fields _ _ ht2 (hth2.trans hth1.symm) hm hp hc he hrec

theorem statOf_perm (l1 l2 : List ℚ) (h : l1.Perm l2) : statOf l1 = statOf l2 := by
  have hs : l1.insertionSort (· ≤ ·) = l2.insertionSort (· ≤ ·) := by
    apply List.eq_of_perm_of_sorted _ (List.sorted_insertionSort _ l1)
      (List.sorted_insertionSort _ l2)
    exact ((List.perm_insertionSort _ l1).trans h).trans (List.perm_insertionSort _ l2).symm
  simp only [statOf, hs]

theorem validValues_perm (s1 s2 : List PointData) (h : s1.Perm s2) :
    (validValues s1).Perm (validValues s2) := by
  unfold validValues List.reduceOption
  exact (h.map _).filterMap _

theorem pointsOf_perm (name : String) (l1 l2 : List Line) (h : l1.Perm l2) :
    (pointsOf name l1).Perm (pointsOf name l2) := by
  unfold pointsOf
  exact h.filterMap _

theorem pointsOf_cons_pointLine (name m : String) (pd : PointData) (rest : List Line) :
    pointsOf name (pointLine m pd :: rest) =
      if m = name then pd :: pointsOf name rest else pointsOf name rest := by
  unfold pointsOf pointLine
  by_cases h : m = name
  · simp [List.filterMap_cons, h]
  · simp [List.filterMap_cons, h]

/-- The entry of a name after a stream of well-formed `"Point"` records: the entry it had, with
the samples of the name appended in stream order. -/
theorem foldl_points_lookup (lines : List Line) (hpoints : ∀ l ∈ lines, ∃ m pd, l = pointLine m pd)
    (ms : List (String × MetricEntry)) (name : String) :
    (lines.foldl processLine ms).lookup name =
      if pointsOf name lines = [] then ms.lookup name
      else some { (ms.lookup name).getD { defn := none, values := some [] } with
        values := some ((((ms.lookup name).getD { defn := none, values := some [] }).values.getD [])
          ++ pointsOf name lines) } := by
  induction lines generalizing ms with
  | nil => simp [pointsOf]
  | cons l rest ih =>
    obtain ⟨m, pd, rfl⟩ := hpoints l (List.mem_cons_self _ _)
    have hrest : ∀ l ∈ rest, ∃ m pd, l = pointLine m pd :=
      fun l hl => hpoints l (List.mem_cons_of_mem _ hl)
    rw [List.foldl_cons, ih hrest, pointsOf_cons_pointLine]
    by_cases hm : m = name
    · subst hm
      have hstep : (processLine ms (pointLine m pd)).lookup m =
          some { (ms.lookup m).getD { defn := none, values := some [] } with
            values := some ((((ms.lookup m).getD { defn := none, values := some [] }).values.getD
              []) ++ [pd]) } := by
        simp only [processLine, pointLine, processMetric, lookup_objSet_self]
      rw [hstep]
      simp only [if_true, Option.getD_some, List.cons_ne_nil, if_false, List.append_assoc,
        List.singleton_append]
      split_ifs with h
      · rw [h]
      · rfl
    · have hstep : (processLine ms (pointLine m pd)).lookup name = ms.lookup name := by
        simp only [processLine, pointLine, processMetric]
        exact lookup_objSet_ne _ _ _ _ (fun e => hm e.symm)
      rw [hstep, if_neg hm]

/-- The summary a report holds for a name after a stream of well-formed `"Point"` records: the
statistics of the non-null values of that name. -/
theorem report_lookup_points (now : String) (lines : List Line)
    (hpoints : ∀ l ∈ lines, ∃ m pd, l = pointLine m pd) (p : K6ResultsParser) (r : Report)
    (hp : parseFile now (some lines) new = .ok p) (hr : p.summary = some r) (name : String) :
    r.metrics.lookup name =
      if validValues (pointsOf name lines) = [] then none
      else some (statOf (validValues (pointsOf name lines))) := by
  obtain ⟨p2, r2, hp2, hr2, hpm, -, -, -, -, hl⟩ := parseFile_new_report now lines
  have e1 := Except.ok.inj (hp2.symm.trans hp)
  subst e1
  have e2 := Option.some.inj (hr2.symm.trans hr)
  subst e2
  rw [hl, hpm, foldl_points_lookup lines hpoints]
  by_cases hpts : pointsOf name lines = []
  · simp [hpts, List.lookup, validValues, List.reduceOption]
  · simp [hpts, List.lookup]

end K6ResultsParser

namespace K6ResultsParser

open K6

/-- C18: two streams of well-formed `"Point"` records that are permutations of each other give
the same per-metric summary for every name, the same performance and checks views, the same
violation sequence and the same recommendation sequence. -/
theorem sample_order_irrelevant (now : String) (l1 l2 : List Line) (hperm : l1.Perm l2)
    (hpoints : ∀ l ∈ l1, ∃ m pd, l = pointLine m pd) :
    ∃ p1 r1 p2 r2, parseFile now (some l1) new = .ok p1 ∧ p1.summary = some r1 ∧
      parseFile now (some l2) new = .ok p2 ∧ p2.summary = some r2 ∧
      (∀ name, r1.metrics.lookup name = r2.metrics.lookup name) ∧
      r1.performance = r2.performance ∧ r1.checks = r2.checks ∧
      r1.errors = r2.errors ∧ r1.recommendations = r2.recommendations := by
  obtain ⟨p1, r1, hp1, hr1, -, -, he1, ⟨ha1, hb1, hc1, hd1⟩, hrec1, -⟩ :=
    parseFile_new_report now l1
  obtain ⟨p2, r2, hp2, hr2, -, -, he2, ⟨ha2, hb2, hc2, hd2⟩, hrec2, -⟩ :=
    parseFile_new_report now l2
  have hpoints2 : ∀ l ∈ l2, ∃ m pd, l = pointLine m pd :=
    fun l hl => hpoints l (hperm.mem_iff.mpr hl)
  have hlook : ∀ name, r1.metrics.lookup name = r2.metrics.lookup name := by
    intro name
    rw [report_lookup_points now l1 hpoints p1 r1 hp1 hr1 name,
      report_lookup_points now l2 hpoints2 p2 r2 hp2 hr2 name]
    have hv := validValues_perm _ _ (pointsOf_perm name l1 l2 hperm)
    rw [statOf_perm _ _ hv]
    by_cases h : validValues (pointsOf name l1) = []
    · have h2 : validValues (pointsOf name l2) = [] := by
        rw [h] at hv
        exact hv.symm.eq_nil
      rw [if_pos h, if_pos h2]
    · have h2 : validValues (pointsOf name l2) ≠ [] := by
        intro e
        rw [e] at hv
        exact h hv.eq_nil
      rw [if_neg h, if_neg h2]
  have hperf : r1.performance = r2.performance := by
    rw [hlook] at ha1 hb1 hc1
    have e1 := ha1.trans ha2.symm
    have e2 := hb1.trans hb2.symm
    have e3 := hc1.trans hc2.symm
    cases hq1 : r1.performance
    cases hq2 : r2.performance
    rw [hq1] at e1 e2 e3
    rw [hq2] at e1 e2 e3
    simp only at e1 e2 e3
    rw [e1, e2, e3]
  have hck : r1.checks = r2.checks := by
    rw [hlook] at hd1
    exact hd1.trans hd2.symm
  have herr : r1.errors = r2.errors := by rw [he1, he2, hperf, hck]
  exact ⟨p1, r1, p2, r2, hp1, hr1, hp2, hr2, hlook, hperf, hck, herr, by
    rw [hrec1, hrec2, herr]⟩

/-- Witness of C18: scenario A and the same samples in reverse order. -/
theorem sample_order_irrelevant_witness :
    scenarioA.Perm scenarioA.reverse ∧ (∀ l ∈ scenarioA, ∃ m pd, l = pointLine m pd) ∧
    ∃ p1 r1 p2 r2, parseFile "t" (some scenarioA) new = .ok p1 ∧ p1.summary = some r1 ∧
      parseFile "t" (some scenarioA.reverse) new = .ok p2 ∧ p2.summary = some r2 ∧
      (∀ name, r1.metrics.lookup name = r2.metrics.lookup name) ∧
      r1.performance = r2.performance ∧ r1.checks = r2.checks ∧
      r1.errors = r2.errors ∧ r1.recommendations = r2.recommendations :=
  have hpoints : ∀ l ∈ scenarioA, ∃ m pd, l = pointLine m pd := by
    intro l hl
    obtain ⟨pd, -, rfl⟩ := List.mem_map.mp hl
    exact ⟨_, pd, rfl⟩
  ⟨(List.reverse_perm scenarioA).symm, hpoints,
    sample_order_irrelevant "t" scenarioA scenarioA.reverse (List.reverse_perm scenarioA).symm
      hpoints⟩

end K6ResultsParser

/-! ## The notification message (C19) -/

namespace TestFailureNotifier

open K6

theorem concat_cons (x : String) (xs : List String) : concat (x :: xs) = x ++ concat xs := rfl

theorem concat_nil : concat [] = "" := rfl

theorem append_empty_right (s : String) : s ++ "" = s := by
  apply String.ext
  simp

theorem empty_append_left (s : String) : "" ++ s = s := by
  apply String.ext
  simp

theorem foldl_violation_entries (fmt : NumberFormat) (l : List Violation) (k : ℕ)
    (msg : String) :
    (l.enumFrom k).foldl
        (fun message ie =>
          let message := message ++ (toString (ie.1 + 1) ++ ". **" ++ ie.2.type ++ "**: " ++
            ie.2.message.render fmt ++ "\n")
          let message := message ++ ("   - Actual: " ++ fmt.toString ie.2.actual ++ "\n")
          message ++ ("   - Threshold: " ++ fmt.toString ie.2.threshold ++ "\n"))
        msg =
      msg ++ concat ((l.enumFrom (k + 1)).map fun nv => violationEntry fmt nv.1 nv.2) := by
  induction l generalizing k msg with
  | nil => simp [concat_nil, append_empty_right]
  | cons v rest ih =>
    rw [List.enumFrom_cons, List.foldl_cons, ih, List.enumFrom_cons, List.map_cons, concat_cons]
    simp only [violationEntry, String.append_assoc]

theorem foldl_recommendation_bullets (l : List Recommendation) (msg : String) :
    l.foldl (fun message rc => message ++ ("• " ++ rc.message ++ "\n")) msg =
      msg ++ concat (l.map recommendationBullet) := by
  induction l generalizing msg with
  | nil => simp [concat_nil, append_empty_right]
  | cons rc rest ih =>
    rw [List.foldl_cons, ih, List.map_cons, concat_cons]
    simp only [recommendationBullet, String.append_assoc]

/-- The message `generateMessage` returns for a loaded report. -/
theorem generateMessage_eq (fmt : NumberFormat) (env : Env) (timestamp : String) (r : Report) :
    generateMessage fmt env timestamp { summary := some r } =
      .ok (if r.errors = [] then passedMessage fmt env timestamp r
           else failuresMessage fmt env timestamp r) := by
  by_cases h : r.errors = []
  · have hf : hasFailures { summary := some r } = false := by
      simp [hasFailures, h]
    simp only [generateMessage, hf, if_pos h, passedMessage, runMetadata, performanceSnapshot,
      responseTimeLine, errorRateLine, checkRateLine]
    rcases hrt : r.performance.responseTime with _ | rt <;>
      rcases her : r.performance.errorRate with _ | er <;>
      rcases hck : r.checks with _ | ⟨total, rate⟩ <;>
      simp only [String.append_assoc, empty_append_left, Bool.false_eq_true, if_false]
  · have hf : hasFailures { summary := some r } = true := by
      have h2 : 0 < r.errors.length := List.length_pos.mpr h
      simp [hasFailures, h2]
    simp only [generateMessage, hf, if_neg h, failuresMessage, runMetadata, performanceSnapshot,
      responseTimeLine, errorRateLine, checkRateLine, List.enum, foldl_violation_entries,
      foldl_recommendation_bullets]
    rcases hrt : r.performance.responseTime with _ | rt <;>
      rcases her : r.performance.errorRate with _ | er <;>
      rcases hck : r.checks with _ | ⟨total, rate⟩ <;>
      simp only [String.append_assoc, empty_append_left, if_true]

theorem head_of_append (a b : String) (c : Char) (h : a.data.head? = some c) :
    (a ++ b).data.head? = some c := by
  rw [String.data_append]
  cases ha : a.data with
  | nil => rw [ha] at h; simp at h
  | cons x xs =>
    rw [ha] at h
    simpa using h

theorem passedMessage_ne_failuresMessage (fmt : NumberFormat) (env : Env) (timestamp : String)
    (r r2 : Report) : passedMessage fmt env timestamp r ≠ failuresMessage fmt env timestamp r2 := by
  intro h
  have h1 : (passedMessage fmt env timestamp r).data.head? = some '✅' :=
    head_of_append _ _ _ (by decide)
  have h2 : (failuresMessage fmt env timestamp r2).data.head? = some '🚨' :=
    head_of_append _ _ _ (by decide)
  rw [h, h2] at h1
  exact absurd h1 (by decide)

/-- C19: for a loaded report `generateMessage` returns the "tests passed" message when the
violation sequence is empty and the "failures detected" message otherwise (the two messages are
never equal). The failure message holds one numbered entry per violation, numbered from 1 in
report order, with the violation's category, message, actual value and threshold, then one
bullet per recommendation in report order; both messages hold the same performance snapshot of
the report. -/
theorem generateMessage_spec (fmt : NumberFormat) (env : Env) (timestamp : String)
    (r : Report) :
    generateMessage fmt env timestamp { summary := some r } =
        .ok (if r.errors = [] then passedMessage fmt env timestamp r
             else failuresMessage fmt env timestamp r) ∧
      (generateMessage fmt env timestamp { summary := some r } =
          .ok (passedMessage fmt env timestamp r) ↔ r.errors = []) ∧
      (generateMessage fmt env timestamp { summary := some r } =
          .ok (failuresMessage fmt env timestamp r) ↔ r.errors ≠ []) := by
  have h := generateMessage_eq fmt env timestamp r
  refine ⟨h, ?_, ?_⟩
  · rw [h]
    by_cases he : r.errors = []
    · simp [he]
    · simp only [he, if_false, iff_false]
      intro e
      exact passedMessage_ne_failuresMessage fmt env timestamp r r (Except.ok.inj e).symm
  · rw [h]
    by_cases he : r.errors = []
    · simp only [he, if_true, ne_eq, not_true_eq_false, iff_false]
      intro e
      exact passedMessage_ne_failuresMessage fmt env timestamp r r (Except.ok.inj e)
    · simp [he]

end TestFailureNotifier

/-! ## The summary handler of the load test (C20) -/

namespace IntegrationSmoke

theorem thresholdOk_iff (t : ThresholdResult) : thresholdOk t = true ↔ t.ok = some true := by
  obtain ⟨ok⟩ := t
  rcases ok with _ | _ | _ <;> simp [thresholdOk]

theorem metricOk_iff (m : MetricSummary) :
    metricOk m = true ↔
      (m.thresholds = none ∨
        ∃ ts, m.thresholds = some ts ∧ ∀ kt ∈ ts, kt.2.ok = some true) := by
  obtain ⟨values, thresholds⟩ := m
  cases thresholds with
  | none => simp [metricOk]
  | some ts => simp [metricOk, List.all_eq_true, thresholdOk_iff]

theorem handleSummary_thresholds_passed (now vus duration : String)
    (metrics : List (String × MetricSummary)) (s : IntegrationSummary)
    (h : handleSummary now vus duration metrics = some s) :
    s.thresholds_passed = metrics.all (fun km => metricOk km.2) := by
  simp only [handleSummary, Option.bind_eq_bind, Option.pure_def, Option.bind_eq_some,
    Option.some.injEq] at h
  obtain ⟨_, -, _, -, _, -, _, -, _, -, _, -, rfl⟩ := h
  rfl

/-- C20: whenever `handleSummary` produces its summary, `thresholds_passed` is true exactly when
every metric either has no thresholds or has every threshold entry with `ok = true`; a single
threshold with `ok = false` makes it false. -/
theorem thresholds_passed_iff (now vus duration : String)
    (metrics : List (String × MetricSummary)) (s : IntegrationSummary)
    (h : handleSummary now vus duration metrics = some s) :
    (s.thresholds_passed = true ↔
      ∀ km ∈ metrics, km.2.thresholds = none ∨
        ∃ ts, km.2.thresholds = some ts ∧ ∀ kt ∈ ts, kt.2.ok = some true) ∧
    ((∃ km ∈ metrics, ∃ ts, km.2.thresholds = some ts ∧ ∃ kt ∈ ts, kt.2.ok = some false) →
      s.thresholds_passed = false) := by
  have hs := handleSummary_thresholds_passed now vus duration metrics s h
  have hiff : s.thresholds_passed = true ↔
      ∀ km ∈ metrics, km.2.thresholds = none ∨
        ∃ ts, km.2.thresholds = some ts ∧ ∀ kt ∈ ts, kt.2.ok = some true := by
    rw [hs, List.all_eq_true]
    constructor
    · intro hall km hkm
      exact (metricOk_iff km.2).mp (hall km hkm)
    · intro hall km hkm
      exact (metricOk_iff km.2).mpr (hall km hkm)
  refine ⟨hiff, ?_⟩
  rintro ⟨km, hkm, ts, hts, kt, hkt, hok⟩
  cases hb : s.thresholds_passed with
  | false => rfl
  | true =>
    rcases hiff.mp hb km hkm with hnone | ⟨ts2, hts2, hall⟩
    · rw [hnone] at hts
      exact absurd hts (by simp)
    · rw [hts2] at hts
      have e := Option.some.inj hts
      subst e
      have := hall kt hkt
      rw [this] at hok
      exact absurd hok (by simp)

end IntegrationSmoke

namespace IntegrationSmoke

theorem handleSummary_slowRun (now vus duration : String) :
    handleSummary now vus duration slowRun = some (slowRunSummary now vus duration) := by
  simp [handleSummary, slowRun, slowRunSummary, requiredStat, optionalStat, List.lookup,
    metricOk, thresholdOk]

/-- Witness of C20: a run whose `http_req_duration` threshold has `ok = false`. -/
theorem thresholds_passed_iff_witness :
    handleSummary "t" "5" "30s" slowRun = some (slowRunSummary "t" "5" "30s") ∧
    (((slowRunSummary "t" "5" "30s").thresholds_passed = true ↔
      ∀ km ∈ slowRun, km.2.thresholds = none ∨
        ∃ ts, km.2.thresholds = some ts ∧ ∀ kt ∈ ts, kt.2.ok = some true) ∧
    ((∃ km ∈ slowRun, ∃ ts, km.2.thresholds = some ts ∧ ∃ kt ∈ ts, kt.2.ok = some false) →
      (slowRunSummary "t" "5" "30s").thresholds_passed = false)) :=
  ⟨handleSummary_slowRun "t" "5" "30s",
    thresholds_passed_iff "t" "5" "30s" slowRun (slowRunSummary "t" "5" "30s")
      (handleSummary_slowRun "t" "5" "30s")⟩

end IntegrationSmoke

/-! ## Bounds on the violation sequence and the `http_reqs` samples (C21) -/

namespace K6ResultsParser

open K6

theorem lookup_objSet {α : Type} (o : List (String × α)) (k name : String) (v : α) :
    (objSet o k v).lookup name = if name = k then some v else o.lookup name := by
  by_cases h : name = k
  · subst h
    rw [if_pos rfl, lookup_objSet_self]
  · rw [if_neg h, lookup_objSet_ne _ _ _ _ h]

/-- What `processLine` leaves under a name depends only on what was under that name. -/
theorem processLine_lookup_congr (ms ms2 : List (String × MetricEntry)) (l : Line)
    (name : String) (h : ms.lookup name = ms2.lookup name) :
    (processLine ms l).lookup name = (processLine ms2 l).lookup name := by
  rcases l with _ | (⟨k, _ | md⟩ | ⟨k, _ | pd⟩ | _) <;>
    simp only [processLine, processMetric, lookup_objSet] <;>
    first
    | exact h
    | (by_cases hk : name = k
       · subst hk
         simp only [if_true, h]
       · simp only [hk, if_false, h])

theorem processLine_lookup_httpReqs (ms : List (String × MetricEntry)) (l : Line)
    (name : String) (hl : isHttpReqsPoint l = true) (hn : name ≠ "http_reqs") :
    (processLine ms l).lookup name = ms.lookup name := by
  rcases l with _ | (⟨k, d⟩ | ⟨k, d⟩ | _)
  · exact absurd hl (by simp [isHttpReqsPoint])
  · exact absurd hl (by simp [isHttpReqsPoint])
  · have hk : k = "http_reqs" := by simpa [isHttpReqsPoint] using hl
    subst hk
    rcases d with _ | pd <;>
      simp only [processLine, processMetric, lookup_objSet, hn, if_false]
  · exact absurd hl (by simp [isHttpReqsPoint])

theorem foldl_filter_lookup (lines : List Line) (ms ms2 : List (String × MetricEntry))
    (name : String) (hn : name ≠ "http_reqs") (h : ms.lookup name = ms2.lookup name) :
    (lines.foldl processLine ms).lookup name =
      ((lines.filter fun l => !isHttpReqsPoint l).foldl processLine ms2).lookup name := by
  induction lines generalizing ms ms2 with
  | nil => exact h
  | cons l rest ih =>
    rw [List.foldl_cons]
    by_cases hl : isHttpReqsPoint l = true
    · have hf : (List.filter (fun l => !isHttpReqsPoint l) (l :: rest)) =
          List.filter (fun l => !isHttpReqsPoint l) rest := by
        simp [List.filter_cons, hl]
      rw [hf]
      apply ih
      rw [processLine_lookup_httpReqs ms l name hl hn]
      exact h
    · have hf : (List.filter (fun l => !isHttpReqsPoint l) (l :: rest)) =
          l :: List.filter (fun l => !isHttpReqsPoint l) rest := by
        simp [List.filter_cons, hl]
      rw [hf, List.foldl_cons]
      apply ih
      exact processLine_lookup_congr ms ms2 l name h

theorem specViolations_congr (p1 p2 : Performance) (c1 c2 : ChecksView)
    (h1 : p1.responseTime = p2.responseTime) (h2 : p1.errorRate = p2.errorRate)
    (h3 : c1 = c2) : specViolations p1 c1 = specViolations p2 c2 := by
  simp only [specViolations, specPerformanceRule, specReliabilityRule, h1, h2, h3]

theorem specViolations_shape (perf : Performance) (ck : ChecksView) :
    (specViolations perf ck).length ≤ 3 ∧
      ((specViolations perf ck).map fun v => v.type).Nodup ∧
      ∀ v ∈ specViolations perf ck,
        v.metric = "http_req_duration_p95" ∨ v.metric = "http_req_failed_rate" ∨
          v.metric = "checks_rate" := by
  obtain ⟨rt, er, rq⟩ := perf
  rcases rt with _ | ⟨avg, _ | p95, p99⟩ <;> rcases er with _ | ⟨tot, rate⟩ <;>
    rcases ck with _ | ⟨ctot, crate⟩ <;>
    simp only [specViolations, specPerformanceRule, specReliabilityRule,
      specFunctionalityRule] <;>
    (try split_ifs) <;> simp

end K6ResultsParser

namespace K6ResultsParser

open K6

/-- The summaries of the names other than `http_reqs` do not depend on the `http_reqs` points. -/
theorem report_lookup_without_httpReqs (now : String) (l1 l2 : List Line)
    (hsame : (l1.filter fun l => !isHttpReqsPoint l) = l2.filter fun l => !isHttpReqsPoint l)
    (p1 p2 : K6ResultsParser) (r1 r2 : Report)
    (hp1 : parseFile now (some l1) new = .ok p1) (hr1 : p1.summary = some r1)
    (hp2 : parseFile now (some l2) new = .ok p2) (hr2 : p2.summary = some r2)
    (name : String) (hn : name ≠ "http_reqs") :
    r1.metrics.lookup name = r2.metrics.lookup name := by
  obtain ⟨q1, s1, hq1, hs1, hm1, -, -, -, -, hl1⟩ := parseFile_new_report now l1
  obtain ⟨q2, s2, hq2, hs2, hm2, -, -, -, -, hl2⟩ := parseFile_new_report now l2
  have e1 := Except.ok.inj (hq1.symm.trans hp1)
  subst e1
  have e2 := Except.ok.inj (hq2.symm.trans hp2)
  subst e2
  have e3 := Option.some.inj (hs1.symm.trans hr1)
  subst e3
  have e4 := Option.some.inj (hs2.symm.trans hr2)
  subst e4
  rw [hl1, hl2, hm1, hm2, foldl_filter_lookup l1 [] [] name hn rfl,
    foldl_filter_lookup l2 [] [] name hn rfl, hsame]

/-- C21: the violation sequence of every report has at most three entries, with pairwise
distinct categories, each on one of the metrics `http_req_duration_p95`, `http_req_failed_rate`,
`checks_rate` (so never on `http_reqs_rate` or `http_req_duration_p95_authenticated`); and two
streams that differ only in their `http_reqs` points give the same violation sequence and the
same exit code of `parse-results`. -/
theorem violations_bounded (now : String) (l1 l2 : List Line)
    (hsame : (l1.filter fun l => !isHttpReqsPoint l) = l2.filter fun l => !isHttpReqsPoint l) :
    ∃ p1 r1 p2 r2, parseFile now (some l1) new = .ok p1 ∧ p1.summary = some r1 ∧
      parseFile now (some l2) new = .ok p2 ∧ p2.summary = some r2 ∧
      r1.errors.length ≤ 3 ∧ (r1.errors.map fun v => v.type).Nodup ∧
      (∀ v ∈ r1.errors,
        (v.metric = "http_req_duration_p95" ∨ v.metric = "http_req_failed_rate" ∨
          v.metric = "checks_rate") ∧
        v.metric ≠ "http_reqs_rate" ∧ v.metric ≠ "http_req_duration_p95_authenticated") ∧
      r1.errors = r2.errors ∧
      ∀ (args : List String) (writable : String → Bool),
        ParseK6Results.main now args (fun _ => some l1) writable =
          ParseK6Results.main now args (fun _ => some l2) writable := by
  obtain ⟨p1, r1, hp1, hr1, -, -, he1, ⟨ha1, hb1, -, hd1⟩, -, -⟩ := parseFile_new_report now l1
  obtain ⟨p2, r2, hp2, hr2, -, -, he2, ⟨ha2, hb2, -, hd2⟩, -, -⟩ := parseFile_new_report now l2
  have hlook := report_lookup_without_httpReqs now l1 l2 hsame p1 p2 r1 r2 hp1 hr1 hp2 hr2
  have hrt : r1.performance.responseTime = r2.performance.responseTime := by
    rw [ha1, ha2, hlook "http_req_duration" (by decide)]
  have her : r1.performance.errorRate = r2.performance.errorRate := by
    rw [hb1, hb2, hlook "http_req_failed" (by decide)]
  have hck : r1.checks = r2.checks := by
    rw [hd1, hd2, hlook "checks" (by decide)]
  have herr : r1.errors = r2.errors := by
    rw [he1, he2]
    exact specViolations_congr _ _ _ _ hrt her hck
  obtain ⟨hlen, hnd, hmet⟩ := specViolations_shape r1.performance r1.checks
  rw [← he1] at hlen hnd hmet
  refine ⟨p1, r1, p2, r2, hp1, hr1, hp2, hr2, hlen, hnd, ?_, herr, ?_⟩
  · intro v hv
    have h := hmet v hv
    refine ⟨h, ?_, ?_⟩
    · rcases h with h | h | h <;> rw [h] <;> decide
    · rcases h with h | h | h <;> rw [h] <;> decide
  · intro args writable
    cases args with
    | nil => rfl
    | cons inputFile rest =>
      simp only [ParseK6Results.main, hp1, hp2, hr1, hr2, herr]

/-- Witness of C21: scenario A with and without one `http_reqs` sample. -/
theorem violations_bounded_witness :
    ((scenarioAWithRequests.filter fun l => !isHttpReqsPoint l) =
      scenarioA.filter fun l => !isHttpReqsPoint l) ∧
    ∃ p1 r1 p2 r2, parseFile "t" (some scenarioAWithRequests) new = .ok p1 ∧
      p1.summary = some r1 ∧
      parseFile "t" (some scenarioA) new = .ok p2 ∧ p2.summary = some r2 ∧
      r1.errors.length ≤ 3 ∧ (r1.errors.map fun v => v.type).Nodup ∧
      (∀ v ∈ r1.errors,
        (v.metric = "http_req_duration_p95" ∨ v.metric = "http_req_failed_rate" ∨
          v.metric = "checks_rate") ∧
        v.metric ≠ "http_reqs_rate" ∧ v.metric ≠ "http_req_duration_p95_authenticated") ∧
      r1.errors = r2.errors ∧
      ∀ (args : List String) (writable : String → Bool),
        ParseK6Results.main "t" args (fun _ => some scenarioAWithRequests) writable =
          ParseK6Results.main "t" args (fun _ => some scenarioA) writable :=
  have h : (scenarioAWithRequests.filter fun l => !isHttpReqsPoint l) =
      scenarioA.filter fun l => !isHttpReqsPoint l := by
    simp [scenarioAWithRequests, List.filter_append, pointLine, isHttpReqsPoint]
  ⟨h, violations_bounded "t" scenarioAWithRequests scenarioA h⟩

end K6ResultsParser

/-! ## Runs without any valid sample (C23) and the check-pass-rate line (C22) -/

namespace K6ResultsParser

open K6

theorem lookup_ne_none_of_mem {α : Type} (o : List (String × α)) (k : String) (v : α)
    (h : (k, v) ∈ o) : o.lookup k ≠ none := by
  induction o with
  | nil => exact absurd h (List.not_mem_nil _)
  | cons hd rest ih =>
    obtain ⟨k1, v1⟩ := hd
    by_cases hk : k = k1
    · subst hk
      simp [List.lookup]
    · have hb : (k == k1) = false := by simpa using hk
      simp only [List.lookup, hb]
      apply ih
      rcases List.mem_cons.mp h with h1 | h1
      · exact absurd (congrArg Prod.fst h1) hk
      · exact h1

/-- C23: for a stream without any valid sample (no `"Point"` record carries a non-null value:
an empty file, unparsable lines, `"Metric"` records, records of other types, null-valued
points), `parseFile` succeeds with a report that has no per-metric summary, no violation and
exactly the one SUCCESS recommendation, and `parse-results` exits with code 0 once the output
file is written. -/
theorem empty_run_passes (now : String) (lines : List Line)
    (hzero : ∀ name pd, some (Data.point name (some pd)) ∈ lines → pd.value = none) :
    ∃ p r, parseFile now (some lines) new = .ok p ∧ p.summary = some r ∧
      r.metrics = [] ∧ r.errors = [] ∧
      r.recommendations =
        [{ type := "SUCCESS", message := "All performance thresholds met! 🎉" }] ∧
      ∀ (inputFile : String) (rest : List String) (readFile : String → Option (List Line))
        (writable : String → Bool), readFile inputFile = some lines →
        writable (ParseK6Results.outputFile rest) = true →
        ParseK6Results.main now (inputFile :: rest) readFile writable = 0 := by
  obtain ⟨p, r, hp, hr, -, -, he, ⟨hv1, hv2, -, hv4⟩, hrec, -⟩ := parseFile_new_report now lines
  have hnone : ∀ name, r.metrics.lookup name = none :=
    fun name => report_lookup_none now lines name (hzero name) p r hp hr
  have hmetrics : r.metrics = [] := by
    apply List.eq_nil_iff_forall_not_mem.mpr
    rintro ⟨name, st⟩ hmem
    exact lookup_ne_none_of_mem _ _ _ hmem (hnone name)
  have herr : r.errors = [] := by
    rw [he]
    rw [hnone] at hv1 hv2 hv4
    simp only [Option.map_none'] at hv1 hv2
    simp only [specViolations, specPerformanceRule, specReliabilityRule,
      specFunctionalityRule, hv1, hv2, hv4]
    rfl
  refine ⟨p, r, hp, hr, hmetrics, herr, ?_, ?_⟩
  · rw [hrec, if_pos herr]
    rfl
  · intro inputFile rest readFile writable hread hw
    rw [ParseK6Results.parse_main_of_report now inputFile rest readFile writable p r
      (by rw [hread]; exact hp) hr hw, if_pos herr]

/-- Witness of C23: an unparsable line, a `"Metric"` record, a record of another type and a
null-valued point. -/
theorem empty_run_passes_witness :
    (∀ name pd, some (Data.point name (some pd)) ∈ noSampleStream → pd.value = none) ∧
    ∃ p r, parseFile "t" (some noSampleStream) new = .ok p ∧ p.summary = some r ∧
      r.metrics = [] ∧ r.errors = [] ∧
      r.recommendations =
        [{ type := "SUCCESS", message := "All performance thresholds met! 🎉" }] ∧
      ∀ (inputFile : String) (rest : List String) (readFile : String → Option (List Line))
        (writable : String → Bool), readFile inputFile = some noSampleStream →
        writable (ParseK6Results.outputFile rest) = true →
        ParseK6Results.main "t" (inputFile :: rest) readFile writable = 0 :=
  have h : ∀ name pd, some (Data.point name (some pd)) ∈ noSampleStream → pd.value = none := by
    intro name pd hpd
    simp only [noSampleStream, pointLine, List.mem_cons, Option.some.injEq, Data.point.injEq,
      List.mem_singleton, List.not_mem_nil, or_false, reduceCtorEq, false_or] at hpd
    rw [hpd.2]
  ⟨h, empty_run_passes "t" noSampleStream h⟩

/-- The console summary holds the check-pass-rate lines whatever the checks view is. -/
theorem printSummary_check_lines (fmt : NumberFormat) (r : Report)
    (h : r.checks = ChecksView.emptyObject) :
    "\n✅ Check Pass Rate:" ∈ printSummary fmt r ∧ "   Rate: NaN%" ∈ printSummary fmt r ∧
      "   Total Checks: undefined" ∈ printSummary fmt r := by
  simp only [printSummary, h]
  split_ifs <;> refine ⟨?_, ?_, ?_⟩ <;> simp only [List.mem_append, List.mem_cons] <;> simp

end K6ResultsParser

namespace TestFailureNotifier

open K6

/-- The notification message of a report whose checks view is the empty object holds the
check-pass-rate line, in the passed form and in the failures form. -/
theorem generateMessage_check_line (fmt : NumberFormat) (env : Env) (timestamp : String)
    (r : Report) (h : r.checks = ChecksView.emptyObject) :
    ∃ pre post, generateMessage fmt env timestamp { summary := some r } =
      .ok (pre ++ ("• Check Pass Rate: NaN% (undefined checks)\n" ++ post)) := by
  rw [generateMessage_eq]
  by_cases he : r.errors = []
  · refine ⟨"✅ **K6 Load Tests Passed Successfully**\n\n" ++
      (runMetadata env timestamp ++ ("**Performance Metrics:**\n" ++
        (responseTimeLine fmt r ++ errorRateLine fmt r))),
      "\n🎉 All performance thresholds met! The system is performing well.", ?_⟩
    simp only [if_pos he, passedMessage, performanceSnapshot, checkRateLine, h,
      String.append_assoc]
  · refine ⟨"🚨 **K6 Load Test Failures Detected**\n\n" ++
      (runMetadata env timestamp ++ ("**Performance Metrics:**\n" ++
        (responseTimeLine fmt r ++ errorRateLine fmt r))),
      "\n**Failed Thresholds:**\n" ++
        (concat ((r.errors.enumFrom 1).map fun nv => violationEntry fmt nv.1 nv.2) ++
          ("\n**Recommendations:**\n" ++
            (concat (r.recommendations.map recommendationBullet) ++
              ("\n**Next Steps:**\n" ++
                ("• Review the failing metrics above\n" ++
                  ("• Check recent code changes that might affect performance\n" ++
                    ("• Investigate server resources and API endpoint health\n" ++
                      "• Consider rolling back if performance degradation is significant\n"
                      ))))))), ?_⟩
    simp only [if_neg he, failuresMessage, performanceSnapshot, checkRateLine, h,
      String.append_assoc]

end TestFailureNotifier

/-- C22 (evaluation at the failing input): scenario A holds no `checks` sample, its report has
the empty object as checks view, and yet `printSummary` logs the lines `Check Pass Rate:`,
`Rate: NaN%` and `Total Checks: undefined`, and `generateMessage` puts the line
`Check Pass Rate: NaN% (undefined checks)` into its message; the same holds for every report
whose checks view is the empty object, in the passed and in the failures form. -/
theorem check_pass_rate_rendered_without_checks (fmt : K6.NumberFormat) (env : K6.Env)
    (timestamp now : String) :
    K6ResultsParser.parseFile now (some K6.scenarioA) K6ResultsParser.new =
        .ok (K6.parserA now) ∧
      (K6.parserA now).summary = some (K6.reportA now) ∧
      (K6.reportA now).checks = K6.ChecksView.emptyObject ∧
      "\n✅ Check Pass Rate:" ∈ K6ResultsParser.printSummary fmt (K6.reportA now) ∧
      "   Rate: NaN%" ∈ K6ResultsParser.printSummary fmt (K6.reportA now) ∧
      "   Total Checks: undefined" ∈ K6ResultsParser.printSummary fmt (K6.reportA now) ∧
      (∃ pre post, TestFailureNotifier.generateMessage fmt env timestamp
          { summary := some (K6.reportA now) } =
        .ok (pre ++ ("• Check Pass Rate: NaN% (undefined checks)\n" ++ post))) ∧
      ∀ r : K6.Report, r.checks = K6.ChecksView.emptyObject →
        "\n✅ Check Pass Rate:" ∈ K6ResultsParser.printSummary fmt r ∧
          ∃ pre post, TestFailureNotifier.generateMessage fmt env timestamp
              { summary := some r } =
            .ok (pre ++ ("• Check Pass Rate: NaN% (undefined checks)\n" ++ post)) := by
  have hA := K6ResultsParser.printSummary_check_lines fmt (K6.reportA now) rfl
  refine ⟨K6ResultsParser.parseFile_scenarioA now, rfl, rfl, hA.1, hA.2.1, hA.2.2,
    TestFailureNotifier.generateMessage_check_line fmt env timestamp _ rfl, ?_⟩
  intro r hr
  exact ⟨(K6ResultsParser.printSummary_check_lines fmt r hr).1,
    TestFailureNotifier.generateMessage_check_line fmt env timestamp r hr⟩

/-! ## Inherited properties of `this.metrics` (C5, C7, C14) -/

namespace K6ResultsParser
open K6

/-- On the chain the callback of `generateSummary` is the own-property callback applied to the
entry with `values` resolved. -/
theorem summarizeMetricOnChain_eq (protoValues : Option (List PointData)) (s : Report)
    (kv : String × MetricEntry) :
    summarizeMetricOnChain protoValues s kv =
      summarizeMetric s (kv.1, { defn := kv.2.defn, values := chainValues protoValues kv.2 }) := by
  unfold summarizeMetricOnChain summarizeMetric
  cases chainValues protoValues kv.2 <;> rfl

/-- While `Object.prototype` has no `values`, the read `metric.values` is the own property. -/
theorem chainValues_none (entry : MetricEntry) : chainValues none entry = entry.values := by
  unfold chainValues
  cases entry.values <;> rfl

/-- While `Object.prototype` has no `values`, the report on the chain is that of
`generateSummary`. -/
theorem generateSummaryOnChain_unpolluted (now : String) (own : List (String × MetricEntry))
    (methodValues : List (String × List PointData)) (summary : Option Report) :
    some (generateSummaryOnChain now
        { own := own, protoValues := none, methodValues := methodValues }) =
      (generateSummary now { metrics := own, summary := summary }).summary := by
  have h : summarizeMetricOnChain none = summarizeMetric := by
    funext s kv
    rw [summarizeMetricOnChain_eq, chainValues_none]
  simp only [generateSummaryOnChain, generateSummary, h]

/-- A line that names no inherited property acts on the own properties as `processLine` does and
leaves the prototype as it was. -/
theorem processLineOnChain_unpolluted (own : List (String × MetricEntry))
    (methodValues : List (String × List PointData)) (l : Line)
    (h : usesInheritedName l = false) :
    processLineOnChain { own := own, protoValues := none, methodValues := methodValues } l =
      some { own := processLine own l, protoValues := none, methodValues := methodValues } := by
  cases l with
  | none => rfl
  | some data =>
    cases data with
    | other => rfl
    | metric name d =>
      have hn : name ∉ inheritedNames := by
        simpa [usesInheritedName, lineName] using h
      have hp : name ≠ "__proto__" := fun e => hn (e ▸ List.mem_cons_self _ _)
      cases d with
      | none => rfl
      | some d => simp [processLineOnChain, processMetricOnChain, processLine, processMetric, hp]
    | point name d =>
      have hn : name ∉ inheritedNames := by
        simpa [usesInheritedName, lineName] using h
      have hp : name ≠ "__proto__" := fun e => hn (e ▸ List.mem_cons_self _ _)
      have hc : name ≠ "constructor" := fun e =>
        hn (e ▸ List.mem_cons_of_mem _ (List.mem_cons_self _ _))
      have hm : name ∉ inheritedMethodNames := fun e =>
        hn (List.mem_cons_of_mem _ (List.mem_cons_of_mem _ e))
      cases hl : own.lookup name with
      | none =>
        cases d <;>
          simp [processLineOnChain, processMetricOnChain, processLine, processMetric, hl, hp, hc,
            hm, pushPoint]
      | some entry =>
        obtain ⟨defn, values⟩ := entry
        cases values <;> cases d <;>
          simp [processLineOnChain, processMetricOnChain, processLine, processMetric, hl,
            pushPoint]

/-- The loop over lines that name no inherited property is the fold of `processLine`. -/
theorem processLinesOnChain_unpolluted (lines : List Line) (own : List (String × MetricEntry))
    (methodValues : List (String × List PointData))
    (h : ∀ l ∈ lines, usesInheritedName l = false) :
    processLinesOnChain { own := own, protoValues := none, methodValues := methodValues } lines =
      some { own := lines.foldl processLine own, protoValues := none,
             methodValues := methodValues } := by
  induction lines generalizing own with
  | nil => rfl
  | cons l ls ih =>
    rw [processLinesOnChain, processLineOnChain_unpolluted own methodValues l
      (h l (List.mem_cons_self _ _)), Option.some_bind,
      ih _ (fun x hx => h x (List.mem_cons_of_mem _ hx)), List.foldl_cons]

/-- On a stream in which no record names a metric after a property inherited from
`Object.prototype`, the run on the prototype chain returns the report of `parseFile`. -/
theorem parseFileOnChain_eq_parseFile (now : String) (lines : List Line)
    (h : ∀ l ∈ lines, usesInheritedName l = false) :
    ∃ p, parseFile now (some lines) new = .ok p ∧
      parseFileOnChain now lines MetricsObject.fresh = p.summary := by
  refine ⟨_, parseFile_some now lines new, ?_⟩
  rw [parseFileOnChain, MetricsObject.fresh, processLinesOnChain_unpolluted lines [] [] h,
    Option.map_some', generateSummaryOnChain_unpolluted now _ [] new.summary]
  rfl

/-- The report built from a `checks` definition without samples while `Object.prototype.values`
holds one sample of value 0.5. -/
theorem generateSummaryOnChain_polluted (now : String) :
    generateSummaryOnChain now
        { own := [("checks", ⟨some ⟨"checks", "rate", [], []⟩, none⟩)],
          protoValues := some [⟨"t1", some (1 / 2), []⟩], methodValues := [] } =
      pollutedReport now := by
  have hv : validValues [(⟨"t1", some (1 / 2), []⟩ : PointData)] = [1 / 2] := by
    simp [validValues, List.reduceOption]
  have hr : round3 (1 / 2) = 1 / 2 := by
    rw [round3_eval (1 / 2) 500 (by norm_num) (by norm_num)]
    norm_num
  simp only [generateSummaryOnChain, List.foldl, summarizeMetricOnChain_eq, chainValues,
    summarizeMetric_eq, processMetricValues_eq, Option.getD_some, hv, statOf_singleton, hr,
    pollutedReport]
  simp [withViews, objSet, evaluateThresholds, generateRecommendations, THRESHOLDS]
  norm_num
  rfl

end K6ResultsParser

namespace K6ResultsParser
open K6

/-- The report of `pollutedStream`. -/
theorem parseFileOnChain_pollutedStream (now : String) :
    parseFileOnChain now pollutedStream MetricsObject.fresh = some (pollutedReport now) := by
  have h : processLinesOnChain MetricsObject.fresh pollutedStream =
      some { own := [("checks", ⟨some ⟨"checks", "rate", [], []⟩, none⟩)],
             protoValues := some [⟨"t1", some (1 / 2), []⟩], methodValues := [] } := rfl
  rw [parseFileOnChain, h, Option.map_some', generateSummaryOnChain_polluted]

/-- The stream `pollutedStream` holds no `checks` sample. -/
theorem no_checks_sample_in_pollutedStream :
    ∀ pd, some (Data.point "checks" (some pd)) ∈ pollutedStream → pd.value = none := by
  intro pd hpd
  simp [pollutedStream, pointLine] at hpd

/-- The loop of `parseFile` on `protoPointStream`: both samples end on `Object.prototype.values`
and `this.metrics` gets no own property. -/
theorem processLinesOnChain_protoPointStream :
    processLinesOnChain MetricsObject.fresh protoPointStream =
      some { own := [],
             protoValues := some [⟨"t1", some 100, []⟩, ⟨"t2", some 300, []⟩],
             methodValues := [] } := by
  rfl

/-- C5 (evaluation at the failing input): a metric with zero valid samples can still appear in
the report. The stream `pollutedStream` holds no `checks` sample (one `"Point"` record of the
metric `__proto__`, then the definition of `checks`), yet the report has a `checks` summary with
`count = 1` and the checks view `{total: 0.5, rate: 0.5}`: the sample recorded under `__proto__`
is stored in `Object.prototype.values`, which the `checks` entry inherits. -/
theorem inherited_values_are_summarised (now : String) :
    (∀ pd, some (Data.point "checks" (some pd)) ∈ pollutedStream → pd.value = none) ∧
    ∃ r, parseFileOnChain now pollutedStream MetricsObject.fresh = some r ∧
      r.metrics.lookup "checks" =
        some { count := 1, sum := 1 / 2, avg := 1 / 2, min := some (1 / 2), max := some (1 / 2),
               p50 := some (1 / 2), p90 := some (1 / 2), p95 := some (1 / 2),
               p99 := some (1 / 2) } ∧
      r.checks = ChecksView.rated (1 / 2) (1 / 2) :=
  ⟨no_checks_sample_in_pollutedStream, pollutedReport now, parseFileOnChain_pollutedStream now,
    rfl, rfl⟩

/-- C14 (evaluation at the failing input): absence of `checks` data can still produce a
FUNCTIONALITY violation. The stream `pollutedStream` holds no `checks` sample, yet `parseFile`
reports exactly one violation, of type FUNCTIONALITY, with the check rate 0.5 of the sample
inherited from `Object.prototype.values`. -/
theorem inherited_values_raise_violation (now : String) :
    (∀ pd, some (Data.point "checks" (some pd)) ∈ pollutedStream → pd.value = none) ∧
    ∃ r, parseFileOnChain now pollutedStream MetricsObject.fresh = some r ∧
      r.errors = [{ type := "FUNCTIONALITY", metric := "checks_rate", actual := 1 / 2,
                    threshold := 9 / 10, message := .checkRateBelow (1 / 2) (9 / 10) }] ∧
      ∃ v ∈ r.errors, v.type = "FUNCTIONALITY" :=
  ⟨no_checks_sample_in_pollutedStream, pollutedReport now, parseFileOnChain_pollutedStream now,
    rfl, _, List.mem_singleton.mpr rfl, rfl⟩

/-- C7 (evaluation at the failing input): `N` well-formed samples of one metric and one
unparsable line do not always give a summary with `count = N`. In `protoPointStream` the metric
is `__proto__` and `N = 2`: `parseFile` completes, with or without the unparsable line, but both
samples are stored in `Object.prototype.values`, `this.metrics` has no own property, and the
report holds no summary at all. -/
theorem proto_points_have_no_summary (now : String) :
    ∃ r, parseFileOnChain now protoPointStream MetricsObject.fresh = some r ∧
      parseFileOnChain now
        [pointLine "__proto__" { time := "t1", value := some 100, tags := [] },
          pointLine "__proto__" { time := "t2", value := some 300, tags := [] }]
        MetricsObject.fresh = some r ∧
      r.metrics = [] ∧ r.metrics.lookup "__proto__" = none := by
  refine ⟨generateSummaryOnChain now
    { own := [], protoValues := some [⟨"t1", some 100, []⟩, ⟨"t2", some 300, []⟩],
      methodValues := [] }, ?_, rfl, rfl, rfl⟩
  rw [parseFileOnChain, processLinesOnChain_protoPointStream, Option.map_some']

end K6ResultsParser

/-! ## The percentile index in double precision (C3) -/

namespace K6ResultsParser
open K6

/-- An upper bound of the rounding: a number below `M + 1/2` rounds to at most `M`. -/
theorem roundNearestEven_le (t : ℚ) (M : ℤ) (h : t < (M : ℚ) + 1 / 2) :
    roundNearestEven t ≤ M := by
  have hfl : ⌊t⌋ ≤ M := by
    have : ⌊t⌋ < M + 1 := Int.floor_lt.mpr (by push_cast; linarith)
    omega
  rcases lt_or_eq_of_le hfl with hlt | heq
  · simp only [roundNearestEven]
    split_ifs <;> omega
  · have hr : t - (⌊t⌋ : ℚ) < 1 / 2 := by
      rw [heq]
      linarith
    simp only [roundNearestEven, if_pos hr]
    omega

/-- A lower bound of the rounding: a number that is at least the integer `M` rounds to at
least `M`. -/
theorem le_roundNearestEven (t : ℚ) (M : ℤ) (h : (M : ℚ) ≤ t) : M ≤ roundNearestEven t := by
  have hfl : M ≤ ⌊t⌋ := Int.le_floor.mpr h
  simp only [roundNearestEven]
  split_ifs <;> omega

/-- Rounding a number in the upper half of `(f, f + 1)`. -/
theorem roundNearestEven_up (x : ℚ) (f : ℤ) (h1 : (f : ℚ) + 1 / 2 < x) (h2 : x < (f : ℚ) + 1) :
    roundNearestEven x = f + 1 := by
  have hf : ⌊x⌋ = f := Int.floor_eq_iff.mpr ⟨by linarith, h2⟩
  simp only [roundNearestEven, hf]
  rw [if_neg (by linarith), if_pos (by linarith)]

/-- Rounding a number in the lower half of `[f, f + 1)`. -/
theorem roundNearestEven_down (x : ℚ) (f : ℤ) (h1 : (f : ℚ) ≤ x) (h2 : x < (f : ℚ) + 1 / 2) :
    roundNearestEven x = f := by
  have hf : ⌊x⌋ = f := Int.floor_eq_iff.mpr ⟨h1, by linarith⟩
  simp only [roundNearestEven, hf]
  rw [if_pos (by linarith)]

/-- Evaluation of `toDouble` from the binary exponent and the rounded significand. -/
theorem toDouble_eval (x : ℚ) (e m : ℤ) (hx : 0 < x) (h1 : (2 : ℚ) ^ e ≤ x)
    (h2 : x < (2 : ℚ) ^ (e + 1)) (hm : roundNearestEven (x / (2 : ℚ) ^ (e - 52)) = m) :
    toDouble x = (m : ℚ) * (2 : ℚ) ^ (e - 52) := by
  have hlog : Int.log 2 |x| = e := by
    rw [abs_of_pos hx]
    apply le_antisymm
    · have := (Int.lt_zpow_iff_log_lt (b := 2) (by norm_num) hx (x := e + 1)).mp
        (by exact_mod_cast h2)
      omega
    · exact (Int.zpow_le_iff_le_log (b := 2) (by norm_num) hx).mp (by exact_mod_cast h1)
  simp only [toDouble, hlog, hm, if_neg (ne_of_gt hx)]

/-- The double nearest to a non-negative number is non-negative. -/
theorem toDouble_nonneg (x : ℚ) (hx : 0 ≤ x) : 0 ≤ toDouble x := by
  rcases eq_or_lt_of_le hx with h0 | hpos
  · rw [← h0]
    simp [toDouble]
  · simp only [toDouble, if_neg (ne_of_gt hpos)]
    apply mul_nonneg
    · have : (0 : ℤ) ≤ roundNearestEven (x / (2 : ℚ) ^ (Int.log 2 |x| - 52)) := by
        apply le_roundNearestEven
        push_cast
        positivity
      exact_mod_cast this
    · positivity

/-- Rounding to a double does not cross an integer above: integers below 2^53 are doubles. -/
theorem toDouble_le_int (x : ℚ) (c : ℤ) (hx0 : 0 ≤ x) (hxc : x ≤ (c : ℚ)) (hx53 : x < 2 ^ 53) :
    toDouble x ≤ (c : ℚ) := by
  rcases eq_or_lt_of_le hx0 with h0 | hpos
  · rw [← h0] at hxc ⊢
    simpa [toDouble] using hxc
  have he3 : Int.log 2 x < 53 :=
    (Int.lt_zpow_iff_log_lt (b := 2) (by norm_num) hpos).mp (by exact_mod_cast hx53)
  obtain ⟨m, hm⟩ : ∃ m : ℕ, (52 : ℤ) - Int.log 2 x = m := ⟨(52 - Int.log 2 x).toNat, by omega⟩
  have hg : (2 : ℚ) ^ (Int.log 2 x - 52) = 1 / (2 : ℚ) ^ m := by
    have : Int.log 2 x - 52 = -(m : ℤ) := by omega
    rw [this, zpow_neg, zpow_natCast, one_div]
  have hK0 : (0 : ℚ) < 2 ^ m := by positivity
  have hto : toDouble x = (roundNearestEven (x * 2 ^ m) : ℚ) / 2 ^ m := by
    simp only [toDouble, if_neg (ne_of_gt hpos), abs_of_pos hpos, hg]
    field_simp
  have hup2 : roundNearestEven (x * 2 ^ m) ≤ c * 2 ^ m := by
    apply roundNearestEven_le
    push_cast
    nlinarith
  rw [hto, div_le_iff₀ hK0]
  have : (roundNearestEven (x * 2 ^ m) : ℚ) ≤ ((c * 2 ^ m : ℤ) : ℚ) := by exact_mod_cast hup2
  push_cast at this
  linarith

/-- The ceiling of the double nearest to `x` is the integer `c`, for `0 < x < 2^32` lying at
least `2^(-21)` above `c − 1` and at most `ε` above `c`, where `ε < x / 2^54`, which is less than
half the spacing of the doubles around `x`. -/
theorem ceil_toDouble (x ε : ℚ) (c : ℤ) (hx0 : 0 < x) (hx32 : x < 2 ^ 32)
    (hup : x ≤ (c : ℚ) + ε) (hε : ε * 2 ^ 53 < x / 2)
    (hlow : (c : ℚ) - 1 + 1 / 2 ^ 21 ≤ x) : ⌈toDouble x⌉ = c := by
  have he1 : ((2 : ℕ) : ℚ) ^ Int.log 2 x ≤ x := Int.zpow_log_le_self (by norm_num) hx0
  have he2 : x < ((2 : ℕ) : ℚ) ^ (Int.log 2 x + 1) := Int.lt_zpow_succ_log_self (by norm_num) x
  have he3 : Int.log 2 x < 32 :=
    (Int.lt_zpow_iff_log_lt (b := 2) (by norm_num) hx0).mp (by exact_mod_cast hx32)
  obtain ⟨m, hm⟩ : ∃ m : ℕ, (52 : ℤ) - Int.log 2 x = m := ⟨(52 - Int.log 2 x).toNat, by omega⟩
  have hm21 : 21 ≤ m := by omega
  set e := Int.log 2 x with he
  have hg : (2 : ℚ) ^ (e - 52) = 1 / (2 : ℚ) ^ m := by
    have : e - 52 = -(m : ℤ) := by omega
    rw [this, zpow_neg, zpow_natCast, one_div]
  have hK0 : (0 : ℚ) < 2 ^ m := by positivity
  have hK21 : (2 : ℚ) ^ 21 ≤ 2 ^ m := pow_le_pow_right₀ (by norm_num) hm21
  have hKx : x * 2 ^ m < 2 ^ 53 := by
    have h53 : ((2 : ℕ) : ℚ) ^ (e + 1) * 2 ^ m = 2 ^ 53 := by
      have : e + 1 = (53 : ℤ) - m := by omega
      rw [this, zpow_sub₀ (by norm_num), zpow_natCast]
      field_simp
      norm_cast
    calc x * 2 ^ m < ((2 : ℕ) : ℚ) ^ (e + 1) * 2 ^ m := by
          exact mul_lt_mul_of_pos_right he2 hK0
      _ = 2 ^ 53 := h53
  have hεK : ε * 2 ^ m < 1 / 2 := by
    by_contra hcon
    push_neg at hcon
    have hεpos : 0 < ε := by
      by_contra h0
      push_neg at h0
      have : ε * 2 ^ m ≤ 0 := mul_nonpos_of_nonpos_of_nonneg h0 hK0.le
      linarith
    have h1 : x / 2 ≤ ε * 2 ^ m * x := by nlinarith
    have h2 : ε * 2 ^ m * x < ε * 2 ^ 53 := by
      have := mul_lt_mul_of_pos_left hKx hεpos
      linarith
    linarith
  have hto : toDouble x = (roundNearestEven (x * 2 ^ m) : ℚ) / 2 ^ m := by
    simp only [toDouble, if_neg (ne_of_gt hx0), abs_of_pos hx0, ← he, hg]
    field_simp
  have hup2 : roundNearestEven (x * 2 ^ m) ≤ c * 2 ^ m := by
    apply roundNearestEven_le
    push_cast
    nlinarith
  have hlow2 : (c - 1) * 2 ^ m + 1 ≤ roundNearestEven (x * 2 ^ m) := by
    apply le_roundNearestEven
    push_cast
    have : (2 : ℚ) ^ m / 2 ^ 21 ≥ 1 := by
      rw [ge_iff_le, le_div_iff₀ (by positivity)]
      linarith
    have h3 : ((c : ℚ) - 1 + 1 / 2 ^ 21) * 2 ^ m ≤ x * 2 ^ m :=
      mul_le_mul_of_nonneg_right hlow hK0.le
    have h4 : ((c : ℚ) - 1 + 1 / 2 ^ 21) * 2 ^ m = (c - 1) * 2 ^ m + 2 ^ m / 2 ^ 21 := by ring
    linarith
  rw [hto]
  apply ceil_eval
  · rw [lt_div_iff₀ hK0]
    have : (((c - 1) * 2 ^ m + 1 : ℤ) : ℚ) ≤ (roundNearestEven (x * 2 ^ m) : ℚ) := by
      exact_mod_cast hlow2
    push_cast at this
    linarith
  · rw [div_le_iff₀ hK0]
    have : (roundNearestEven (x * 2 ^ m) : ℚ) ≤ ((c * 2 ^ m : ℤ) : ℚ) := by exact_mod_cast hup2
    push_cast at this
    linarith

/-- A product `P/100 × n` of natural numbers lies at least `1/100` above the integer below its
ceiling. -/
theorem ceil_mul_gap (P n : ℕ) :
    ((⌈(P : ℚ) / 100 * (n : ℚ)⌉ : ℤ) : ℚ) - 1 + 1 / 100 ≤ (P : ℚ) / 100 * (n : ℚ) := by
  have h1 : ((⌈(P : ℚ) / 100 * (n : ℚ)⌉ : ℤ) : ℚ) - 1 < (P : ℚ) / 100 * (n : ℚ) := by
    have := Int.ceil_lt_add_one ((P : ℚ) / 100 * (n : ℚ))
    linarith
  have h2 : (100 : ℚ) * (⌈(P : ℚ) / 100 * (n : ℚ)⌉ - 1) < ((P * n : ℕ) : ℚ) := by
    push_cast
    linarith
  have h3 : 100 * (⌈(P : ℚ) / 100 * (n : ℚ)⌉ - 1) < ((P * n : ℕ) : ℤ) := by
    exact_mod_cast h2
  have h4 : 100 * (⌈(P : ℚ) / 100 * (n : ℚ)⌉ - 1) + 1 ≤ ((P * n : ℕ) : ℤ) := by omega
  have h5 : ((100 * (⌈(P : ℚ) / 100 * (n : ℚ)⌉ - 1) + 1 : ℤ) : ℚ) ≤ (((P * n : ℕ) : ℤ) : ℚ) := by
    exact_mod_cast h4
  push_cast at h5
  linarith

/-- For a double `r` close enough to `P/100` and `n < 2^32`, the ceiling of the double product
`r × n` is the ceiling of the exact `P/100 × n`. -/
theorem ceil_toDouble_ratio (P : ℕ) (r : ℚ) (n : ℕ) (hr0 : 0 < r) (hr1 : r < 1)
    (hδ : |r - (P : ℚ) / 100| * 2 ^ 32 ≤ 1 / 200)
    (hδ53 : (r - (P : ℚ) / 100) * 2 ^ 53 < r / 2) (hn : n < 2 ^ 32) :
    ⌈toDouble (r * (n : ℚ))⌉ = ⌈(P : ℚ) / 100 * (n : ℚ)⌉ := by
  rcases Nat.eq_zero_or_pos n with h0 | hpos
  · subst h0
    simp [toDouble]
  have hnq : (0 : ℚ) < n := by exact_mod_cast hpos
  have hn1 : (1 : ℚ) ≤ n := by exact_mod_cast hpos
  have hn32 : (n : ℚ) < 2 ^ 32 := by exact_mod_cast hn
  have habs := abs_le.mp (le_refl |r - (P : ℚ) / 100|)
  have hδn : |r - (P : ℚ) / 100| * (n : ℚ) ≤ 1 / 200 := by
    have : |r - (P : ℚ) / 100| * (n : ℚ) ≤ |r - (P : ℚ) / 100| * 2 ^ 32 :=
      mul_le_mul_of_nonneg_left hn32.le (abs_nonneg _)
    linarith
  have hgap := ceil_mul_gap P n
  have hceil : (P : ℚ) / 100 * (n : ℚ) ≤ (⌈(P : ℚ) / 100 * (n : ℚ)⌉ : ℚ) := Int.le_ceil _
  apply ceil_toDouble (r * (n : ℚ)) (max (r - (P : ℚ) / 100) 0 * (n : ℚ))
  · positivity
  · nlinarith
  · have : (r - (P : ℚ) / 100) * (n : ℚ) ≤ max (r - (P : ℚ) / 100) 0 * (n : ℚ) :=
      mul_le_mul_of_nonneg_right (le_max_left _ _) hnq.le
    linarith
  · rcases le_total (r - (P : ℚ) / 100) 0 with hneg | hnonneg
    · rw [max_eq_right hneg]
      have : 0 < r * (n : ℚ) := by positivity
      linarith
    · rw [max_eq_left hnonneg]
      have : (r - (P : ℚ) / 100) * 2 ^ 53 * (n : ℚ) < r / 2 * (n : ℚ) :=
        mul_lt_mul_of_pos_right hδ53 hnq
      linarith
  · have h1 : -(|r - (P : ℚ) / 100| * (n : ℚ)) ≤ (r - (P : ℚ) / 100) * (n : ℚ) := by
      have := mul_le_mul_of_nonneg_right habs.1 hnq.le
      linarith
    have h2 : (1 : ℚ) / 2 ^ 21 ≤ 1 / 200 := by norm_num
    linarith

/-- The double `50 / 100` is exactly one half. -/
theorem toDouble_ratio_50 : toDouble (50 / 100) = 1 / 2 := by
  rw [toDouble_eval (50 / 100) (-1) 4503599627370496 (by norm_num) (by norm_num) (by norm_num)
    (by
      rw [roundNearestEven_down ((50 / 100 : ℚ) / (2 : ℚ) ^ ((-1 : ℤ) - 52)) 4503599627370496
        (by norm_num) (by norm_num)])]
  norm_num

/-- The double `90 / 100`, slightly above 0.9. -/
theorem toDouble_ratio_90 : toDouble (90 / 100) = 8106479329266893 / 9007199254740992 := by
  rw [toDouble_eval (90 / 100) (-1) 8106479329266893 (by norm_num) (by norm_num) (by norm_num)
    (by
      rw [roundNearestEven_up ((90 / 100 : ℚ) / (2 : ℚ) ^ ((-1 : ℤ) - 52)) 8106479329266892
        (by norm_num) (by norm_num)]
      norm_num)]
  norm_num

/-- The double `95 / 100`, slightly below 0.95. -/
theorem toDouble_ratio_95 : toDouble (95 / 100) = 4278419646001971 / 4503599627370496 := by
  rw [toDouble_eval (95 / 100) (-1) 8556839292003942 (by norm_num) (by norm_num) (by norm_num)
    (by
      rw [roundNearestEven_down ((95 / 100 : ℚ) / (2 : ℚ) ^ ((-1 : ℤ) - 52)) 8556839292003942
        (by norm_num) (by norm_num)])]
  norm_num

/-- The double `99 / 100`, slightly below 0.99. -/
theorem toDouble_ratio_99 : toDouble (99 / 100) = 4458563631096791 / 4503599627370496 := by
  rw [toDouble_eval (99 / 100) (-1) 8917127262193582 (by norm_num) (by norm_num) (by norm_num)
    (by
      rw [roundNearestEven_down ((99 / 100 : ℚ) / (2 : ℚ) ^ ((-1 : ℤ) - 52)) 8917127262193582
        (by norm_num) (by norm_num)])]
  norm_num

/-- For the four percentiles `processMetricValues` asks for and every array of fewer than 2^32
elements (the largest length of a JavaScript array is 2^32 − 1), the index computed in double
precision is the exact one, so `percentileDouble` and `percentile` return the same element. -/
theorem percentileDouble_eq_percentile (s : List ℚ) (p : ℚ) (hp : p ∈ ([50, 90, 95, 99] : List ℚ))
    (hlen : s.length < 2 ^ 32) : percentileDouble s p = percentile s p := by
  simp only [List.mem_cons, List.mem_singleton, List.not_mem_nil, or_false] at hp
  rcases hp with h | h | h | h <;> subst h
  · have := ceil_toDouble_ratio 50 (1 / 2) s.length (by norm_num) (by norm_num) (by norm_num)
      (by norm_num) hlen
    simp only [percentileDouble, percentile, toDouble_ratio_50]
    rw [this]
    norm_num
  · have := ceil_toDouble_ratio 90 (8106479329266893 / 9007199254740992) s.length (by norm_num)
      (by norm_num) (by norm_num [abs_of_pos]) (by norm_num) hlen
    simp only [percentileDouble, percentile, toDouble_ratio_90]
    rw [this]
    norm_num
  · have := ceil_toDouble_ratio 95 (4278419646001971 / 4503599627370496) s.length (by norm_num)
      (by norm_num) (by norm_num [abs_of_neg]) (by norm_num) hlen
    simp only [percentileDouble, percentile, toDouble_ratio_95]
    rw [this]
    norm_num
  · have := ceil_toDouble_ratio 99 (4458563631096791 / 4503599627370496) s.length (by norm_num)
      (by norm_num) (by norm_num [abs_of_neg]) (by norm_num) hlen
    simp only [percentileDouble, percentile, toDouble_ratio_99]
    rw [this]
    norm_num

/-- In double precision too the index is in bounds: for a non-empty array of fewer than 2^32
elements and `0 ≤ p ≤ 100`, `percentileDouble` returns an element of the array. -/
theorem percentileDouble_defined (s : List ℚ) (p : ℚ) (hs : s ≠ []) (h0 : 0 ≤ p)
    (h100 : p ≤ 100) (hlen : s.length < 2 ^ 32) : ∃ v ∈ s, percentileDouble s p = some v := by
  have hn : 0 < s.length := List.length_pos.mpr hs
  have hnq : (0 : ℚ) ≤ (s.length : ℚ) := Nat.cast_nonneg _
  have hn32 : (s.length : ℚ) < 2 ^ 32 := by exact_mod_cast hlen
  have hr0 : 0 ≤ toDouble (p / 100) := toDouble_nonneg _ (by positivity)
  have hr1 : toDouble (p / 100) ≤ ((1 : ℤ) : ℚ) :=
    toDouble_le_int _ 1 (by positivity) (by push_cast; linarith) (by norm_num; linarith)
  push_cast at hr1
  have hprod : toDouble (toDouble (p / 100) * (s.length : ℚ)) ≤ ((s.length : ℤ) : ℚ) := by
    apply toDouble_le_int
    · positivity
    · push_cast
      nlinarith
    · have h53 : (2 : ℚ) ^ 32 ≤ 2 ^ 53 := by norm_num
      nlinarith
  have hceil : ⌈toDouble (toDouble (p / 100) * (s.length : ℚ))⌉ ≤ (s.length : ℤ) :=
    Int.ceil_le.mpr hprod
  have hidx : (max 0 (⌈toDouble (toDouble (p / 100) * (s.length : ℚ))⌉ - 1)).toNat < s.length := by
    omega
  refine ⟨s[(max 0 (⌈toDouble (toDouble (p / 100) * (s.length : ℚ))⌉ - 1)).toNat],
    List.getElem_mem _, ?_⟩
  simp only [percentileDouble]
  exact List.getElem?_eq_getElem hidx

/-- The double `28 / 100`: `0x1.1eb851eb851ecp-2`, slightly above 0.28. -/
theorem toDouble_ratio_28 : toDouble (28 / 100) = 5044031582654956 / 18014398509481984 := by
  rw [toDouble_eval (28 / 100) (-2) 5044031582654956 (by norm_num) (by norm_num) (by norm_num)
    (by
      rw [roundNearestEven_up ((28 / 100 : ℚ) / (2 : ℚ) ^ ((-2 : ℤ) - 52)) 5044031582654955
        (by norm_num) (by norm_num)]
      norm_num)]
  norm_num

/-- The double product of `28 / 100` and 25: one unit in the last place above 7. -/
theorem toDouble_product_28_25 :
    toDouble (5044031582654956 / 18014398509481984 * 25) =
      7881299347898369 / 1125899906842624 := by
  rw [toDouble_eval (5044031582654956 / 18014398509481984 * 25) 2 7881299347898369
    (by norm_num) (by norm_num) (by norm_num)
    (by
      rw [roundNearestEven_up ((5044031582654956 / 18014398509481984 * 25 : ℚ) /
        (2 : ℚ) ^ ((2 : ℤ) - 52)) 7881299347898368 (by norm_num) (by norm_num)]
      norm_num)]
  norm_num

/-- C3 (evaluation at the failing input): in double precision `percentile` does not always
return the element at index `ceil(p/100 × n) − 1`. For the sorted array 1, ..., 25 and `p = 28`
the nearest-rank index is `ceil(7) − 1 = 6` (the element 7, which exact arithmetic returns), but
the double `28 / 100` times 25 is `7.000000000000001`, `Math.ceil` gives 8, and the code returns
the element at index 7, which is 8. -/
theorem percentile_rank_rounded_up :
    oneTo25.Sorted (· ≤ ·) ∧ oneTo25.length = 25 ∧
    percentileDouble oneTo25 28 = some 8 ∧
    nearestRankIndex 25 28 = 6 ∧ oneTo25[6]? = some 7 ∧ percentile oneTo25 28 = some 7 := by
  have hlen : ((oneTo25.length : ℕ) : ℚ) = 25 := by
    simp [oneTo25]
  have hc : ⌈(7881299347898369 / 1125899906842624 : ℚ)⌉ = 8 :=
    ceil_eval _ 8 (by norm_num) (by norm_num)
  have hn : ⌈(28 : ℚ) / 100 * ((25 : ℕ) : ℚ)⌉ = 7 := ceil_eval _ 7 (by norm_num) (by norm_num)
  refine ⟨by norm_num [oneTo25, List.Sorted], rfl, ?_, ?_, rfl, ?_⟩
  · simp only [percentileDouble, hlen, toDouble_ratio_28, toDouble_product_28_25, hc]
    rfl
  · simp only [nearestRankIndex, hn]
    rfl
  · exact (percentile_eval oneTo25 28 6 (by norm_num [oneTo25]) (by norm_num [oneTo25])).trans rfl

end K6ResultsParser
